import Mathlib

/-!
# chkfs: a consistency checker for xv6 file-system images

A shallow embedding of `chkfs.c` and the properties of its checks.

Conventions of the embedding.

* `kernel/fs.h`, `kernel/stat.h` and `kernel/types.h` are not part of the
  repository, so the constants they define (`BSIZE`, `NDIRECT`, ...) are the
  fields of a parameter `K : FsConsts`; `xv6` holds the values of xv6-riscv.
* `uint` values are natural numbers; a sum computed in `uint` is reduced
  modulo `2 ^ 32` by `u32`.
* `rblock` is a partial function from block numbers to blocks. The C code
  reads one block through four types (`char[]`, `uint[]`, `struct dinode[]`,
  `struct dirent[]`); a `Block` keeps the four views as four fields. Every
  theorem holds for all combinations of the views, hence for the
  combinations that come from one string of bytes.
* A function that returns `-1` or `NULL` after printing diagnostics returns
  `Outcome.fail` with the lines printed, in order; `malloc` is taken to
  succeed; a store outside a `malloc`ed array is `Outcome.undefined`.
* The `int` counters of the block reference map are natural numbers, and
  so are the `int` parameters `count` and `max_entries`.
* A caller's `entries` array is the list of the entries stored in it; where
  a function takes the array with a separate `count`, the array is a
  function of the index (`buffer`).
-/

namespace Chkfs

/-! ## Data model -/

/-- The constants of `kernel/fs.h` and `kernel/stat.h` used by `chkfs.c`.
`DPB` stands for `BSIZE / sizeof(struct dirent)`. -/
structure FsConsts where
  BSIZE : Nat
  NDIRECT : Nat
  NINDIRECT : Nat
  IPB : Nat
  DPB : Nat
  DIRSIZ : Nat
  ROOTINO : Nat
  T_DIR : Nat
  FSMAGIC : Nat

/-- The values of xv6-riscv. -/
def xv6 : FsConsts where
  BSIZE := 1024
  NDIRECT := 12
  NINDIRECT := 256
  IPB := 16
  DPB := 64
  DIRSIZ := 14
  ROOTINO := 1
  T_DIR := 1
  FSMAGIC := 0x10203040

/-- The `struct superblock` of `kernel/fs.h`. -/
structure Superblock where
  magic : Nat
  size : Nat
  nblocks : Nat
  ninodes : Nat
  nlog : Nat
  logstart : Nat
  inodestart : Nat
  bmapstart : Nat

/-- The fields of `struct dinode` that `chkfs.c` reads: `type` and
`addrs[NDIRECT+1]`. -/
structure Dinode where
  type : Nat
  addrs : Nat → Nat

/-- The `struct dirent`: `inum` and `name[DIRSIZ]`, a name being its bytes. -/
structure Dirent where
  inum : Nat
  name : Nat → Nat

/-- One disk block, through each of the four C types it is read as, and,
for the block `main` copies into a `struct superblock`, through that type
(`sblock`). -/
structure Block where
  bytes : Nat → Nat
  words : Nat → Nat
  dinodes : Nat → Dinode
  dirents : Nat → Dirent
  sblock : Superblock := ⟨0, 0, 0, 0, 0, 0, 0, 0⟩

/-- The image file: what `rblock` yields to its caller for each block
number, `none` when the seek or the read fails or when the value returned,
the block number as an `int`, is negative, which every caller takes for a
failure. -/
abbrev Image := Nat → Option Block

/-- The diagnostic lines of `chkfs.c`. -/
inductive Msg where
  /-- The line "ERROR: failed to read inode block". -/
  | ReadInodeFailure
  /-- The line "ERROR: bad address in inode". -/
  | BadAddress
  /-- The line "ERROR: failed to read bitmap". -/
  | ReadBitmapFailure
  /-- The line "ERROR: address used by inode but marked free in bitmap". -/
  | UnmarkedAllocation
  /-- The line "ERROR: failed to read indirect block". -/
  | ReadIndirectFailure
  /-- The line "ERROR: failed to read directory entries". -/
  | ReadDirentsFailure
  /-- The line "ERROR: directory not properly formatted". -/
  | DirectoryFormatError
  /-- The line "ERROR: parent directory mismatch". -/
  | ParentMismatch
  /-- The line "ERROR: inode marked used but not found in a directory". -/
  | OrphanInode
  /-- The line "ERROR: bitmap marks block in use but it is not in use". -/
  | PhantomAllocation
  /-- The line "ERROR: address used more than once". -/
  | DuplicateBlockClaim
  /-- The line "ERROR: inode referred to in directory but marked free". -/
  | DanglingDirectoryEntry
  /-- The line "ERROR: bad magic number in superblock". -/
  | BadMagic
  /-- The line "Failed to read superblock". -/
  | ReadSuperblockFailure
  deriving DecidableEq, Repr

/-- The result of a C function: `ok` for `0` or a non-`NULL` pointer, `fail`
for `-1` or `NULL` with the lines printed on the way, `undefined` for a run
whose behaviour C leaves undefined. -/
inductive Outcome (α : Type) where
  | ok (a : α)
  | fail (out : List Msg)
  | undefined
  deriving DecidableEq

/-- A value of type `uint` after a 32-bit sum. -/
def u32 (x : Nat) : Nat := x % 4294967296

/-- The loop `for (i = start; <count more iterations> && cond; i++) body`,
left at the first iteration that does not return `ok`. -/
def forLoop {σ : Type} (cond : σ → Bool) (body : Nat → σ → Outcome σ) :
    Nat → Nat → σ → Outcome σ
  | 0, _, s => .ok s
  | n + 1, i, s =>
    if cond s then
      match body i s with
      | .ok s1 => forLoop cond body n (i + 1) s1
      | .fail out => .fail out
      | .undefined => .undefined
    else .ok s

/-- The loop `for (i = start; <count more iterations>; i++) s = body(i, s)`
whose body cannot fail. -/
def forPure {σ : Type} (body : Nat → σ → σ) : Nat → Nat → σ → σ
  | 0, _, s => s
  | n + 1, i, s => forPure body n (i + 1) (body i s)

/-! ## Block store, bitmap oracle, address validator, inode reader -/

/-- The function `rblock`, as its callers see it. On a file it seeks to the
`uint` product `bnum * BSIZE` and returns `bnum` as an `int`; what this
entails for an image is stated by `HighBlocksFail` and
`SameOffsetSameBlock`. -/
def rblock (img : Image) (bnum : Nat) : Option Block := img bnum

/-- The function `is_block_allocated`: `1` if allocated, `0` if free, `-1`
on error. -/
def is_block_allocated (K : FsConsts) (img : Image) (sb : Superblock)
    (blockno : Nat) : Int :=
  if blockno ≥ sb.size then -1
  else if blockno = 0 then 0
  else
    let bitmap_block := u32 (blockno / (K.BSIZE * 8) + sb.bmapstart)
    let bit_offset := blockno % (K.BSIZE * 8)
    match rblock img bitmap_block with
    | none => -1
    | some bitmap => ((bitmap.bytes (bit_offset / 8) >>> (bit_offset % 8)) &&& 1 : Nat)

/-- The function `is_valid_block`. -/
def is_valid_block (sb : Superblock) (blockno : Nat) : Bool :=
  decide (blockno ≠ 0) && decide (blockno < sb.size) &&
    decide (blockno ≥ sb.bmapstart) && decide (blockno ≠ 1)

/-- The function `read_inode`. -/
def read_inode (K : FsConsts) (img : Image) (sb : Superblock) (inum : Nat) :
    Outcome Dinode :=
  let inode_block_num := u32 (inum / K.IPB + sb.inodestart)
  match rblock img inode_block_num with
  | none => .fail [Msg.ReadInodeFailure]
  | some buf => .ok (buf.dinodes (inum % K.IPB))

/-! ## Inode block checker -/

/-- The test `check_inode_blocks` applies to every nonzero address. -/
def check_address (K : FsConsts) (img : Image) (sb : Superblock) (a : Nat) :
    Outcome Unit :=
  if !is_valid_block sb a then .fail [Msg.BadAddress]
  else
    let allocated := is_block_allocated K img sb a
    if allocated < 0 then .fail [Msg.ReadBitmapFailure]
    else if allocated = 0 then .fail [Msg.UnmarkedAllocation]
    else .ok ()

/-- The function `check_inode_blocks`. -/
def check_inode_blocks (K : FsConsts) (img : Image) (sb : Superblock)
    (dip : Dinode) : Outcome Unit :=
  match forLoop (fun _ => true)
      (fun i _ => if dip.addrs i ≠ 0 then check_address K img sb (dip.addrs i) else .ok ())
      K.NDIRECT 0 () with
  | .fail out => .fail out
  | .undefined => .undefined
  | .ok _ =>
    if dip.addrs K.NDIRECT ≠ 0 then
      match check_address K img sb (dip.addrs K.NDIRECT) with
      | .fail out => .fail out
      | .undefined => .undefined
      | .ok _ =>
        match rblock img (dip.addrs K.NDIRECT) with
        | none => .fail [Msg.ReadIndirectFailure]
        | some indirect_block =>
          forLoop (fun _ => true)
            (fun i _ =>
              if indirect_block.words i ≠ 0 then
                check_address K img sb (indirect_block.words i)
              else .ok ())
            K.NINDIRECT 0 ()
    else .ok ()

/-- The loop of `check_all_inodes` from the counter value `inum` on. The
counter is a `uint` and the bound is inclusive, so the loop need not end:
`fuel` bounds the number of iterations and the result is `none` when it is
used up. -/
def check_all_inodes_loop (K : FsConsts) (img : Image) (sb : Superblock) :
    Nat → Nat → Option (Outcome Unit)
  | 0, _ => none
  | fuel + 1, inum =>
    if inum ≤ sb.ninodes then
      match read_inode K img sb inum with
      | .fail out => some (.fail out)
      | .undefined => some .undefined
      | .ok dip =>
        if dip.type = 0 then check_all_inodes_loop K img sb fuel (u32 (inum + 1))
        else
          match check_inode_blocks K img sb dip with
          | .fail out => some (.fail out)
          | .undefined => some .undefined
          | .ok _ => check_all_inodes_loop K img sb fuel (u32 (inum + 1))
    else some (.ok ())

/-- The function `check_all_inodes`, run for at most `fuel` iterations. -/
def check_all_inodes (K : FsConsts) (img : Image) (sb : Superblock) (fuel : Nat) :
    Option (Outcome Unit) :=
  check_all_inodes_loop K img sb fuel 1

/-! ## Directory entry enumerator -/

/-- The function `is_directory`. -/
def is_directory (K : FsConsts) (dip : Dinode) : Bool := dip.type == K.T_DIR

/-- The macro `MAX_DIRENT_COUNT`. -/
def MAX_DIRENT_COUNT (K : FsConsts) : Nat := K.DPB * (K.NDIRECT + K.NINDIRECT)

/-- The function `read_dirent_block`; the result is what it stores in
`entries[0 .. count-1]`, and `count` is the length of the result. -/
def read_dirent_block (K : FsConsts) (img : Image) (blockno max_entries : Nat) :
    Outcome (List Dirent) :=
  match rblock img blockno with
  | none => .fail []
  | some block_data =>
    forLoop (fun entries => decide (entries.length < max_entries))
      (fun i entries =>
        if (block_data.dirents i).inum ≠ 0 then .ok (entries ++ [block_data.dirents i])
        else .ok entries)
      K.DPB 0 []

/-- One iteration of the two loops of `read_all_dirents`, for the block
address `a`: `entries` holds the first `total` entries. -/
def read_all_dirents_step (K : FsConsts) (img : Image) (max_entries a : Nat)
    (entries : List Dirent) : Outcome (List Dirent) :=
  if a = 0 then .ok entries
  else
    match read_dirent_block K img a (max_entries - entries.length) with
    | .ok found => .ok (entries ++ found)
    | .fail out => .fail out
    | .undefined => .undefined

/-- The function `read_all_dirents`; the result is what it stores in
`entries[0 .. total-1]`, and `total` is the length of the result. -/
def read_all_dirents (K : FsConsts) (img : Image) (_sb : Superblock) (dip : Dinode)
    (max_entries : Nat) : Outcome (List Dirent) :=
  match forLoop (fun entries => decide (entries.length < max_entries))
      (fun i entries => read_all_dirents_step K img max_entries (dip.addrs i) entries)
      K.NDIRECT 0 [] with
  | .fail out => .fail out
  | .undefined => .undefined
  | .ok entries =>
    if dip.addrs K.NDIRECT ≠ 0 ∧ entries.length < max_entries then
      match rblock img (dip.addrs K.NDIRECT) with
      | none => .fail []
      | some indirect =>
        forLoop (fun entries => decide (entries.length < max_entries))
          (fun i entries => read_all_dirents_step K img max_entries (indirect.words i) entries)
          K.NINDIRECT 0 entries
    else .ok entries

/-! ## Dot and dotdot checker -/

/-- A C string literal: the bytes of `l`, then NUL. -/
def cstr (l : List Nat) : Nat → Nat := fun i => l.getD i 0

/-- The literal ".". -/
def dotName : Nat → Nat := cstr [46]

/-- The literal "..". -/
def dotdotName : Nat → Nat := cstr [46, 46]

/-- The library function `strncmp(s1 + i, s2 + i, n)`. -/
def strncmp (s1 s2 : Nat → Nat) : Nat → Nat → Int
  | 0, _ => 0
  | n + 1, i =>
    if s1 i ≠ s2 i then (s1 i : Int) - (s2 i : Int)
    else if s1 i = 0 then 0
    else strncmp s1 s2 n (i + 1)

/-- The array a caller passes as `entries`: the list it has read, followed
by entries that are never looked at. -/
def buffer (l : List Dirent) : Nat → Dirent := fun i => l.getD i ⟨0, fun _ => 0⟩

/-- The function `check_dot_and_dotdot`; the state of the loop is
`(found_dot, found_dotdot)`. -/
def check_dot_and_dotdot (K : FsConsts) (entries : Nat → Dirent) (count self_inum : Nat) :
    Outcome Unit :=
  match forLoop (fun _ => true)
      (fun i (found : Bool × Bool) =>
        if strncmp (entries i).name dotName K.DIRSIZ 0 = 0 then
          if (entries i).inum ≠ self_inum then .fail []
          else .ok (true, found.2)
        else if strncmp (entries i).name dotdotName K.DIRSIZ 0 = 0 then .ok (found.1, true)
        else .ok found)
      count 0 (false, false) with
  | .fail out => .fail out
  | .undefined => .undefined
  | .ok found => if found.1 && found.2 then .ok () else .fail []

/-- The function `check_all_directory_formats`. -/
def check_all_directory_formats (K : FsConsts) (img : Image) (sb : Superblock) :
    Outcome Unit :=
  forLoop (fun _ => true)
    (fun inum _ =>
      match read_inode K img sb inum with
      | .fail out => .fail out
      | .undefined => .undefined
      | .ok dip =>
        if dip.type = 0 ∨ is_directory K dip = false then .ok ()
        else
          match read_all_dirents K img sb dip (MAX_DIRENT_COUNT K) with
          | .fail out => .fail (out ++ [Msg.ReadDirentsFailure])
          | .undefined => .undefined
          | .ok entries =>
            match check_dot_and_dotdot K (buffer entries) entries.length inum with
            | .fail out => .fail (out ++ [Msg.DirectoryFormatError])
            | .undefined => .undefined
            | .ok _ => .ok ())
    (sb.ninodes - 1) 1 ()

/-! ## Parent and child consistency checker -/

/-- The loop of `get_dotdot_inum`, with `n` iterations left from index `i`. -/
def get_dotdot_inum_loop (K : FsConsts) (entries : Nat → Dirent) : Nat → Nat → Int
  | 0, _ => -1
  | n + 1, i =>
    if strncmp (entries i).name dotdotName K.DIRSIZ 0 = 0 then ((entries i).inum : Int)
    else get_dotdot_inum_loop K entries n (i + 1)

/-- The function `get_dotdot_inum`. -/
def get_dotdot_inum (K : FsConsts) (entries : Nat → Dirent) (count : Nat) : Int :=
  get_dotdot_inum_loop K entries count 0

/-- The function `is_child_referenced_in_parent`: `ok true` for `1`,
`ok false` for `0`, `fail` for `-1`. -/
def is_child_referenced_in_parent (K : FsConsts) (img : Image) (sb : Superblock)
    (parent_inum child_inum : Nat) : Outcome Bool :=
  match read_inode K img sb parent_inum with
  | .fail out => .fail out
  | .undefined => .undefined
  | .ok parent_dip =>
    if is_directory K parent_dip = false then .fail []
    else
      match read_all_dirents K img sb parent_dip (MAX_DIRENT_COUNT K) with
      | .fail out => .fail out
      | .undefined => .undefined
      | .ok parent_entries => .ok (parent_entries.any (fun e => e.inum == child_inum))

/-- The function `check_parent_directory_mismatch`. -/
def check_parent_directory_mismatch (K : FsConsts) (img : Image) (sb : Superblock) :
    Outcome Unit :=
  forLoop (fun _ => true)
    (fun inum _ =>
      match read_inode K img sb inum with
      | .fail out => .fail out
      | .undefined => .undefined
      | .ok dip =>
        if dip.type = 0 ∨ is_directory K dip = false then .ok ()
        else
          match read_all_dirents K img sb dip (MAX_DIRENT_COUNT K) with
          | .fail out => .fail (out ++ [Msg.ReadDirentsFailure])
          | .undefined => .undefined
          | .ok entries =>
            if inum = K.ROOTINO then .ok ()
            else
              let parent_inum := get_dotdot_inum K (buffer entries) entries.length
              if parent_inum ≤ 0 ∨ parent_inum.toNat ≥ sb.ninodes then
                .fail [Msg.ParentMismatch]
              else
                match is_child_referenced_in_parent K img sb parent_inum.toNat inum with
                | .fail out => .fail (out ++ [Msg.ParentMismatch])
                | .undefined => .undefined
                | .ok referenced =>
                  if referenced = false then .fail [Msg.ParentMismatch] else .ok ())
    (sb.ninodes - 1) 1 ()

/-! ## Reference map builders -/

/-- The marking loop of `build_inode_reference_map` over the entries of one
directory. -/
def mark_entries (sb : Superblock) (entries : List Dirent) (referenced : Nat → Nat) :
    Nat → Nat :=
  entries.foldl
    (fun referenced e =>
      if e.inum > 0 ∧ e.inum < sb.ninodes then Function.update referenced e.inum 1
      else referenced)
    referenced

/-- The function `build_inode_reference_map` once `malloc` has returned the
array (`build_inode_reference_map_alloc` is the function from its first
line); the array is a function of the index, read below `ninodes` only. -/
def build_inode_reference_map (K : FsConsts) (img : Image) (sb : Superblock) :
    Outcome (Nat → Nat) :=
  forLoop (fun _ => true)
    (fun dir_inum referenced =>
      match read_inode K img sb dir_inum with
      | .fail out => .fail out
      | .undefined => .undefined
      | .ok dip =>
        if dip.type = 0 ∨ is_directory K dip = false then .ok referenced
        else
          match read_all_dirents K img sb dip (MAX_DIRENT_COUNT K) with
          | .fail out => .fail (out ++ [Msg.ReadDirentsFailure])
          | .undefined => .undefined
          | .ok entries => .ok (mark_entries sb entries referenced))
    (sb.ninodes - 1) 1 (fun _ => 0)

/-- The statement `referenced[a]++`. -/
def bump (referenced : Nat → Nat) (a : Nat) : Nat → Nat :=
  Function.update referenced a (referenced a + 1)

/-- What `build_block_reference_map` does with the address of one slot. -/
def claim_slot (sb : Superblock) (a : Nat) (referenced : Nat → Nat) : Outcome (Nat → Nat) :=
  if a ≠ 0 then
    if a ≥ sb.size then .fail []
    else .ok (bump referenced a)
  else .ok referenced

/-- The body of the inode loop of `build_block_reference_map`. -/
def claim_inode (K : FsConsts) (img : Image) (sb : Superblock) (inum : Nat)
    (referenced : Nat → Nat) : Outcome (Nat → Nat) :=
  match read_inode K img sb inum with
  | .fail out => .fail out
  | .undefined => .undefined
  | .ok dip =>
    if dip.type = 0 then .ok referenced
    else
      match forLoop (fun _ => true) (fun i referenced => claim_slot sb (dip.addrs i) referenced)
          K.NDIRECT 0 referenced with
      | .fail out => .fail out
      | .undefined => .undefined
      | .ok referenced =>
        if dip.addrs K.NDIRECT ≠ 0 then
          if dip.addrs K.NDIRECT ≥ sb.size then .fail []
          else
            let referenced := bump referenced (dip.addrs K.NDIRECT)
            match rblock img (dip.addrs K.NDIRECT) with
            | none => .fail []
            | some indirect =>
              forLoop (fun _ => true)
                (fun i referenced => claim_slot sb (indirect.words i) referenced)
                K.NINDIRECT 0 referenced
        else .ok referenced

/-- The array of `build_block_reference_map` after its four seeding steps,
for `size > 1`. The macro `IPB` is a quotient by `sizeof`, so the sum
`ninodes + IPB - 1` is computed in `size_t` and is not reduced. -/
def seed_blocks (K : FsConsts) (sb : Superblock) : Nat → Nat :=
  let referenced : Nat → Nat := Function.update (fun _ => 0) 1 1
  let referenced :=
    forPure (fun b referenced => if b < sb.size then bump referenced b else referenced)
      (u32 (sb.logstart + sb.nlog) - sb.logstart) sb.logstart referenced
  let bitmap_blocks := u32 (sb.size + K.BSIZE * 8 - 1) / (K.BSIZE * 8)
  let referenced :=
    forPure (fun b referenced => bump referenced b)
      (min (u32 (sb.bmapstart + bitmap_blocks)) sb.size - sb.bmapstart) sb.bmapstart referenced
  let inode_blocks := u32 ((sb.ninodes + K.IPB - 1) / K.IPB)
  forPure (fun b referenced => bump referenced b)
    (min (u32 (sb.inodestart + inode_blocks)) sb.size - sb.inodestart) sb.inodestart referenced

/-- The function `build_block_reference_map` once `malloc` has returned the
array (`build_block_reference_map_alloc` is the function from its first
line); the array is a function of the index, read and written below `size`
only. The store `referenced[1] = 1` is outside the array when `size ≤ 1`. -/
def build_block_reference_map (K : FsConsts) (img : Image) (sb : Superblock) :
    Outcome (Nat → Nat) :=
  if sb.size ≤ 1 then .undefined
  else
    forLoop (fun _ => true) (fun inum referenced => claim_inode K img sb inum referenced)
      (sb.ninodes - 1) 1 (seed_blocks K sb)

/-- The function `build_inode_reference_map` from its first line:
`allocated` tells whether `malloc` returned the array. A failed allocation
returns `NULL`; `perror` writes to the standard error stream, so it adds no
line to the output. -/
def build_inode_reference_map_alloc (K : FsConsts) (img : Image) (sb : Superblock)
    (allocated : Bool) : Outcome (Nat → Nat) :=
  if allocated = false then .fail [] else build_inode_reference_map K img sb

/-- The function `build_block_reference_map` from its first line:
`allocated` tells whether `malloc` returned the array. A failed allocation
returns `NULL`; `perror` writes to the standard error stream, so it adds no
line to the output. -/
def build_block_reference_map_alloc (K : FsConsts) (img : Image) (sb : Superblock)
    (allocated : Bool) : Outcome (Nat → Nat) :=
  if allocated = false then .fail [] else build_block_reference_map K img sb

/-! ## Cross-reference checks -/

/-- The function `check_used_inode_found_in_directory` once `malloc` has
returned the array (`check_used_inode_found_in_directory_alloc` is the
function from its first line). -/
def check_used_inode_found_in_directory (K : FsConsts) (img : Image) (sb : Superblock) :
    Outcome Unit :=
  match build_inode_reference_map K img sb with
  | .fail out => .fail out
  | .undefined => .undefined
  | .ok referenced =>
    forLoop (fun _ => true)
      (fun inum _ =>
        match read_inode K img sb inum with
        | .fail out => .fail out
        | .undefined => .undefined
        | .ok dip =>
          if dip.type ≠ 0 ∧ referenced inum = 0 then .fail [Msg.OrphanInode]
          else .ok ())
      (sb.ninodes - 1) 1 ()

/-- The function `check_referenced_blocks` once `malloc` has returned the
array (`check_referenced_blocks_alloc` is the function from its first
line). -/
def check_referenced_blocks (K : FsConsts) (img : Image) (sb : Superblock) :
    Outcome Unit :=
  match build_block_reference_map K img sb with
  | .fail out => .fail out
  | .undefined => .undefined
  | .ok referenced =>
    forLoop (fun _ => true)
      (fun blockno _ =>
        let allocated := is_block_allocated K img sb blockno
        if allocated < 0 then .fail []
        else if allocated ≠ 0 ∧ referenced blockno = 0 then .fail [Msg.PhantomAllocation]
        else .ok ())
      (sb.size - 1) 1 ()

/-- The first block `check_multiply_referenced_blocks` looks at. -/
def start_block (K : FsConsts) (sb : Superblock) : Nat :=
  u32 (sb.inodestart + (sb.ninodes + K.IPB - 1) / K.IPB)

/-- The function `check_multiply_referenced_blocks` once `malloc` has
returned the array (`check_multiply_referenced_blocks_alloc` is the function
from its first line). -/
def check_multiply_referenced_blocks (K : FsConsts) (img : Image) (sb : Superblock) :
    Outcome Unit :=
  match build_block_reference_map K img sb with
  | .fail out => .fail out
  | .undefined => .undefined
  | .ok referenced =>
    forLoop (fun _ => true)
      (fun blockno _ =>
        if referenced blockno > 1 then .fail [Msg.DuplicateBlockClaim] else .ok ())
      (sb.size - start_block K sb) (start_block K sb) ()

/-- The function `check_dirent_refers_to_allocated_inode` once `malloc` has
returned the array (`check_dirent_refers_to_allocated_inode_alloc` is the
function from its first line). -/
def check_dirent_refers_to_allocated_inode (K : FsConsts) (img : Image) (sb : Superblock) :
    Outcome Unit :=
  match build_inode_reference_map K img sb with
  | .fail out => .fail out
  | .undefined => .undefined
  | .ok referenced =>
    forLoop (fun _ => true)
      (fun inum _ =>
        if referenced inum ≠ 0 then
          match read_inode K img sb inum with
          | .fail out => .fail out
          | .undefined => .undefined
          | .ok dip =>
            if dip.type = 0 then .fail [Msg.DanglingDirectoryEntry] else .ok ()
        else .ok ())
      (sb.ninodes - 1) 1 ()

/-- The function `check_dirent_refers_to_allocated_inode` from its first
line: when `malloc` does not return the array, `build_inode_reference_map`
returns `NULL` and the check returns -1 with no line on the output. -/
def check_dirent_refers_to_allocated_inode_alloc (K : FsConsts) (img : Image)
    (sb : Superblock) (allocated : Bool) : Outcome Unit :=
  if allocated = false then .fail [] else check_dirent_refers_to_allocated_inode K img sb

/-- The function `check_multiply_referenced_blocks` from its first line:
when `malloc` does not return the array, `build_block_reference_map` returns
`NULL` and the check returns -1 with no line on the output. -/
def check_multiply_referenced_blocks_alloc (K : FsConsts) (img : Image) (sb : Superblock)
    (allocated : Bool) : Outcome Unit :=
  if allocated = false then .fail [] else check_multiply_referenced_blocks K img sb

/-- The function `check_referenced_blocks` from its first line: when `malloc`
does not return the array, `build_block_reference_map` returns `NULL` and
the check returns -1 with no line on the output. -/
def check_referenced_blocks_alloc (K : FsConsts) (img : Image) (sb : Superblock)
    (allocated : Bool) : Outcome Unit :=
  if allocated = false then .fail [] else check_referenced_blocks K img sb

/-- The function `check_used_inode_found_in_directory` from its first line:
when `malloc` does not return the array, `build_inode_reference_map` returns
`NULL` and the check returns -1 with no line on the output. -/
def check_used_inode_found_in_directory_alloc (K : FsConsts) (img : Image)
    (sb : Superblock) (allocated : Bool) : Outcome Unit :=
  if allocated = false then .fail [] else check_used_inode_found_in_directory K img sb

/-! ## Orchestrator -/

/-- Every block number of the image can be read. An image file has this for
no block number from `2^31` on (`HighBlocksFail`). -/
def AllReadable (img : Image) : Prop := ∀ b, ∃ blk, rblock img b = some blk

/-- An address passes both tests: it satisfies `is_valid_block` and
`is_block_allocated` reports it allocated. -/
def AddrOK (K : FsConsts) (img : Image) (sb : Superblock) (a : Nat) : Prop :=
  is_valid_block sb a = true ∧ is_block_allocated K img sb a = 1

/-- The address slots of an inode in the order the checker visits them:
the direct slots `0 .. NDIRECT-1`, the indirect slot, then, when the
indirect address is nonzero, the entries `0 .. NINDIRECT-1` of the
indirect block. -/
def inodeAddrSeq (K : FsConsts) (img : Image) (dip : Dinode) : List Nat :=
  (List.range K.NDIRECT).map dip.addrs ++ dip.addrs K.NDIRECT ::
    (if dip.addrs K.NDIRECT = 0 then []
     else match rblock img (dip.addrs K.NDIRECT) with
       | some blk => (List.range K.NINDIRECT).map blk.words
       | none => [])

/-- The outcome of the first element of a list on which `p` is not `ok`. -/
def firstBad (p : Nat → Outcome Unit) : List Nat → Outcome Unit
  | [] => .ok ()
  | a :: l =>
    match p a with
    | .ok _ => firstBad p l
    | .fail out => .fail out
    | .undefined => .undefined

/-- What `check_inode_blocks` does with the address of one slot. -/
def check_slot (K : FsConsts) (img : Image) (sb : Superblock) (a : Nat) :
    Outcome Unit :=
  if a ≠ 0 then check_address K img sb a else .ok ()

/-- A block of zeroes. -/
def zeroBlock : Block where
  bytes := fun _ => 0
  words := fun _ => 0
  dinodes := fun _ => ⟨0, fun _ => 0⟩
  dirents := fun _ => ⟨0, fun _ => 0⟩

/-- The entry `e` compares equal to the C string `s` under
`strncmp(e.name, s, DIRSIZ)`. -/
def named (K : FsConsts) (s : Nat → Nat) (e : Dirent) : Bool :=
  decide (strncmp e.name s K.DIRSIZ 0 = 0)

/-- A loop over the elements of a list with a state, left at the first
step that does not return `ok`. -/
def scanList {α σ : Type} (step : α → σ → Outcome σ) : List α → σ → Outcome σ
  | [], s => .ok s
  | a :: l, s =>
    match step a s with
    | .ok s1 => scanList step l s1
    | .fail out => .fail out
    | .undefined => .undefined

/-- The body of the loop of `check_dot_and_dotdot` for one entry. -/
def dot_step (K : FsConsts) (self_inum : Nat) (e : Dirent) (found : Bool × Bool) :
    Outcome (Bool × Bool) :=
  if strncmp e.name dotName K.DIRSIZ 0 = 0 then
    if e.inum ≠ self_inum then .fail []
    else .ok (true, found.2)
  else if strncmp e.name dotdotName K.DIRSIZ 0 = 0 then .ok (found.1, true)
  else .ok found

/-- The non-empty directory entries of one block, in in-block order. -/
def blockEntries (K : FsConsts) (blk : Block) : List Dirent :=
  ((List.range K.DPB).map blk.dirents).filter (fun e => decide (e.inum ≠ 0))

/-- The non-empty directory entries of the block at address `a`; an unused
slot, `a = 0`, has none. -/
def dirBlockEntries (K : FsConsts) (img : Image) (a : Nat) : List Dirent :=
  if a = 0 then []
  else match rblock img a with
    | some blk => blockEntries K blk
    | none => []

/-- The data-block slots of a directory inode in enumeration order: the
direct slots, then, when the indirect address is nonzero, the entries of
the indirect block. -/
def dirAddrSeq (K : FsConsts) (img : Image) (dip : Dinode) : List Nat :=
  (List.range K.NDIRECT).map dip.addrs ++
    (if dip.addrs K.NDIRECT = 0 then []
     else match rblock img (dip.addrs K.NDIRECT) with
       | some blk => (List.range K.NINDIRECT).map blk.words
       | none => [])

/-- The non-empty directory entries stored in the direct and
indirect-reachable blocks of an inode, in block order, then in-block
order. -/
def diskEntries (K : FsConsts) (img : Image) (dip : Dinode) : List Dirent :=
  (dirAddrSeq K img dip).flatMap (dirBlockEntries K img)

/-- The in-use directory `d` of `[1, ninodes)` has a non-empty directory
entry whose target is `i`. -/
def DirNames (K : FsConsts) (img : Image) (sb : Superblock) (d i : Nat) : Prop :=
  1 ≤ d ∧ d < sb.ninodes ∧
    ∃ dip, read_inode K img sb d = .ok dip ∧ dip.type ≠ 0 ∧ is_directory K dip = true ∧
      ∃ e ∈ diskEntries K img dip, e.inum = i

/-- The entries `build_inode_reference_map` marks for inode `d`: those of
an in-use directory, none otherwise. -/
def dirEntriesOf (K : FsConsts) (img : Image) (sb : Superblock) (d : Nat) : List Dirent :=
  match read_inode K img sb d with
  | .ok dip =>
    if dip.type = 0 ∨ is_directory K dip = false then [] else diskEntries K img dip
  | _ => []

/-- The body of the loop of `check_parent_directory_mismatch` for the inode
number `inum`. -/
def parent_body (K : FsConsts) (img : Image) (sb : Superblock) (inum : Nat) : Outcome Unit :=
  match read_inode K img sb inum with
  | .fail out => .fail out
  | .undefined => .undefined
  | .ok dip =>
    if dip.type = 0 ∨ is_directory K dip = false then .ok ()
    else
      match read_all_dirents K img sb dip (MAX_DIRENT_COUNT K) with
      | .fail out => .fail (out ++ [Msg.ReadDirentsFailure])
      | .undefined => .undefined
      | .ok entries =>
        if inum = K.ROOTINO then .ok ()
        else
          let parent_inum := get_dotdot_inum K (buffer entries) entries.length
          if parent_inum ≤ 0 ∨ parent_inum.toNat ≥ sb.ninodes then
            .fail [Msg.ParentMismatch]
          else
            match is_child_referenced_in_parent K img sb parent_inum.toNat inum with
            | .fail out => .fail (out ++ [Msg.ParentMismatch])
            | .undefined => .undefined
            | .ok referenced =>
              if referenced = false then .fail [Msg.ParentMismatch] else .ok ()

/-- The parent link of the directory `d` with inode record `dip` is
consistent: the first entry named ".." among the enumerated entries of `d`
exists, its target `p` satisfies `0 < p < ninodes`, inode `p` has type
`T_DIR`, and the enumerated entries of `p` contain an entry with target
`d`. -/
def ParentOK (K : FsConsts) (img : Image) (sb : Superblock) (d : Nat) (dip : Dinode) : Prop :=
  ∃ entries e pdip pentries,
    read_all_dirents K img sb dip (MAX_DIRENT_COUNT K) = .ok entries ∧
    entries.find? (named K dotdotName) = some e ∧
    0 < e.inum ∧ e.inum < sb.ninodes ∧
    read_inode K img sb e.inum = .ok pdip ∧ pdip.type = K.T_DIR ∧
    read_all_dirents K img sb pdip (MAX_DIRENT_COUNT K) = .ok pentries ∧
    ∃ c ∈ pentries, c.inum = d

/-- The list `L` of the specification of `read_all_dirents`: over the
nonzero direct addresses in slot order and then, if the indirect address is
nonzero, the nonzero entries of the indirect block in order, the
directory-entry records of each block in in-block order, with those whose
`inum` is 0 removed. -/
def listedEntries (K : FsConsts) (img : Image) (dip : Dinode) : List Dirent :=
  (((List.range K.NDIRECT).map dip.addrs).filter (fun a => decide (a ≠ 0)) ++
    (if dip.addrs K.NDIRECT ≠ 0 then
      match rblock img (dip.addrs K.NDIRECT) with
      | some blk => ((List.range K.NINDIRECT).map blk.words).filter (fun a => decide (a ≠ 0))
      | none => []
    else [])).flatMap
    (fun a =>
      match rblock img a with
      | some blk => ((List.range K.DPB).map blk.dirents).filter (fun e => decide (e.inum ≠ 0))
      | none => [])

/-- The image that reads as `img` where `img` can be read and as a block
of zeroes elsewhere. -/
def totalize (img : Image) : Image := fun b => some ((img b).getD zeroBlock)

/-- What `check_all_inodes` does with the inode number `n`: read the
record, skip it when free, check its blocks otherwise. -/
def inode_step (K : FsConsts) (img : Image) (sb : Superblock) (n : Nat) : Outcome Unit :=
  match read_inode K img sb n with
  | .fail out => .fail out
  | .undefined => .undefined
  | .ok dip => if dip.type = 0 then .ok () else check_inode_blocks K img sb dip

/-- Both outcomes are maps, and the two maps agree at every index below
`n`. -/
def mapsAgree (r1 r2 : Outcome (Nat → Nat)) (n : Nat) : Bool :=
  match r1, r2 with
  | .ok a, .ok b => (List.range n).all (fun i => a i == b i)
  | _, _ => false

/-- The reads of a loop over the directories succeed: every inode record of
`[1, ninodes)` is read, and `read_all_dirents` returns the entries of every
in-use directory among them. -/
def DirReads (K : FsConsts) (img : Image) (sb : Superblock) : Prop :=
  ∀ d, 1 ≤ d → d < sb.ninodes → ∃ dip, read_inode K img sb d = .ok dip ∧
    (dip.type ≠ 0 → is_directory K dip = true →
      ∃ es, read_all_dirents K img sb dip (MAX_DIRENT_COUNT K) = .ok es)

/-- The blocks `read_all_dirents` reads for an inode can be read: the block
of every nonzero direct address, the indirect block when its address is
nonzero, and the block of every nonzero entry of the indirect block. -/
def DirBlocksReadable (K : FsConsts) (img : Image) (dip : Dinode) : Prop :=
  (∀ i, i < K.NDIRECT → dip.addrs i ≠ 0 → ∃ blk, rblock img (dip.addrs i) = some blk) ∧
  (dip.addrs K.NDIRECT ≠ 0 →
    ∃ blk, rblock img (dip.addrs K.NDIRECT) = some blk ∧
      ∀ i, i < K.NINDIRECT → blk.words i ≠ 0 → ∃ b2, rblock img (blk.words i) = some b2)

/-- The reads `check_inode_blocks` makes for an inode succeed: the bitmap
is read for every address of the inode that passes `is_valid_block`, and
the indirect block is read when its address is nonzero and passes both
tests. -/
def InodeBlockReads (K : FsConsts) (img : Image) (sb : Superblock) (dip : Dinode) : Prop :=
  (∀ a ∈ inodeAddrSeq K img dip, is_valid_block sb a = true →
    ∃ blk, rblock img (u32 (a / (K.BSIZE * 8) + sb.bmapstart)) = some blk) ∧
  (dip.addrs K.NDIRECT ≠ 0 → AddrOK K img sb (dip.addrs K.NDIRECT) →
    ∃ blk, rblock img (dip.addrs K.NDIRECT) = some blk)

/-- `rblock` returns the block number as an `int`: for a block number of
`2^31` or more the value is negative, an error to every caller. -/
def HighBlocksFail (img : Image) : Prop := ∀ b, 2147483648 ≤ b → rblock img b = none

/-- `rblock` seeks to the `uint` product `bnum * BSIZE`: two block numbers
below `2^31` with the same product read the same bytes of the file. -/
def SameOffsetSameBlock (K : FsConsts) (img : Image) : Prop :=
  ∀ b c, b < 2147483648 → c < 2147483648 → u32 (b * K.BSIZE) = u32 (c * K.BSIZE) →
    rblock img b = rblock img c

/-- What `rblock` yields for the file made of the first `n` blocks of `img`,
with `BSIZE = 1024`: the seek offset is the `uint` product `bnum * 1024`, so
block `b` is read as block `b mod 2^22` of the file; the read fails past the
end of the file, and a block number of `2^31` or more is returned
negative. -/
def truncate (n : Nat) (img : Image) : Image := fun b =>
  if 2147483648 ≤ b then none
  else if n ≤ b % 4194304 then none
  else img (b % 4194304)

/-! ## Concrete inputs -/

/-- A block whose bytes are all `0xff` and whose other views are zero. -/
def onesBlock : Block where
  bytes := fun _ => 255
  words := fun _ => 0
  dinodes := fun _ => ⟨0, fun _ => 0⟩
  dirents := fun _ => ⟨0, fun _ => 0⟩

/-- An image whose every block reads as `onesBlock`: every bitmap bit is
set and every inode is free. -/
def onesImg : Image := fun _ => some onesBlock

/-- A superblock: 100 blocks, 32 inodes, log at 2..4, inode table at 5,
bitmap at 7. -/
def sb100 : Superblock where
  magic := 0x10203040
  size := 100
  nblocks := 92
  ninodes := 32
  nlog := 3
  logstart := 2
  inodestart := 5
  bmapstart := 7

/-- An inode that uses block 50 directly and block 51 as indirect block. -/
def dipGood : Dinode := ⟨2, fun i => if i = 0 then 50 else if i = 12 then 51 else 0⟩

/-- An inode whose first direct address, 200, is outside `sb100`. -/
def dipOutOfRange : Dinode := ⟨2, fun i => if i = 0 then 200 else 0⟩

/-- An image of zero blocks. -/
def zeroImg : Image := fun _ => some zeroBlock

/-- The directory entry named "." with target `n`. -/
def dotEntry (n : Nat) : Dirent := ⟨n, dotName⟩

/-- The directory entry named ".." with target `n`. -/
def dotdotEntry (n : Nat) : Dirent := ⟨n, dotdotName⟩

/-- The directory entry named "a" with target `n`. -/
def fileEntry (n : Nat) : Dirent := ⟨n, cstr [97]⟩

/-- A block of the inode table whose record 1 is a directory with the one
data block 60 and whose other records are free. -/
def rootInodeBlock : Block where
  bytes := fun _ => 0
  words := fun _ => 0
  dinodes := fun i => if i = 1 then ⟨1, fun j => if j = 0 then 60 else 0⟩ else ⟨0, fun _ => 0⟩
  dirents := fun _ => ⟨0, fun _ => 0⟩

/-- A directory block with two entries named ".", both with target 1, and
an entry ".." with target 1. -/
def twoDotsBlock : Block where
  bytes := fun _ => 0
  words := fun _ => 0
  dinodes := fun _ => ⟨0, fun _ => 0⟩
  dirents := fun i =>
    if i = 0 then dotEntry 1 else if i = 1 then dotEntry 1
    else if i = 2 then dotdotEntry 1 else ⟨0, fun _ => 0⟩

/-- An image in which, under `sb100`, inode 1 is a directory whose block 60
holds ".", "." and "..". -/
def twoDotsImg : Image := fun b =>
  if b = 5 then some rootInodeBlock else if b = 60 then some twoDotsBlock else some zeroBlock

/-- A block of the inode table: record 1 is a directory with data block
60, record 2 a file with data block 61, record 3 a directory with data
block 62; the other records are free. -/
def treeInodeBlock : Block where
  bytes := fun _ => 0
  words := fun _ => 0
  dinodes := fun i =>
    if i = 1 then ⟨1, fun j => if j = 0 then 60 else 0⟩
    else if i = 2 then ⟨2, fun j => if j = 0 then 61 else 0⟩
    else if i = 3 then ⟨1, fun j => if j = 0 then 62 else 0⟩
    else ⟨0, fun _ => 0⟩
  dirents := fun _ => ⟨0, fun _ => 0⟩

/-- The block of the root directory: ".", "..", the file "a" (inode 2) and
the directory "b" (inode 3). -/
def rootDirBlock : Block where
  bytes := fun _ => 0
  words := fun _ => 0
  dinodes := fun _ => ⟨0, fun _ => 0⟩
  dirents := fun i =>
    if i = 0 then dotEntry 1 else if i = 1 then dotdotEntry 1
    else if i = 2 then fileEntry 2 else if i = 3 then ⟨3, cstr [98]⟩ else ⟨0, fun _ => 0⟩

/-- The block of the directory 3: "." and "..", the parent being the root. -/
def subDirBlock : Block where
  bytes := fun _ => 0
  words := fun _ => 0
  dinodes := fun _ => ⟨0, fun _ => 0⟩
  dirents := fun i =>
    if i = 0 then dotEntry 3 else if i = 1 then dotdotEntry 1 else ⟨0, fun _ => 0⟩

/-- An image that, under `sb100`, holds a root directory (inode 1) with a
file (inode 2) and a subdirectory (inode 3). -/
def treeImg : Image := fun b =>
  if b = 5 then some treeInodeBlock
  else if b = 60 then some rootDirBlock
  else if b = 62 then some subDirBlock
  else some zeroBlock

/-- A bitmap block whose every byte is `0x80`: of each eight blocks only
the last is marked allocated. -/
def topBitBlock : Block where
  bytes := fun _ => 128
  words := fun _ => 0
  dinodes := fun _ => ⟨0, fun _ => 0⟩
  dirents := fun _ => ⟨0, fun _ => 0⟩

/-- An image whose every block reads as `topBitBlock`. -/
def topBitImg : Image := fun _ => some topBitBlock

/-- A directory block with ".", ".." and an entry "a" whose target is
inode 2. -/
def danglingDirBlock : Block where
  bytes := fun _ => 0
  words := fun _ => 0
  dinodes := fun _ => ⟨0, fun _ => 0⟩
  dirents := fun i =>
    if i = 0 then dotEntry 1 else if i = 1 then dotdotEntry 1
    else if i = 2 then fileEntry 2 else ⟨0, fun _ => 0⟩

/-- An image in which, under `sb100`, the root directory names inode 2
while inode 2 is free. -/
def danglingImg : Image := fun b =>
  if b = 5 then some rootInodeBlock else if b = 60 then some danglingDirBlock
  else some zeroBlock

/-- A block whose inode record 0 is in use with the direct address 200. -/
def pastEndBlock : Block where
  bytes := fun _ => 0
  words := fun _ => 0
  dinodes := fun i => if i = 0 then ⟨2, fun j => if j = 0 then 200 else 0⟩ else ⟨0, fun _ => 0⟩
  dirents := fun _ => ⟨0, fun _ => 0⟩

/-- An image of zero blocks except block 7, which is `pastEndBlock`: under
`sb100` the inode table is blocks 5 and 6, all of its records are free, and
the record numbered `ninodes = 32` is record 0 of block 7. -/
def pastEndImg : Image := fun b => if b = 7 then some pastEndBlock else some zeroBlock

/-- The superblock `sb100` with `ninodes = 2^32 - 1`. -/
def sbMaxInodes : Superblock where
  magic := 0x10203040
  size := 100
  nblocks := 92
  ninodes := 4294967295
  nlog := 3
  logstart := 2
  inodestart := 5
  bmapstart := 7

/-- The block of a directory 3 that names itself as its parent: "." and
"..", both with target 3. -/
def selfDirBlock : Block where
  bytes := fun _ => 0
  words := fun _ => 0
  dinodes := fun _ => ⟨0, fun _ => 0⟩
  dirents := fun i =>
    if i = 0 then dotEntry 3 else if i = 1 then dotdotEntry 3 else ⟨0, fun _ => 0⟩

/-- The image `treeImg` with the directory 3 made its own parent. -/
def selfParentImg : Image := fun b =>
  if b = 5 then some treeInodeBlock
  else if b = 60 then some rootDirBlock
  else if b = 62 then some selfDirBlock
  else some zeroBlock

/-- The block `rootDirBlock` with one more entry, "c", whose target 500 is
no inode number of `sb100`. -/
def strayDirBlock : Block where
  bytes := fun _ => 0
  words := fun _ => 0
  dinodes := fun _ => ⟨0, fun _ => 0⟩
  dirents := fun i =>
    if i = 0 then dotEntry 1 else if i = 1 then dotdotEntry 1
    else if i = 2 then fileEntry 2 else if i = 3 then ⟨3, cstr [98]⟩
    else if i = 4 then ⟨500, cstr [99]⟩ else ⟨0, fun _ => 0⟩

/-- The image `treeImg` with the entry "c" of target 500 added to the root
directory. -/
def strayImg : Image := fun b =>
  if b = 5 then some treeInodeBlock
  else if b = 60 then some strayDirBlock
  else if b = 62 then some subDirBlock
  else some zeroBlock

/-- An indirect block that names the blocks 52 and 53. -/
def indirBlock : Block where
  bytes := fun _ => 255
  words := fun i => if i = 0 then 52 else if i = 1 then 53 else 0
  dinodes := fun _ => ⟨0, fun _ => 0⟩
  dirents := fun _ => ⟨0, fun _ => 0⟩

/-- The image `onesImg` with `indirBlock` as block 51: the indirect block of
`dipGood` names the blocks 52 and 53, and every bitmap bit is set. -/
def indirImg : Image := fun b => if b = 51 then some indirBlock else some onesBlock

/-- The image `onesImg` without its block 7, the bitmap block of `sb100`. -/
def noBitmapImg : Image := fun b => if b = 7 then none else some onesBlock

/-- The image `onesImg` without its block 51, the indirect block of
`dipGood`. -/
def noIndirectImg : Image := fun b => if b = 51 then none else some onesBlock

/-- The block of a root directory that holds "." and ".." only. -/
def bareRootDirBlock : Block where
  bytes := fun _ => 0
  words := fun _ => 0
  dinodes := fun _ => ⟨0, fun _ => 0⟩
  dirents := fun i =>
    if i = 0 then dotEntry 1 else if i = 1 then dotdotEntry 1 else ⟨0, fun _ => 0⟩

/-- The inodes of `treeImg` with a root directory that names neither the
file 2 nor the directory 3. -/
def orphanImg : Image := fun b =>
  if b = 5 then some treeInodeBlock
  else if b = 60 then some bareRootDirBlock
  else if b = 62 then some subDirBlock
  else some zeroBlock

/-- The file made of the first 61 blocks of `twoDotsImg`: block 5 is
`rootInodeBlock` and block 60 is `twoDotsBlock`. -/
def shortImg : Image := truncate 61 twoDotsImg

/-- A file of `2^22` zero blocks. -/
def zeroFile : Image := truncate 4194304 zeroImg

/-! # Theorems -/

/-! ## Loops -/

theorem forLoop_unit_eq_firstBad (p : Nat → Outcome Unit) (f : Nat → Nat) (n i0 : Nat) :
    forLoop (fun _ => true) (fun i _ => p (f i)) n i0 () =
      firstBad p ((List.range' i0 n).map f) := by
  induction n generalizing i0 with
  | zero => rfl
  | succ n ih =>
    simp only [forLoop, List.range', List.map_cons, firstBad, if_true]
    cases h : p (f i0) with
    | ok u => simpa using ih (i0 + 1)
    | fail out => rfl
    | undefined => rfl

theorem firstBad_append (p : Nat → Outcome Unit) (l1 l2 : List Nat) :
    firstBad p (l1 ++ l2) =
      match firstBad p l1 with
      | .ok _ => firstBad p l2
      | .fail out => .fail out
      | .undefined => .undefined := by
  induction l1 with
  | nil => rfl
  | cons a l ih =>
    simp only [List.cons_append, firstBad]
    cases h : p a <;> simp [ih]

theorem firstBad_ok_iff (p : Nat → Outcome Unit) (l : List Nat) :
    firstBad p l = .ok () ↔ ∀ a ∈ l, p a = .ok () := by
  induction l with
  | nil => simp [firstBad]
  | cons a l ih =>
    simp only [firstBad, List.mem_cons, forall_eq_or_imp]
    cases h : p a <;> simp [ih]

theorem firstBad_fail (p : Nat → Outcome Unit) (l : List Nat) (out : List Msg)
    (h : firstBad p l = .fail out) :
    ∃ pre a post, l = pre ++ a :: post ∧ (∀ x ∈ pre, p x = .ok ()) ∧ p a = .fail out := by
  induction l with
  | nil => simp [firstBad] at h
  | cons a l ih =>
    simp only [firstBad] at h
    cases hp : p a with
    | ok u =>
      rw [hp] at h
      obtain ⟨pre, b, post, h1, h2, h3⟩ := ih h
      refine ⟨a :: pre, b, post, by simp [h1], ?_, h3⟩
      intro x hx
      rcases List.mem_cons.1 hx with rfl | hx
      · exact hp
      · exact h2 x hx
    | fail o =>
      rw [hp] at h
      exact ⟨[], a, l, rfl, by simp, by rw [hp]; exact h⟩
    | undefined => rw [hp] at h; cases h

/-! ## Bitmap oracle and address test -/

theorem is_block_allocated_cases (K : FsConsts) (img : Image) (sb : Superblock) (a : Nat) :
    is_block_allocated K img sb a = -1 ∨ is_block_allocated K img sb a = 0 ∨
      is_block_allocated K img sb a = 1 := by
  unfold is_block_allocated
  split
  · exact Or.inl rfl
  · split
    · exact Or.inr (Or.inl rfl)
    · dsimp only
      split
      · exact Or.inl rfl
      · rename_i bitmap _
        rw [Nat.and_one_is_mod]
        rcases Nat.mod_two_eq_zero_or_one
          (bitmap.bytes (a % (K.BSIZE * 8) / 8) >>> (a % (K.BSIZE * 8) % 8)) with h | h
        · right; left; rw [h]; rfl
        · right; right; rw [h]; rfl

theorem is_valid_block_lt (sb : Superblock) (a : Nat) (h : is_valid_block sb a = true) :
    a < sb.size ∧ a ≠ 0 := by
  simp [is_valid_block] at h
  omega

theorem check_address_ok_iff (K : FsConsts) (img : Image) (sb : Superblock) (a : Nat) :
    check_address K img sb a = .ok () ↔ AddrOK K img sb a := by
  unfold check_address AddrOK
  rcases is_block_allocated_cases K img sb a with h | h | h <;>
    cases hv : is_valid_block sb a <;> simp [h]

theorem check_address_fail (K : FsConsts) (img : Image) (sb : Superblock) (a : Nat)
    (out : List Msg) (h : check_address K img sb a = .fail out) :
    (is_valid_block sb a = false ∧ out = [Msg.BadAddress]) ∨
    (is_valid_block sb a = true ∧ is_block_allocated K img sb a = -1 ∧
      out = [Msg.ReadBitmapFailure]) ∨
    (is_valid_block sb a = true ∧ is_block_allocated K img sb a = 0 ∧
      out = [Msg.UnmarkedAllocation]) := by
  unfold check_address at h
  rcases is_block_allocated_cases K img sb a with h1 | h1 | h1 <;>
    cases hv : is_valid_block sb a <;> simp [h1, hv] at h <;> simp [h1, h]

theorem check_slot_ok_iff (K : FsConsts) (img : Image) (sb : Superblock) (a : Nat) :
    check_slot K img sb a = .ok () ↔ (a ≠ 0 → AddrOK K img sb a) := by
  unfold check_slot
  by_cases h : a = 0
  · simp [h]
  · simp [h, check_address_ok_iff]

/-! ## Inode block checker -/

theorem firstBad_congr (p q : Nat → Outcome Unit) (l : List Nat)
    (h : ∀ a ∈ l, p a = q a) : firstBad p l = firstBad q l := by
  induction l with
  | nil => rfl
  | cons a l ih =>
    simp only [firstBad]
    rw [h a (List.mem_cons_self a l), ih (fun x hx => h x (List.mem_cons_of_mem a hx))]

theorem check_address_congr (K : FsConsts) (img img2 : Image) (sb : Superblock) (a : Nat)
    (h : is_block_allocated K img2 sb a = is_block_allocated K img sb a) :
    check_address K img2 sb a = check_address K img sb a := by
  unfold check_address
  rw [h]

theorem u32_of_lt (x : Nat) (h : x < 4294967296) : u32 x = x := Nat.mod_eq_of_lt h

theorem read_inode_readable (K : FsConsts) (img : Image) (sb : Superblock) (n : Nat)
    (hr : AllReadable img) : ∃ dip, read_inode K img sb n = .ok dip := by
  obtain ⟨blk, hb⟩ := hr (u32 (n / K.IPB + sb.inodestart))
  exact ⟨blk.dinodes (n % K.IPB), by simp [read_inode, hb]⟩

theorem firstBad_ne_undef (p : Nat → Outcome Unit) (l : List Nat)
    (h : ∀ a ∈ l, p a ≠ .undefined) : firstBad p l ≠ .undefined := by
  induction l with
  | nil => simp [firstBad]
  | cons a l ih =>
    simp only [firstBad]
    have ha := h a (List.mem_cons_self a l)
    cases hp : p a with
    | ok u => exact ih (fun x hx => h x (List.mem_cons_of_mem a hx))
    | fail out => simp
    | undefined => exact absurd hp ha

theorem forLoop_eq_scanList {α σ : Type} (step : α → σ → Outcome σ) (f : Nat → α)
    (n i0 : Nat) (s : σ) :
    forLoop (fun _ => true) (fun i s => step (f i) s) n i0 s =
      scanList step ((List.range' i0 n).map f) s := by
  induction n generalizing i0 s with
  | zero => rfl
  | succ n ih =>
    simp only [forLoop, List.range', List.map_cons, scanList, if_true]
    cases h : step (f i0) s with
    | ok s1 => simpa using ih (i0 + 1) s1
    | fail out => rfl
    | undefined => rfl

theorem strncmp_dot_iff (name : Nat → Nat) (d : Nat) :
    strncmp name dotName (d + 2) 0 = 0 ↔ name 0 = 46 ∧ name 1 = 0 := by
  simp only [strncmp, dotName, cstr, List.getD_cons_zero, zero_add, List.getD_cons_succ,
    List.getD_nil]
  by_cases h0 : name 0 = 46
  · by_cases h1 : name 1 = 0
    · simp [h0, h1]
    · simp only [h0, h1, ne_eq, not_true_eq_false, if_false, Nat.reduceEqDiff,
        not_false_eq_true, if_true, true_and, iff_false]
      omega
  · simp only [h0, ne_eq, not_false_eq_true, if_true, false_and, iff_false]
    omega

theorem strncmp_dotdot_imp (name : Nat → Nat) (d : Nat)
    (h : strncmp name dotdotName (d + 2) 0 = 0) : name 0 = 46 ∧ name 1 = 46 := by
  simp only [strncmp, dotdotName, cstr, List.getD_cons_zero, zero_add, List.getD_cons_succ] at h
  by_cases h0 : name 0 = 46
  · by_cases h1 : name 1 = 46
    · exact ⟨h0, h1⟩
    · exfalso
      simp only [h0, h1, ne_eq, not_true_eq_false, if_false, Nat.reduceEqDiff,
        not_false_eq_true, if_true] at h
      omega
  · exfalso
    simp only [h0, ne_eq, not_false_eq_true, if_true] at h
    omega

theorem not_named_both (K : FsConsts) (e : Dirent) (hD : 2 ≤ K.DIRSIZ)
    (h1 : named K dotName e = true) : named K dotdotName e = false := by
  obtain ⟨d, hd⟩ : ∃ d, K.DIRSIZ = d + 2 := ⟨K.DIRSIZ - 2, by omega⟩
  unfold named at h1 ⊢
  rw [hd] at h1 ⊢
  rw [decide_eq_true_eq, strncmp_dot_iff] at h1
  rw [decide_eq_false_iff_not]
  intro h2
  have := strncmp_dotdot_imp _ _ h2
  omega

theorem scanList_dot_step (K : FsConsts) (self_inum : Nat) (l : List Dirent)
    (found : Bool × Bool) :
    scanList (dot_step K self_inum) l found =
      if ∀ e ∈ l, named K dotName e = true → e.inum = self_inum then
        .ok (found.1 || l.any (named K dotName),
          found.2 || l.any (fun e => !named K dotName e && named K dotdotName e))
      else .fail [] := by
  induction l generalizing found with
  | nil => simp [scanList]
  | cons a l ih =>
    simp only [scanList, dot_step, List.mem_cons, forall_eq_or_imp, List.any_cons]
    by_cases hd : strncmp a.name dotName K.DIRSIZ 0 = 0
    · have hn : named K dotName a = true := by simp [named, hd]
      by_cases hi : a.inum = self_inum
      · simp only [hd, if_true, hi, ne_eq, not_true_eq_false, if_false, ih, hn,
          Bool.true_or, Bool.or_true, Bool.not_true, Bool.false_and, Bool.false_or, true_and,
          forall_const]
      · simp [hd, hi, hn]
    · have hn : named K dotName a = false := by simp [named, hd]
      by_cases hdd : strncmp a.name dotdotName K.DIRSIZ 0 = 0
      · have hn2 : named K dotdotName a = true := by simp [named, hdd]
        simp only [hd, if_false, hdd, if_true, ih, hn, Bool.false_eq_true, false_imp_iff,
          true_and, Bool.false_or, Bool.not_false, hn2, Bool.and_self, Bool.true_or,
          Bool.or_true]
      · have hn2 : named K dotdotName a = false := by simp [named, hdd]
        simp only [hd, if_false, hdd, ih, hn, Bool.false_eq_true, false_imp_iff, true_and,
          Bool.false_or, Bool.not_false, hn2, Bool.and_false]

theorem check_dot_and_dotdot_eq (K : FsConsts) (entries : Nat → Dirent)
    (count self_inum : Nat) :
    check_dot_and_dotdot K entries count self_inum =
      if (∀ e ∈ (List.range' 0 count).map entries,
            named K dotName e = true → e.inum = self_inum) ∧
          ((List.range' 0 count).map entries).any (named K dotName) = true ∧
          ((List.range' 0 count).map entries).any
            (fun e => !named K dotName e && named K dotdotName e) = true then
        .ok ()
      else .fail [] := by
  have h := forLoop_eq_scanList (dot_step K self_inum) entries count 0 (false, false)
  unfold dot_step at h
  unfold check_dot_and_dotdot
  rw [h]
  have h2 := scanList_dot_step K self_inum ((List.range' 0 count).map entries) (false, false)
  unfold dot_step at h2
  rw [h2]
  clear h h2
  generalize (List.range' 0 count).map entries = l
  by_cases hall : ∀ e ∈ l, named K dotName e = true → e.inum = self_inum
  · rw [if_pos hall]
    dsimp only
    cases h3 : l.any (named K dotName) <;>
      cases h4 : l.any (fun e => !named K dotName e && named K dotdotName e) <;>
      simp only [Bool.false_or, Bool.and_self, Bool.and_false, Bool.and_true,
        Bool.false_eq_true, if_false, if_true, and_self, and_false, false_and,
        and_true, true_and, if_pos hall]
  · rw [if_neg hall]
    have : ¬ ((∀ e ∈ l, named K dotName e = true → e.inum = self_inum) ∧
        l.any (named K dotName) = true ∧
        l.any (fun e => !named K dotName e && named K dotdotName e) = true) :=
      fun h => hall h.1
    rw [if_neg this]

theorem check_dot_and_dotdot_cases (K : FsConsts) (entries : Nat → Dirent)
    (count self_inum : Nat) :
    check_dot_and_dotdot K entries count self_inum = .ok () ∨
      check_dot_and_dotdot K entries count self_inum = .fail [] := by
  rw [check_dot_and_dotdot_eq]
  split
  · exact Or.inl rfl
  · exact Or.inr rfl

theorem check_dot_and_dotdot_ok (K : FsConsts) (entries : Nat → Dirent)
    (count self_inum : Nat) :
    check_dot_and_dotdot K entries count self_inum = .ok () ↔
      (∃ i, i < count ∧ strncmp (entries i).name dotName K.DIRSIZ 0 = 0) ∧
      (∃ i, i < count ∧ strncmp (entries i).name dotName K.DIRSIZ 0 ≠ 0 ∧
        strncmp (entries i).name dotdotName K.DIRSIZ 0 = 0) ∧
      (∀ i, i < count → strncmp (entries i).name dotName K.DIRSIZ 0 = 0 →
        (entries i).inum = self_inum) := by
  rw [check_dot_and_dotdot_eq]
  simp only [List.any_eq_true, List.mem_map, List.mem_range'_1, named, Bool.and_eq_true,
    Bool.not_eq_true', decide_eq_true_eq, decide_eq_false_iff_not, zero_le, zero_add, true_and,
    forall_exists_index, and_imp, forall_apply_eq_imp_iff₂, exists_exists_and_eq_and]
  constructor
  · intro h
    split at h
    · rename_i hc
      exact ⟨hc.2.1, hc.2.2, hc.1⟩
    · cases h
  · rintro ⟨h1, h2, h3⟩
    rw [if_pos ⟨h3, h1, h2⟩]

/-- C8: with `DIRSIZ ≥ 2`, `check_dot_and_dotdot` returns success if and only
if among `entries[0 .. count-1]` there is an entry whose name compares
equal to "." under `strncmp(_, _, DIRSIZ)`, there is one whose name
compares equal to "..", and every entry named "." has `inum` equal to
`self_inum`; otherwise it returns `-1` without printing. The targets of
the ".." entries have no influence: changing them leaves the result
unchanged. -/
theorem check_dot_and_dotdot_ok_iff (K : FsConsts) (entries : Nat → Dirent)
    (count self_inum : Nat) (hD : 2 ≤ K.DIRSIZ) :
    (check_dot_and_dotdot K entries count self_inum = .ok () ↔
      (∃ i, i < count ∧ strncmp (entries i).name dotName K.DIRSIZ 0 = 0) ∧
      (∃ i, i < count ∧ strncmp (entries i).name dotdotName K.DIRSIZ 0 = 0) ∧
      (∀ i, i < count → strncmp (entries i).name dotName K.DIRSIZ 0 = 0 →
        (entries i).inum = self_inum)) ∧
    (check_dot_and_dotdot K entries count self_inum ≠ .ok () →
      check_dot_and_dotdot K entries count self_inum = .fail []) ∧
    (∀ entries2 : Nat → Dirent,
      (∀ i, i < count → (entries2 i).name = (entries i).name ∧
        (strncmp (entries i).name dotdotName K.DIRSIZ 0 = 0 ∨
          (entries2 i).inum = (entries i).inum)) →
      check_dot_and_dotdot K entries2 count self_inum =
        check_dot_and_dotdot K entries count self_inum) := by
  have hex : ∀ e : Dirent, strncmp e.name dotdotName K.DIRSIZ 0 = 0 →
      strncmp e.name dotName K.DIRSIZ 0 ≠ 0 := by
    intro e h2 h1
    have := not_named_both K e hD (by simp [named, h1])
    simp [named, h2] at this
  have key : ∀ ents : Nat → Dirent,
      check_dot_and_dotdot K ents count self_inum = .ok () ↔
        (∃ i, i < count ∧ strncmp (ents i).name dotName K.DIRSIZ 0 = 0) ∧
        (∃ i, i < count ∧ strncmp (ents i).name dotdotName K.DIRSIZ 0 = 0) ∧
        (∀ i, i < count → strncmp (ents i).name dotName K.DIRSIZ 0 = 0 →
          (ents i).inum = self_inum) := by
    intro ents
    rw [check_dot_and_dotdot_ok]
    constructor
    · rintro ⟨h1, ⟨i, hi, _, h2⟩, h3⟩
      exact ⟨h1, ⟨i, hi, h2⟩, h3⟩
    · rintro ⟨h1, ⟨i, hi, h2⟩, h3⟩
      exact ⟨h1, ⟨i, hi, hex _ h2, h2⟩, h3⟩
  refine ⟨key entries, ?_, ?_⟩
  · intro hne
    rcases check_dot_and_dotdot_cases K entries count self_inum with h | h
    · exact absurd h hne
    · exact h
  · intro entries2 hsame
    have hiff : check_dot_and_dotdot K entries2 count self_inum = .ok () ↔
        check_dot_and_dotdot K entries count self_inum = .ok () := by
      rw [key entries2, key entries]
      constructor
      · rintro ⟨⟨i, hi, h1⟩, ⟨j, hj, h2⟩, h3⟩
        refine ⟨⟨i, hi, by rw [← (hsame i hi).1]; exact h1⟩,
          ⟨j, hj, by rw [← (hsame j hj).1]; exact h2⟩, ?_⟩
        intro k hk hdot
        rcases (hsame k hk).2 with hdd | heq
        · exact absurd hdot (hex _ hdd)
        · rw [← heq]
          exact h3 k hk (by rw [(hsame k hk).1]; exact hdot)
      · rintro ⟨⟨i, hi, h1⟩, ⟨j, hj, h2⟩, h3⟩
        refine ⟨⟨i, hi, by rw [(hsame i hi).1]; exact h1⟩,
          ⟨j, hj, by rw [(hsame j hj).1]; exact h2⟩, ?_⟩
        intro k hk hdot
        rw [(hsame k hk).1] at hdot
        rcases (hsame k hk).2 with hdd | heq
        · exact absurd hdot (hex _ hdd)
        · rw [heq]
          exact h3 k hk hdot
    rcases check_dot_and_dotdot_cases K entries count self_inum with h | h
    · rw [h]
      exact hiff.2 h
    · rw [h]
      rcases check_dot_and_dotdot_cases K entries2 count self_inum with h2 | h2
      · have := hiff.1 h2
        rw [h] at this
        cases this
      · exact h2

/-- Witness of C8: the entries ".", with target 5, and "..", with target
1, pass for the directory 5. -/
theorem check_dot_and_dotdot_ok_iff_witness :
    2 ≤ xv6.DIRSIZ ∧
    check_dot_and_dotdot xv6 (buffer [dotEntry 5, dotdotEntry 1]) 2 5 = .ok () ∧
    (∃ i, i < 2 ∧
      strncmp (buffer [dotEntry 5, dotdotEntry 1] i).name dotName xv6.DIRSIZ 0 = 0) ∧
    (∃ i, i < 2 ∧
      strncmp (buffer [dotEntry 5, dotdotEntry 1] i).name dotdotName xv6.DIRSIZ 0 = 0) ∧
    (∀ i, i < 2 →
      strncmp (buffer [dotEntry 5, dotdotEntry 1] i).name dotName xv6.DIRSIZ 0 = 0 →
        (buffer [dotEntry 5, dotdotEntry 1] i).inum = 5) :=
  ⟨by decide, by decide,
    (check_dot_and_dotdot_ok_iff xv6 (buffer [dotEntry 5, dotdotEntry 1]) 2 5
      (by decide)).1.1 (by decide)⟩

theorem map_buffer_range (l : List Dirent) :
    (List.range' 0 l.length).map (buffer l) = l := by
  apply List.ext_getElem
  · simp
  · intro n h1 h2
    simp [buffer, List.getD_eq_getElem?_getD, List.getElem?_eq_getElem h2]

theorem check_dot_and_dotdot_buffer (K : FsConsts) (l : List Dirent) (self_inum : Nat)
    (h : check_dot_and_dotdot K (buffer l) l.length self_inum = .ok ()) :
    (∃ e ∈ l, named K dotName e = true) ∧
    (∀ e ∈ l, named K dotName e = true → e.inum = self_inum) ∧
    (∃ e ∈ l, named K dotdotName e = true) := by
  rw [check_dot_and_dotdot_eq, map_buffer_range] at h
  split at h
  · rename_i hc
    obtain ⟨h1, h2, h3⟩ := hc
    rw [List.any_eq_true] at h2 h3
    obtain ⟨e, he, hn⟩ := h3
    rw [Bool.and_eq_true] at hn
    exact ⟨h2, h1, e, he, hn.2⟩
  · cases h

/-- C9, amended: whenever `check_dot_and_dotdot` succeeds on the enumerated
entries of a directory, and so for every in-use directory of
`[1, ninodes)` whenever `check_all_directory_formats` succeeds, the entries
contain at least one "." entry, every "." entry has the directory's own
inode number as target, and there is at least one ".." entry. -/
theorem check_all_directory_formats_ok (K : FsConsts) (img : Image) (sb : Superblock) :
    (∀ (dip : Dinode) (inum : Nat) (entries : List Dirent),
      read_all_dirents K img sb dip (MAX_DIRENT_COUNT K) = .ok entries →
      check_dot_and_dotdot K (buffer entries) entries.length inum = .ok () →
        (∃ e ∈ entries, named K dotName e = true) ∧
        (∀ e ∈ entries, named K dotName e = true → e.inum = inum) ∧
        (∃ e ∈ entries, named K dotdotName e = true)) ∧
    (check_all_directory_formats K img sb = .ok () →
      ∀ (inum : Nat) (dip : Dinode), 1 ≤ inum → inum < sb.ninodes →
        read_inode K img sb inum = .ok dip → dip.type ≠ 0 → is_directory K dip = true →
        ∃ entries, read_all_dirents K img sb dip (MAX_DIRENT_COUNT K) = .ok entries ∧
          (∃ e ∈ entries, named K dotName e = true) ∧
          (∀ e ∈ entries, named K dotName e = true → e.inum = inum) ∧
          (∃ e ∈ entries, named K dotdotName e = true)) := by
  refine ⟨fun dip inum entries _ h => check_dot_and_dotdot_buffer K entries inum h, ?_⟩
  intro h inum dip h1 h2 hri ht hdir
  unfold check_all_directory_formats at h
  have h3 := forLoop_unit_eq_firstBad
    (fun inum =>
      match read_inode K img sb inum with
      | .fail out => .fail out
      | .undefined => .undefined
      | .ok dip =>
        if dip.type = 0 ∨ is_directory K dip = false then .ok ()
        else
          match read_all_dirents K img sb dip (MAX_DIRENT_COUNT K) with
          | .fail out => .fail (out ++ [Msg.ReadDirentsFailure])
          | .undefined => .undefined
          | .ok entries =>
            match check_dot_and_dotdot K (buffer entries) entries.length inum with
            | .fail out => .fail (out ++ [Msg.DirectoryFormatError])
            | .undefined => .undefined
            | .ok _ => .ok ()) id (sb.ninodes - 1) 1
  simp only [id] at h3
  rw [h3, firstBad_ok_iff] at h
  have h4 := h inum (by rw [List.map_id, List.mem_range'_1]; omega)
  rw [hri] at h4
  simp only [ht, hdir, Bool.true_eq_false, or_self, if_false] at h4
  cases hra : read_all_dirents K img sb dip (MAX_DIRENT_COUNT K) with
  | fail out => rw [hra] at h4; cases h4
  | undefined => rw [hra] at h4; cases h4
  | ok entries =>
    rw [hra] at h4
    dsimp only at h4
    refine ⟨entries, rfl, check_dot_and_dotdot_buffer K entries inum ?_⟩
    cases hc : check_dot_and_dotdot K (buffer entries) entries.length inum with
    | fail out => rw [hc] at h4; cases h4
    | undefined => rw [hc] at h4; cases h4
    | ok u => rfl

set_option maxRecDepth 100000 in
/-- Witness of C9: under `sb100` the pass over `twoDotsImg` succeeds, and
the directory 1 has a "." entry, all of them with target 1, and a ".."
entry. -/
theorem check_all_directory_formats_ok_witness :
    check_all_directory_formats xv6 twoDotsImg sb100 = .ok () ∧
    ∃ entries, read_all_dirents xv6 twoDotsImg sb100 (rootInodeBlock.dinodes 1)
        (MAX_DIRENT_COUNT xv6) = .ok entries ∧
      (∃ e ∈ entries, named xv6 dotName e = true) ∧
      (∀ e ∈ entries, named xv6 dotName e = true → e.inum = 1) ∧
      (∃ e ∈ entries, named xv6 dotdotName e = true) :=
  ⟨by decide,
    (check_all_directory_formats_ok xv6 twoDotsImg sb100).2 (by decide) 1
      (rootInodeBlock.dinodes 1) (by decide) (by decide) rfl (by decide) (by decide)⟩

set_option maxRecDepth 100000 in
/-- Counterexample to C9 as stated: under `sb100` the directory 1 of
`twoDotsImg` passes `check_dot_and_dotdot`, and the whole pass succeeds,
while its enumerated entries hold two entries named ".". -/
theorem check_all_directory_formats_counterexample :
    check_all_directory_formats xv6 twoDotsImg sb100 = .ok () ∧
    read_inode xv6 twoDotsImg sb100 1 = .ok (rootInodeBlock.dinodes 1) ∧
    is_directory xv6 (rootInodeBlock.dinodes 1) = true ∧
    read_all_dirents xv6 twoDotsImg sb100 (rootInodeBlock.dinodes 1) (MAX_DIRENT_COUNT xv6) =
      .ok [dotEntry 1, dotEntry 1, dotdotEntry 1] ∧
    check_dot_and_dotdot xv6 (buffer [dotEntry 1, dotEntry 1, dotdotEntry 1]) 3 1 = .ok () ∧
    ([dotEntry 1, dotEntry 1, dotdotEntry 1].filter (named xv6 dotName)).length = 2 :=
  ⟨by decide, rfl, by decide, rfl, by decide, by decide⟩

/-! ## Directory entry enumerator -/

theorem forLoop_collect (f : Nat → Dirent) (max n i0 : Nat) (acc : List Dirent)
    (hacc : acc.length ≤ max) :
    forLoop (fun entries => decide (entries.length < max))
      (fun i entries => if (f i).inum ≠ 0 then .ok (entries ++ [f i]) else .ok entries)
      n i0 acc =
    .ok (acc ++ (((List.range' i0 n).map f).filter (fun e => decide (e.inum ≠ 0))).take
      (max - acc.length)) := by
  induction n generalizing i0 acc with
  | zero => simp [forLoop]
  | succ n ih =>
    simp only [forLoop, List.range', List.map_cons]
    by_cases hlt : acc.length < max
    · simp only [hlt, decide_True, if_true]
      by_cases hz : (f i0).inum = 0
      · simp only [hz, ne_eq, not_true_eq_false, if_false]
        rw [ih (i0 + 1) acc hacc]
        simp [List.filter_cons, hz]
      · simp only [hz, ne_eq, not_false_eq_true, if_true]
        rw [ih (i0 + 1) _ (by simp; omega)]
        obtain ⟨k, hk⟩ : ∃ k, max - acc.length = k + 1 := ⟨max - acc.length - 1, by omega⟩
        have hk2 : max - (acc ++ [f i0]).length = k := by simp; omega
        rw [hk2, hk]
        simp [List.filter_cons, hz]
    · have : max - acc.length = 0 := by omega
      simp [hlt, this]

theorem read_dirent_block_eq (K : FsConsts) (img : Image) (a max : Nat) (blk : Block)
    (hb : rblock img a = some blk) :
    read_dirent_block K img a max = .ok ((blockEntries K blk).take max) := by
  unfold read_dirent_block blockEntries
  rw [hb]
  dsimp only
  rw [forLoop_collect blk.dirents max K.DPB 0 [] (by simp), List.range_eq_range']
  simp

theorem read_all_dirents_step_eq (K : FsConsts) (img : Image) (max a : Nat)
    (entries : List Dirent) (hr : AllReadable img) :
    read_all_dirents_step K img max a entries =
      .ok (entries ++ (dirBlockEntries K img a).take (max - entries.length)) := by
  unfold read_all_dirents_step dirBlockEntries
  by_cases h0 : a = 0
  · simp [h0]
  · obtain ⟨blk, hb⟩ := hr a
    simp only [h0, if_false, read_dirent_block_eq K img a _ blk hb, hb]

theorem forLoop_steps (K : FsConsts) (img : Image) (max : Nat) (g : Nat → Nat)
    (hr : AllReadable img) (n i0 : Nat) (acc : List Dirent) (hacc : acc.length ≤ max) :
    forLoop (fun entries => decide (entries.length < max))
      (fun i entries => read_all_dirents_step K img max (g i) entries) n i0 acc =
    .ok (acc ++ (((List.range' i0 n).map g).flatMap (dirBlockEntries K img)).take
      (max - acc.length)) := by
  induction n generalizing i0 acc with
  | zero => simp [forLoop]
  | succ n ih =>
    simp only [forLoop, List.range', List.map_cons, List.flatMap_cons]
    by_cases hlt : acc.length < max
    · simp only [hlt, decide_True, if_true, read_all_dirents_step_eq K img max (g i0) acc hr]
      rw [ih (i0 + 1) _ (by simp [List.length_take]; omega)]
      rw [List.take_append_eq_append_take, List.append_assoc]
      have hlen : max - (acc ++ List.take (max - acc.length) (dirBlockEntries K img (g i0))).length =
          max - acc.length - (dirBlockEntries K img (g i0)).length := by
        simp only [List.length_append, List.length_take]
        omega
      rw [hlen]
    · have : max - acc.length = 0 := by omega
      simp [hlt, this]

theorem read_all_dirents_eq_take (K : FsConsts) (img : Image) (sb : Superblock) (dip : Dinode)
    (max : Nat) (hr : AllReadable img) :
    read_all_dirents K img sb dip max = .ok ((diskEntries K img dip).take max) := by
  unfold read_all_dirents diskEntries dirAddrSeq
  rw [forLoop_steps K img max dip.addrs hr K.NDIRECT 0 [] (by simp), ← List.range_eq_range']
  simp only [List.nil_append, List.length_nil, Nat.sub_zero, List.flatMap_append]
  rw [List.take_append_eq_append_take]
  by_cases h0 : dip.addrs K.NDIRECT = 0
  · simp [h0]
  · obtain ⟨blk, hb⟩ := hr (dip.addrs K.NDIRECT)
    simp only [h0, ne_eq, not_false_eq_true, true_and, if_false, hb]
    by_cases hlt : (List.take max (((List.range K.NDIRECT).map dip.addrs).flatMap
        (dirBlockEntries K img))).length < max
    · rw [if_pos hlt, forLoop_steps K img max blk.words hr K.NINDIRECT 0 _ (by omega),
        ← List.range_eq_range']
      congr 2
      simp only [List.length_take] at hlt ⊢
      congr 1
      omega
    · rw [if_neg hlt]
      simp only [List.length_take] at hlt
      have : max - (((List.range K.NDIRECT).map dip.addrs).flatMap
          (dirBlockEntries K img)).length = 0 := by omega
      rw [this, List.take_zero, List.append_nil]

theorem length_flatMap_le (E : Nat → List Dirent) (c : Nat) (l : List Nat)
    (h : ∀ a, (E a).length ≤ c) : (l.flatMap E).length ≤ c * l.length := by
  induction l with
  | nil => simp
  | cons a l ih =>
    simp only [List.flatMap_cons, List.length_append, List.length_cons]
    have := h a
    rw [Nat.mul_succ]
    omega

theorem length_dirBlockEntries_le (K : FsConsts) (img : Image) (a : Nat) :
    (dirBlockEntries K img a).length ≤ K.DPB := by
  unfold dirBlockEntries
  split
  · simp
  · split
    · unfold blockEntries
      refine (List.length_filter_le _ _).trans ?_
      simp
    · simp

theorem length_dirAddrSeq_le (K : FsConsts) (img : Image) (dip : Dinode) :
    (dirAddrSeq K img dip).length ≤ K.NDIRECT + K.NINDIRECT := by
  unfold dirAddrSeq
  simp only [List.length_append, List.length_map, List.length_range]
  split
  · simp
  · split <;> simp

theorem length_diskEntries_le (K : FsConsts) (img : Image) (dip : Dinode) :
    (diskEntries K img dip).length ≤ MAX_DIRENT_COUNT K := by
  unfold diskEntries MAX_DIRENT_COUNT
  refine (length_flatMap_le _ K.DPB _ (length_dirBlockEntries_le K img)).trans ?_
  exact Nat.mul_le_mul_left _ (length_dirAddrSeq_le K img dip)

theorem read_all_dirents_eq (K : FsConsts) (img : Image) (sb : Superblock) (dip : Dinode)
    (hr : AllReadable img) :
    read_all_dirents K img sb dip (MAX_DIRENT_COUNT K) = .ok (diskEntries K img dip) := by
  rw [read_all_dirents_eq_take K img sb dip _ hr,
    List.take_of_length_le (length_diskEntries_le K img dip)]

/-! ## Inode reference map -/

theorem mark_entries_apply (sb : Superblock) (l : List Dirent) (m : Nat → Nat) (x : Nat) :
    ((∃ e ∈ l, e.inum = x ∧ 0 < x ∧ x < sb.ninodes) → mark_entries sb l m x = 1) ∧
    ((¬ ∃ e ∈ l, e.inum = x ∧ 0 < x ∧ x < sb.ninodes) → mark_entries sb l m x = m x) := by
  induction l generalizing m with
  | nil => simp [mark_entries]
  | cons a l ih =>
    have hstep : mark_entries sb (a :: l) m =
        mark_entries sb l (if a.inum > 0 ∧ a.inum < sb.ninodes then Function.update m a.inum 1
          else m) := by
      simp [mark_entries]
    rw [hstep]
    by_cases hl : ∃ e ∈ l, e.inum = x ∧ 0 < x ∧ x < sb.ninodes
    · refine ⟨fun _ => (ih _).1 hl, fun hn => ?_⟩
      obtain ⟨e, he, h⟩ := hl
      exact absurd ⟨e, List.mem_cons_of_mem a he, h⟩ hn
    · rw [(ih _).2 hl]
      constructor
      · rintro ⟨e, he, h1, h2, h3⟩
        rcases List.mem_cons.1 he with rfl | he
        · subst h1
          rw [if_pos ⟨h2, h3⟩]
          simp
        · exact absurd ⟨e, he, h1, h2, h3⟩ hl
      · intro hn
        by_cases hc : a.inum > 0 ∧ a.inum < sb.ninodes
        · rw [if_pos hc]
          have hne : x ≠ a.inum := by
            intro hx
            exact hn ⟨a, List.mem_cons_self a l, hx.symm, by omega, by omega⟩
          simp [Function.update, hne]
        · rw [if_neg hc]

theorem mark_entries_append (sb : Superblock) (l1 l2 : List Dirent) (m : Nat → Nat) :
    mark_entries sb (l1 ++ l2) m = mark_entries sb l2 (mark_entries sb l1 m) := by
  simp [mark_entries, List.foldl_append]

theorem forLoop_mark (sb : Superblock) (L : Nat → List Dirent)
    (body : Nat → (Nat → Nat) → Outcome (Nat → Nat))
    (hbody : ∀ i m, body i m = .ok (mark_entries sb (L i) m)) (n i0 : Nat) (m : Nat → Nat) :
    forLoop (fun _ => true) body n i0 m =
      .ok (mark_entries sb ((List.range' i0 n).flatMap L) m) := by
  induction n generalizing i0 m with
  | zero => simp [forLoop, mark_entries]
  | succ n ih =>
    simp only [forLoop, if_true, hbody, List.range', List.flatMap_cons, mark_entries_append]
    exact ih (i0 + 1) _

theorem build_inode_reference_map_eq (K : FsConsts) (img : Image) (sb : Superblock)
    (hr : AllReadable img) :
    build_inode_reference_map K img sb =
      .ok (mark_entries sb ((List.range' 1 (sb.ninodes - 1)).flatMap (dirEntriesOf K img sb))
        (fun _ => 0)) := by
  unfold build_inode_reference_map
  apply forLoop_mark sb (dirEntriesOf K img sb)
  intro d m
  obtain ⟨dip, hri⟩ := read_inode_readable K img sb d hr
  unfold dirEntriesOf
  rw [hri]
  dsimp only
  by_cases hc : dip.type = 0 ∨ is_directory K dip = false
  · simp [hc, mark_entries]
  · rw [if_neg hc, if_neg hc, read_all_dirents_eq K img sb dip hr]

theorem mem_dirEntries_iff (K : FsConsts) (img : Image) (sb : Superblock) (x : Nat) :
    (∃ e ∈ (List.range' 1 (sb.ninodes - 1)).flatMap (dirEntriesOf K img sb), e.inum = x) ↔
      ∃ d, DirNames K img sb d x := by
  simp only [List.mem_flatMap, List.mem_range'_1]
  constructor
  · rintro ⟨e, ⟨d, ⟨hd1, hd2⟩, he⟩, hx⟩
    refine ⟨d, hd1, by omega, ?_⟩
    unfold dirEntriesOf at he
    cases hri : read_inode K img sb d with
    | fail out => simp [hri] at he
    | undefined => simp [hri] at he
    | ok dip =>
      rw [hri] at he
      dsimp only at he
      by_cases hc : dip.type = 0 ∨ is_directory K dip = false
      · simp [hc] at he
      · rw [if_neg hc] at he
        push_neg at hc
        exact ⟨dip, rfl, hc.1, by simpa using hc.2, e, he, hx⟩
  · rintro ⟨d, hd1, hd2, dip, hri, ht, hdir, e, he, hx⟩
    refine ⟨e, ⟨d, ⟨hd1, by omega⟩, ?_⟩, hx⟩
    unfold dirEntriesOf
    rw [hri]
    dsimp only
    rw [if_neg (by simp [ht, hdir])]
    exact he

theorem build_inode_reference_map_spec (K : FsConsts) (img : Image) (sb : Superblock)
    (hr : AllReadable img) :
    ∃ m, build_inode_reference_map K img sb = .ok m ∧
      ∀ x, (m x = 0 ∨ m x = 1) ∧
        (m x ≠ 0 ↔ 0 < x ∧ x < sb.ninodes ∧ ∃ d, DirNames K img sb d x) := by
  refine ⟨_, build_inode_reference_map_eq K img sb hr, fun x => ?_⟩
  have hm := mark_entries_apply sb
    ((List.range' 1 (sb.ninodes - 1)).flatMap (dirEntriesOf K img sb)) (fun _ => 0) x
  by_cases hex : ∃ e ∈ (List.range' 1 (sb.ninodes - 1)).flatMap (dirEntriesOf K img sb),
      e.inum = x ∧ 0 < x ∧ x < sb.ninodes
  · rw [hm.1 hex]
    obtain ⟨e, he, h1, h2, h3⟩ := hex
    exact ⟨Or.inr rfl, fun _ => ⟨h2, h3, (mem_dirEntries_iff K img sb x).1 ⟨e, he, h1⟩⟩,
      fun _ => by decide⟩
  · rw [hm.2 hex]
    refine ⟨Or.inl rfl, fun h => absurd rfl h, ?_⟩
    rintro ⟨h2, h3, hd⟩
    obtain ⟨e, he, h1⟩ := (mem_dirEntries_iff K img sb x).2 hd
    exact absurd ⟨e, he, h1, h2, h3⟩ hex

/-! ## Checks on the inode reference map -/

theorem firstBad_dichotomy (p : Nat → Outcome Unit) (l : List Nat) (out0 : List Msg)
    (h : ∀ a ∈ l, p a = .ok () ∨ p a = .fail out0) :
    firstBad p l = .ok () ∨ firstBad p l = .fail out0 := by
  induction l with
  | nil => exact Or.inl rfl
  | cons a l ih =>
    simp only [firstBad]
    rcases h a (List.mem_cons_self a l) with ha | ha
    · rw [ha]
      exact ih (fun x hx => h x (List.mem_cons_of_mem a hx))
    · rw [ha]
      exact Or.inr rfl

theorem forLoop_unit_id (p : Nat → Outcome Unit) (n i0 : Nat) :
    forLoop (fun _ => true) (fun i _ => p i) n i0 () = firstBad p (List.range' i0 n) := by
  have := forLoop_unit_eq_firstBad p id n i0
  simpa using this

theorem treeImg_readable : AllReadable treeImg := by
  intro b
  unfold rblock treeImg
  by_cases h1 : b = 5
  · exact ⟨_, by rw [if_pos h1]⟩
  · by_cases h2 : b = 60
    · exact ⟨_, by rw [if_neg h1, if_pos h2]⟩
    · by_cases h3 : b = 62
      · exact ⟨_, by rw [if_neg h1, if_neg h2, if_pos h3]⟩
      · exact ⟨_, by rw [if_neg h1, if_neg h2, if_neg h3]⟩

theorem check_used_eq (K : FsConsts) (img : Image) (sb : Superblock) (m : Nat → Nat)
    (hm : build_inode_reference_map K img sb = .ok m) :
    check_used_inode_found_in_directory K img sb =
      firstBad (fun i =>
          match read_inode K img sb i with
          | .fail out => .fail out
          | .undefined => .undefined
          | .ok dip => if dip.type ≠ 0 ∧ m i = 0 then .fail [Msg.OrphanInode] else .ok ())
        (List.range' 1 (sb.ninodes - 1)) := by
  unfold check_used_inode_found_in_directory
  rw [hm]
  exact forLoop_unit_id _ _ _

theorem check_dirent_eq (K : FsConsts) (img : Image) (sb : Superblock) (m : Nat → Nat)
    (hm : build_inode_reference_map K img sb = .ok m) :
    check_dirent_refers_to_allocated_inode K img sb =
      firstBad (fun i =>
          if m i ≠ 0 then
            match read_inode K img sb i with
            | .fail out => .fail out
            | .undefined => .undefined
            | .ok dip => if dip.type = 0 then .fail [Msg.DanglingDirectoryEntry] else .ok ()
          else .ok ())
        (List.range' 1 (sb.ninodes - 1)) := by
  unfold check_dirent_refers_to_allocated_inode
  rw [hm]
  exact forLoop_unit_id _ _ _

/-! ## Parent and child consistency checker -/

theorem get_dotdot_inum_loop_eq (K : FsConsts) (f : Nat → Dirent) (n i0 : Nat) :
    get_dotdot_inum_loop K f n i0 =
      match ((List.range' i0 n).map f).find? (named K dotdotName) with
      | some e => (e.inum : Int)
      | none => -1 := by
  induction n generalizing i0 with
  | zero => rfl
  | succ n ih =>
    simp only [get_dotdot_inum_loop, List.range', List.map_cons, List.find?_cons]
    by_cases h : strncmp (f i0).name dotdotName K.DIRSIZ 0 = 0
    · simp [h, named]
    · simp only [h, if_false, named, decide_False]
      exact ih (i0 + 1)

theorem get_dotdot_inum_buffer (K : FsConsts) (l : List Dirent) :
    get_dotdot_inum K (buffer l) l.length =
      match l.find? (named K dotdotName) with
      | some e => (e.inum : Int)
      | none => -1 := by
  unfold get_dotdot_inum
  rw [get_dotdot_inum_loop_eq, map_buffer_range]

theorem is_directory_iff (K : FsConsts) (dip : Dinode) :
    is_directory K dip = true ↔ dip.type = K.T_DIR := by
  simp [is_directory]

theorem check_parent_eq (K : FsConsts) (img : Image) (sb : Superblock) :
    check_parent_directory_mismatch K img sb =
      firstBad (parent_body K img sb) (List.range' 1 (sb.ninodes - 1)) :=
  forLoop_unit_id _ _ _

/-! ## Address validator and bitmap oracle, as specified -/

/-- C13: `is_valid_block` returns true if and only if `blockno != 0`,
`blockno < size`, `blockno >= bmapstart` and `blockno != 1`; it reads no
block, and its result depends on the superblock through `size` and
`bmapstart` only. -/
theorem is_valid_block_iff (sb : Superblock) (blockno : Nat) :
    (is_valid_block sb blockno = true ↔
      blockno ≠ 0 ∧ blockno < sb.size ∧ blockno ≥ sb.bmapstart ∧ blockno ≠ 1) ∧
    (∀ sb2 : Superblock, sb2.size = sb.size → sb2.bmapstart = sb.bmapstart →
      is_valid_block sb2 blockno = is_valid_block sb blockno) := by
  constructor
  · simp only [is_valid_block, Bool.and_eq_true, decide_eq_true_eq]
    tauto
  · intro sb2 h1 h2
    simp only [is_valid_block, h1, h2]

/-- C14: `is_block_allocated` returns the error value `-1` when
`blockno >= size`, also for block 0; otherwise it returns 0 for block 0 on
every image, reading nothing; otherwise it reads the bitmap block whose
number is the `uint` sum `blockno / (BSIZE*8) + bmapstart`, returns `-1`
when that read fails, and else returns bit `o mod 8` of byte `o / 8` of
that block, `o = blockno mod (BSIZE*8)`, which is 0 or 1 whatever the
byte; no other block influences the result. -/
theorem is_block_allocated_spec (K : FsConsts) (img : Image) (sb : Superblock)
    (blockno : Nat) :
    (blockno ≥ sb.size → is_block_allocated K img sb blockno = -1) ∧
    (blockno < sb.size → blockno = 0 →
      ∀ img2 : Image, is_block_allocated K img2 sb blockno = 0) ∧
    (blockno < sb.size → blockno ≠ 0 →
      (rblock img (u32 (blockno / (K.BSIZE * 8) + sb.bmapstart)) = none →
        is_block_allocated K img sb blockno = -1) ∧
      (∀ bitmap, rblock img (u32 (blockno / (K.BSIZE * 8) + sb.bmapstart)) = some bitmap →
        is_block_allocated K img sb blockno =
            ((bitmap.bytes (blockno % (K.BSIZE * 8) / 8) /
              2 ^ (blockno % (K.BSIZE * 8) % 8) % 2 : Nat) : Int) ∧
        (is_block_allocated K img sb blockno = 0 ∨
          is_block_allocated K img sb blockno = 1)) ∧
      (∀ img2 : Image,
        rblock img2 (u32 (blockno / (K.BSIZE * 8) + sb.bmapstart)) =
          rblock img (u32 (blockno / (K.BSIZE * 8) + sb.bmapstart)) →
        is_block_allocated K img2 sb blockno = is_block_allocated K img sb blockno) ∧
      (blockno / (K.BSIZE * 8) + sb.bmapstart < 4294967296 →
        u32 (blockno / (K.BSIZE * 8) + sb.bmapstart) =
          blockno / (K.BSIZE * 8) + sb.bmapstart)) := by
  refine ⟨fun h => ?_, fun h1 h0 img2 => ?_, fun h1 h0 => ⟨fun hn => ?_, fun bitmap hb => ?_,
    fun img2 h2 => ?_, fun h => u32_of_lt _ h⟩⟩
  · simp [is_block_allocated, h]
  · subst h0
    have : ¬ 0 ≥ sb.size := by omega
    simp only [is_block_allocated, this, if_false, if_true]
  · have : ¬ blockno ≥ sb.size := by omega
    simp [is_block_allocated, this, h0, hn]
  · have hge : ¬ blockno ≥ sb.size := by omega
    have hval : is_block_allocated K img sb blockno =
        ((bitmap.bytes (blockno % (K.BSIZE * 8) / 8) /
          2 ^ (blockno % (K.BSIZE * 8) % 8) % 2 : Nat) : Int) := by
      simp only [is_block_allocated, hge, if_false, h0, hb, Nat.and_one_is_mod,
        Nat.shiftRight_eq_div_pow]
    refine ⟨hval, ?_⟩
    rw [hval]
    rcases Nat.mod_two_eq_zero_or_one
      (bitmap.bytes (blockno % (K.BSIZE * 8) / 8) / 2 ^ (blockno % (K.BSIZE * 8) % 8)) with h | h
    · left; rw [h]; rfl
    · right; rw [h]; rfl
  · have hge : ¬ blockno ≥ sb.size := by omega
    simp only [is_block_allocated, hge, if_false, h0, h2]

/-- Witness of C14: with every bitmap byte `0x80`, block 7 of `sb100` is
reported allocated, the value being 1, and block 6 is reported free. -/
theorem is_block_allocated_spec_witness :
    is_block_allocated xv6 topBitImg sb100 7 = 1 ∧
    is_block_allocated xv6 topBitImg sb100 6 = 0 ∧
    (is_block_allocated xv6 topBitImg sb100 7 = 0 ∨
      is_block_allocated xv6 topBitImg sb100 7 = 1) :=
  ⟨by decide, by decide,
    (((is_block_allocated_spec xv6 topBitImg sb100 7).2.2 (by decide) (by decide)).2.1
      topBitBlock rfl).2⟩

/-! ## Directory entry enumerator, as specified -/

theorem flatMap_filter_ne_zero (F : Nat → List Dirent) (l : List Nat) :
    (l.filter (fun a => decide (a ≠ 0))).flatMap F =
      l.flatMap (fun a => if a = 0 then [] else F a) := by
  induction l with
  | nil => rfl
  | cons a l ih =>
    by_cases h : a = 0
    · subst h
      rw [List.filter_cons_of_neg (by simp), List.flatMap_cons, ih]
      rfl
    · rw [List.filter_cons_of_pos (by simp [h]), List.flatMap_cons, List.flatMap_cons, ih,
        if_neg h]

theorem diskEntries_eq_listedEntries (K : FsConsts) (img : Image) (dip : Dinode) :
    diskEntries K img dip = listedEntries K img dip := by
  unfold diskEntries listedEntries dirAddrSeq
  rw [List.flatMap_append, List.flatMap_append, flatMap_filter_ne_zero]
  congr 1
  by_cases h0 : dip.addrs K.NDIRECT = 0
  · simp [h0]
  · simp only [h0, if_false, ne_eq, not_false_eq_true, if_true]
    cases hb : rblock img (dip.addrs K.NDIRECT) with
    | none => rfl
    | some blk =>
      dsimp only
      rw [flatMap_filter_ne_zero]
      rfl

theorem totalize_readable (img : Image) : AllReadable (totalize img) :=
  fun b => ⟨(img b).getD zeroBlock, rfl⟩

theorem rblock_totalize (img : Image) (a : Nat) (blk : Block) (h : rblock img a = some blk) :
    rblock (totalize img) a = some blk := by
  unfold rblock at h
  simp [rblock, totalize, h]

theorem forLoop_mono {σ : Type} (cond : σ → Bool) (body body2 : Nat → σ → Outcome σ)
    (hb : ∀ i s s1, body i s = .ok s1 → body2 i s = .ok s1) (n i0 : Nat) (s s1 : σ)
    (h : forLoop cond body n i0 s = .ok s1) : forLoop cond body2 n i0 s = .ok s1 := by
  induction n generalizing i0 s with
  | zero => exact h
  | succ n ih =>
    simp only [forLoop] at h ⊢
    by_cases hc : cond s = true
    · rw [if_pos hc] at h ⊢
      cases hbd : body i0 s with
      | fail out => rw [hbd] at h; cases h
      | undefined => rw [hbd] at h; cases h
      | ok s2 =>
        rw [hbd] at h
        rw [hb i0 s s2 hbd]
        exact ih (i0 + 1) s2 h
    · rw [if_neg hc] at h ⊢
      exact h

theorem read_dirent_block_mono (K : FsConsts) (img : Image) (a max : Nat) (es : List Dirent)
    (h : read_dirent_block K img a max = .ok es) :
    read_dirent_block K (totalize img) a max = .ok es := by
  unfold read_dirent_block at h ⊢
  cases hb : rblock img a with
  | none => rw [hb] at h; cases h
  | some blk =>
    rw [hb] at h
    rw [rblock_totalize img a blk hb]
    exact h

theorem read_all_dirents_step_mono (K : FsConsts) (img : Image) (max a : Nat)
    (es es1 : List Dirent) (h : read_all_dirents_step K img max a es = .ok es1) :
    read_all_dirents_step K (totalize img) max a es = .ok es1 := by
  unfold read_all_dirents_step at h ⊢
  by_cases h0 : a = 0
  · rw [if_pos h0] at h ⊢
    exact h
  · rw [if_neg h0] at h ⊢
    cases hr : read_dirent_block K img a (max - es.length) with
    | fail out => rw [hr] at h; cases h
    | undefined => rw [hr] at h; cases h
    | ok found =>
      rw [hr] at h
      rw [read_dirent_block_mono K img a _ found hr]
      exact h

theorem read_all_dirents_mono (K : FsConsts) (img : Image) (sb : Superblock) (dip : Dinode)
    (max : Nat) (es : List Dirent) (h : read_all_dirents K img sb dip max = .ok es) :
    read_all_dirents K (totalize img) sb dip max = .ok es := by
  unfold read_all_dirents at h ⊢
  cases h1 : forLoop (fun entries => decide (entries.length < max))
      (fun i entries => read_all_dirents_step K img max (dip.addrs i) entries)
      K.NDIRECT 0 [] with
  | fail out => rw [h1] at h; cases h
  | undefined => rw [h1] at h; cases h
  | ok es1 =>
    rw [h1] at h
    rw [forLoop_mono _ _
      (fun i entries => read_all_dirents_step K (totalize img) max (dip.addrs i) entries)
      (fun i s s1 hs => read_all_dirents_step_mono K img max _ s s1 hs) _ _ _ _ h1]
    dsimp only at h ⊢
    by_cases hc : dip.addrs K.NDIRECT ≠ 0 ∧ es1.length < max
    · rw [if_pos hc] at h ⊢
      cases hb : rblock img (dip.addrs K.NDIRECT) with
      | none => rw [hb] at h; cases h
      | some blk =>
        rw [hb] at h
        rw [rblock_totalize img _ blk hb]
        exact forLoop_mono _ _
          (fun i entries => read_all_dirents_step K (totalize img) max (blk.words i) entries)
          (fun i s s1 hs => read_all_dirents_step_mono K img max _ s s1 hs) _ _ _ _ h
    · rw [if_neg hc] at h ⊢
      exact h

theorem flatMap_eq_nil_of (F : Nat → List Dirent) (l : List Nat) (h : ∀ a ∈ l, F a = []) :
    l.flatMap F = [] := by
  induction l with
  | nil => rfl
  | cons a l ih =>
    rw [List.flatMap_cons, h a (List.mem_cons_self a l),
      ih (fun x hx => h x (List.mem_cons_of_mem a hx))]
    rfl

theorem blockEntries_zeroBlock (K : FsConsts) : blockEntries K zeroBlock = [] := by
  unfold blockEntries
  rw [List.filter_eq_nil_iff]
  intro e he
  obtain ⟨i, _, rfl⟩ := List.mem_map.1 he
  simp [zeroBlock]

theorem dirBlockEntries_totalize (K : FsConsts) (img : Image) (a : Nat) :
    dirBlockEntries K (totalize img) a = dirBlockEntries K img a := by
  unfold dirBlockEntries
  by_cases h0 : a = 0
  · simp [h0]
  · simp only [h0, if_false]
    cases hb : rblock img a with
    | some blk => rw [rblock_totalize img a blk hb]
    | none =>
      unfold rblock at hb
      simp [rblock, totalize, hb, blockEntries_zeroBlock]

theorem diskEntries_totalize (K : FsConsts) (img : Image) (dip : Dinode) :
    diskEntries K (totalize img) dip = diskEntries K img dip := by
  unfold diskEntries dirAddrSeq
  rw [List.flatMap_append, List.flatMap_append]
  have hd : dirBlockEntries K (totalize img) = dirBlockEntries K img :=
    funext (dirBlockEntries_totalize K img)
  rw [hd]
  congr 1
  by_cases h0 : dip.addrs K.NDIRECT = 0
  · simp [h0]
  · simp only [h0, if_false]
    cases hb : rblock img (dip.addrs K.NDIRECT) with
    | some blk => rw [rblock_totalize img _ blk hb]
    | none =>
      have hz : rblock (totalize img) (dip.addrs K.NDIRECT) = some zeroBlock := by
        unfold rblock at hb
        simp [rblock, totalize, hb]
      rw [hz]
      dsimp only
      rw [List.flatMap_nil]
      apply flatMap_eq_nil_of
      intro a ha
      obtain ⟨i, _, rfl⟩ := List.mem_map.1 ha
      simp [zeroBlock, dirBlockEntries]

theorem read_all_dirents_ok_eq (K : FsConsts) (img : Image) (sb : Superblock) (dip : Dinode)
    (es : List Dirent) (h : read_all_dirents K img sb dip (MAX_DIRENT_COUNT K) = .ok es) :
    es = diskEntries K img dip := by
  have h1 := read_all_dirents_mono K img sb dip _ es h
  rw [read_all_dirents_eq K (totalize img) sb dip (totalize_readable img)] at h1
  rw [← diskEntries_totalize K img dip]
  exact (Outcome.ok.inj h1).symm

theorem twoDotsImg_readable : AllReadable twoDotsImg := by
  intro b
  unfold rblock twoDotsImg
  by_cases h1 : b = 5
  · exact ⟨_, by rw [if_pos h1]⟩
  · by_cases h2 : b = 60
    · exact ⟨_, by rw [if_neg h1, if_pos h2]⟩
    · exact ⟨_, by rw [if_neg h1, if_neg h2]⟩

/-- C17: with capacity `MAX_DIRENT_COUNT` the bound of `read_all_dirents`
never truncates. Whenever the call returns a list, it is the complete list
of the non-empty entries of the inode's direct and indirect-reachable
blocks, and it does return it when the reads succeed; a larger capacity
gives the same result. Each block yields at most
`BSIZE / sizeof(struct dirent)` entries, at most `NDIRECT + NINDIRECT`
block slots are visited, so the list has at most `MAX_DIRENT_COUNT`
entries. -/
theorem read_all_dirents_full (K : FsConsts) (img : Image) (sb : Superblock) (dip : Dinode) :
    (∀ es, read_all_dirents K img sb dip (MAX_DIRENT_COUNT K) = .ok es →
      es = listedEntries K img dip) ∧
    (AllReadable img →
      read_all_dirents K img sb dip (MAX_DIRENT_COUNT K) = .ok (listedEntries K img dip)) ∧
    (AllReadable img → ∀ max_entries, MAX_DIRENT_COUNT K ≤ max_entries →
      read_all_dirents K img sb dip max_entries =
        read_all_dirents K img sb dip (MAX_DIRENT_COUNT K)) ∧
    (∀ a, (dirBlockEntries K img a).length ≤ K.DPB) ∧
    (dirAddrSeq K img dip).length ≤ K.NDIRECT + K.NINDIRECT ∧
    (listedEntries K img dip).length ≤ MAX_DIRENT_COUNT K := by
  rw [← diskEntries_eq_listedEntries]
  refine ⟨fun es h => read_all_dirents_ok_eq K img sb dip es h,
    fun hr => read_all_dirents_eq K img sb dip hr, fun hr max_entries hmax => ?_,
    length_dirBlockEntries_le K img, length_dirAddrSeq_le K img dip,
    length_diskEntries_le K img dip⟩
  rw [read_all_dirents_eq K img sb dip hr, read_all_dirents_eq_take K img sb dip _ hr,
    List.take_of_length_le ((length_diskEntries_le K img dip).trans hmax)]

set_option maxRecDepth 100000 in
/-- Witness of C17: with capacity `MAX_DIRENT_COUNT` the directory 1 of
`twoDotsImg` yields its three entries. -/
theorem read_all_dirents_full_witness :
    AllReadable twoDotsImg ∧
    read_all_dirents xv6 twoDotsImg sb100 (rootInodeBlock.dinodes 1) (MAX_DIRENT_COUNT xv6) =
      .ok (listedEntries xv6 twoDotsImg (rootInodeBlock.dinodes 1)) ∧
    (listedEntries xv6 twoDotsImg (rootInodeBlock.dinodes 1)).length = 3 :=
  ⟨twoDotsImg_readable,
    (read_all_dirents_full xv6 twoDotsImg sb100 (rootInodeBlock.dinodes 1)).2.1
      twoDotsImg_readable, by decide⟩

/-! ## Inode reference map, as specified -/

theorem danglingImg_readable : AllReadable danglingImg := by
  intro b
  unfold rblock danglingImg
  by_cases h1 : b = 5
  · exact ⟨_, by rw [if_pos h1]⟩
  · by_cases h2 : b = 60
    · exact ⟨_, by rw [if_neg h1, if_pos h2]⟩
    · exact ⟨_, by rw [if_neg h1, if_neg h2]⟩

/-! ## The pass over all inodes -/

theorem check_all_inodes_loop_succ (K : FsConsts) (img : Image) (sb : Superblock)
    (fuel inum : Nat) :
    check_all_inodes_loop K img sb (fuel + 1) inum =
      if inum ≤ sb.ninodes then
        match inode_step K img sb inum with
        | .ok _ => check_all_inodes_loop K img sb fuel (u32 (inum + 1))
        | .fail out => some (.fail out)
        | .undefined => some .undefined
      else some (.ok ()) := by
  simp only [check_all_inodes_loop, inode_step]
  by_cases h : inum ≤ sb.ninodes
  · simp only [h, if_true]
    cases read_inode K img sb inum with
    | fail out => rfl
    | undefined => rfl
    | ok dip =>
      dsimp only
      by_cases ht : dip.type = 0
      · simp only [ht, if_true]
      · simp only [ht, if_false]
        cases check_inode_blocks K img sb dip <;> rfl
  · simp only [h, if_false]

theorem check_all_inodes_loop_eq (K : FsConsts) (img : Image) (sb : Superblock)
    (hn : sb.ninodes + 1 < 4294967296) (k inum fuel : Nat)
    (hk : inum + k = sb.ninodes + 1) (hf : k < fuel) :
    check_all_inodes_loop K img sb fuel inum =
      some (firstBad (inode_step K img sb) (List.range' inum k)) := by
  induction k generalizing inum fuel with
  | zero =>
    obtain ⟨f, rfl⟩ : ∃ f, fuel = f + 1 := ⟨fuel - 1, by omega⟩
    rw [check_all_inodes_loop_succ, if_neg (by omega)]
    rfl
  | succ k ih =>
    obtain ⟨f, rfl⟩ : ∃ f, fuel = f + 1 := ⟨fuel - 1, by omega⟩
    rw [check_all_inodes_loop_succ, if_pos (by omega)]
    simp only [List.range', firstBad]
    cases inode_step K img sb inum with
    | fail out => rfl
    | undefined => rfl
    | ok u =>
      dsimp only
      rw [u32_of_lt _ (by omega)]
      exact ih (inum + 1) f (by omega) (by omega)

theorem check_slot_ne_undefined (K : FsConsts) (img : Image) (sb : Superblock) (a : Nat) :
    check_slot K img sb a ≠ .undefined := by
  unfold check_slot check_address
  split
  · split
    · simp
    · dsimp only
      split
      · simp
      · split <;> simp
  · simp

/-! ## Address bounds after the pass over all inodes -/

/-- C20: for a non-root in-use directory `d` of `[1, ninodes)` whose first
".." entry has target `d` itself, the parent-child test of
`check_parent_directory_mismatch` passes: `get_dotdot_inum` returns `d`,
`is_child_referenced_in_parent` finds an entry of `d` with `inum == d`, the
".." entry itself being one, and the loop body succeeds for `d`. -/
theorem parent_self_accepted (K : FsConsts) (img : Image) (sb : Superblock) (d : Nat)
    (dip : Dinode) (entries : List Dirent) (e : Dirent) (h1 : 1 ≤ d) (hd : d < sb.ninodes)
    (hroot : d ≠ K.ROOTINO) (hri : read_inode K img sb d = .ok dip) (ht : dip.type ≠ 0)
    (hdir : is_directory K dip = true)
    (hra : read_all_dirents K img sb dip (MAX_DIRENT_COUNT K) = .ok entries)
    (hfirst : entries.find? (named K dotdotName) = some e) (he : e.inum = d) :
    get_dotdot_inum K (buffer entries) entries.length = (d : Int) ∧
    (∃ c ∈ entries, c.inum = d) ∧
    is_child_referenced_in_parent K img sb d d = .ok true ∧
    parent_body K img sb d = .ok () := by
  have hmem : e ∈ entries := List.mem_of_find?_eq_some hfirst
  have hdot : get_dotdot_inum K (buffer entries) entries.length = (d : Int) := by
    rw [get_dotdot_inum_buffer, hfirst]
    dsimp only
    rw [he]
  have hany : entries.any (fun c => c.inum == d) = true :=
    List.any_eq_true.2 ⟨e, hmem, by simp [he]⟩
  have hchild : is_child_referenced_in_parent K img sb d d = .ok true := by
    unfold is_child_referenced_in_parent
    rw [hri]
    dsimp only
    rw [if_neg (by simp [hdir]), hra]
    dsimp only
    rw [hany]
  refine ⟨hdot, ⟨e, hmem, he⟩, hchild, ?_⟩
  unfold parent_body
  rw [hri]
  dsimp only
  rw [if_neg (by simp [ht, hdir]), hra]
  dsimp only
  rw [if_neg hroot, hdot]
  have hrange : ¬ ((d : Int) ≤ 0 ∨ (d : Int).toNat ≥ sb.ninodes) := by
    simp only [Int.toNat_ofNat]
    omega
  rw [if_neg hrange]
  simp only [Int.toNat_ofNat, hchild]
  simp

set_option maxRecDepth 100000 in
/-- Witness of C20: under `sb100` the directory 3 of `selfParentImg` has ".."
pointing to itself; its loop body succeeds and the whole check passes. -/
theorem parent_self_accepted_witness :
    parent_body xv6 selfParentImg sb100 3 = .ok () ∧
    is_child_referenced_in_parent xv6 selfParentImg sb100 3 3 = .ok true ∧
    check_parent_directory_mismatch xv6 selfParentImg sb100 = .ok () :=
  ⟨(parent_self_accepted xv6 selfParentImg sb100 3 (treeInodeBlock.dinodes 3)
      [dotEntry 3, dotdotEntry 3] (dotdotEntry 3) (by decide) (by decide) (by decide) rfl
      (by decide) (by decide) rfl rfl rfl).2.2.2,
    by decide, by decide⟩

/-! ## A claim on a bitmap block -/

theorem forLoop_ne_undefined {σ : Type} (cond : σ → Bool) (body : Nat → σ → Outcome σ)
    (h : ∀ i s, body i s ≠ .undefined) (n i0 : Nat) (s : σ) :
    forLoop cond body n i0 s ≠ .undefined := by
  induction n generalizing i0 s with
  | zero => simp [forLoop]
  | succ n ih =>
    simp only [forLoop]
    split
    · cases hb : body i0 s with
      | ok s1 => exact ih (i0 + 1) s1
      | fail out => simp
      | undefined => exact absurd hb (h i0 s)
    · simp

theorem read_inode_ne_undefined (K : FsConsts) (img : Image) (sb : Superblock) (n : Nat) :
    read_inode K img sb n ≠ .undefined := by
  unfold read_inode
  dsimp only
  split <;> simp

theorem check_address_ne_undefined (K : FsConsts) (img : Image) (sb : Superblock) (a : Nat) :
    check_address K img sb a ≠ .undefined := by
  have := check_slot_ne_undefined K img sb a
  unfold check_slot at this
  by_cases h0 : a = 0
  · subst h0
    simp [check_address, is_valid_block]
  · simpa [h0] using this

theorem check_inode_blocks_ne_undefined (K : FsConsts) (img : Image) (sb : Superblock)
    (dip : Dinode) : check_inode_blocks K img sb dip ≠ .undefined := by
  unfold check_inode_blocks
  have hslot : ∀ (f : Nat → Nat) (i : Nat) (s : Unit),
      (if f i ≠ 0 then check_address K img sb (f i) else Outcome.ok ()) ≠ .undefined := by
    intro f i s
    split
    · exact check_address_ne_undefined K img sb _
    · simp
  cases h1 : forLoop (fun _ => true)
      (fun i _ => if dip.addrs i ≠ 0 then check_address K img sb (dip.addrs i) else .ok ())
      K.NDIRECT 0 () with
  | fail out => simp
  | undefined =>
    exact absurd h1 (forLoop_ne_undefined _ _ (fun i s => hslot dip.addrs i s) _ _ _)
  | ok u =>
    dsimp only
    split
    · cases h2 : check_address K img sb (dip.addrs K.NDIRECT) with
      | fail out => simp
      | undefined => exact absurd h2 (check_address_ne_undefined K img sb _)
      | ok u2 =>
        dsimp only
        split
        · simp
        · rename_i blk _
          exact forLoop_ne_undefined _ _ (fun i s => hslot blk.words i s) _ _ _
    · simp

theorem inode_step_ne_undefined (K : FsConsts) (img : Image) (sb : Superblock) (n : Nat) :
    inode_step K img sb n ≠ .undefined := by
  unfold inode_step
  cases h : read_inode K img sb n with
  | fail out => simp
  | undefined => exact absurd h (read_inode_ne_undefined K img sb n)
  | ok dip =>
    dsimp only
    split
    · simp
    · exact check_inode_blocks_ne_undefined K img sb dip

theorem check_dirent_alloc_eq (K : FsConsts) (img : Image) (sb : Superblock)
    (allocated : Bool) :
    check_dirent_refers_to_allocated_inode_alloc K img sb allocated =
      match build_inode_reference_map_alloc K img sb allocated with
      | .fail out => .fail out
      | .undefined => .undefined
      | .ok referenced =>
        forLoop (fun _ => true)
          (fun inum _ =>
            if referenced inum ≠ 0 then
              match read_inode K img sb inum with
              | .fail out => .fail out
              | .undefined => .undefined
              | .ok dip =>
                if dip.type = 0 then .fail [Msg.DanglingDirectoryEntry] else .ok ()
            else .ok ())
          (sb.ninodes - 1) 1 () := by
  cases allocated <;> rfl

theorem check_used_alloc_eq (K : FsConsts) (img : Image) (sb : Superblock)
    (allocated : Bool) :
    check_used_inode_found_in_directory_alloc K img sb allocated =
      match build_inode_reference_map_alloc K img sb allocated with
      | .fail out => .fail out
      | .undefined => .undefined
      | .ok referenced =>
        forLoop (fun _ => true)
          (fun inum _ =>
            match read_inode K img sb inum with
            | .fail out => .fail out
            | .undefined => .undefined
            | .ok dip =>
              if dip.type ≠ 0 ∧ referenced inum = 0 then .fail [Msg.OrphanInode]
              else .ok ())
          (sb.ninodes - 1) 1 () := by
  cases allocated <;> rfl

theorem check_multiply_alloc_eq (K : FsConsts) (img : Image) (sb : Superblock)
    (allocated : Bool) :
    check_multiply_referenced_blocks_alloc K img sb allocated =
      match build_block_reference_map_alloc K img sb allocated with
      | .fail out => .fail out
      | .undefined => .undefined
      | .ok referenced =>
        forLoop (fun _ => true)
          (fun blockno _ =>
            if referenced blockno > 1 then .fail [Msg.DuplicateBlockClaim] else .ok ())
          (sb.size - start_block K sb) (start_block K sb) () := by
  cases allocated <;> rfl

theorem check_referenced_alloc_eq (K : FsConsts) (img : Image) (sb : Superblock)
    (allocated : Bool) :
    check_referenced_blocks_alloc K img sb allocated =
      match build_block_reference_map_alloc K img sb allocated with
      | .fail out => .fail out
      | .undefined => .undefined
      | .ok referenced =>
        forLoop (fun _ => true)
          (fun blockno _ =>
            let allocated := is_block_allocated K img sb blockno
            if allocated < 0 then .fail []
            else if allocated ≠ 0 ∧ referenced blockno = 0 then .fail [Msg.PhantomAllocation]
            else .ok ())
          (sb.size - 1) 1 () := by
  cases allocated <;> rfl

theorem mark_entries_filter (sb : Superblock) (l : List Dirent) (m : Nat → Nat) :
    mark_entries sb l m =
      mark_entries sb (l.filter (fun e => decide (e.inum < sb.ninodes))) m := by
  funext x
  by_cases h : ∃ e ∈ l, e.inum = x ∧ 0 < x ∧ x < sb.ninodes
  · rw [(mark_entries_apply sb l m x).1 h]
    obtain ⟨e, he, h1, h2, h3⟩ := h
    refine ((mark_entries_apply sb _ m x).1 ⟨e, ?_, h1, h2, h3⟩).symm
    rw [List.mem_filter]
    exact ⟨he, by rw [h1]; exact decide_eq_true h3⟩
  · rw [(mark_entries_apply sb l m x).2 h]
    refine ((mark_entries_apply sb _ m x).2 ?_).symm
    rintro ⟨e, he, h1⟩
    exact h ⟨e, (List.mem_filter.1 he).1, h1⟩

theorem mem_range_one (n a : Nat) (h : a ∈ List.range' 1 (n - 1)) : 1 ≤ a ∧ a < n := by
  rw [List.mem_range'_1] at h
  omega

theorem strayImg_readable : AllReadable strayImg := by
  intro b
  unfold rblock strayImg
  by_cases h1 : b = 5
  · exact ⟨_, by rw [if_pos h1]⟩
  · by_cases h2 : b = 60
    · exact ⟨_, by rw [if_neg h1, if_pos h2]⟩
    · by_cases h3 : b = 62
      · exact ⟨_, by rw [if_neg h1, if_neg h2, if_pos h3]⟩
      · exact ⟨_, by rw [if_neg h1, if_neg h2, if_neg h3]⟩

theorem strayImg_read_inode (n : Nat) (h : n < sb100.ninodes) :
    read_inode xv6 treeImg sb100 n = read_inode xv6 strayImg sb100 n := by
  have hb : u32 (n / xv6.IPB + sb100.inodestart) ≠ 60 := by
    have h32 : n < 32 := h
    show (n / 16 + 5) % 4294967296 ≠ 60
    omega
  unfold read_inode rblock treeImg strayImg
  dsimp only
  by_cases h5 : u32 (n / xv6.IPB + sb100.inodestart) = 5
  · rw [if_pos h5, if_pos h5]
  · rw [if_neg h5, if_neg h5, if_neg hb, if_neg hb]

/-! ## The block an inode record is read from -/

theorem truncate_highBlocksFail (n : Nat) (img : Image) : HighBlocksFail (truncate n img) := by
  intro b hb
  unfold rblock truncate
  rw [if_pos hb]

theorem truncate_sameOffset (n : Nat) (img : Image) :
    SameOffsetSameBlock xv6 (truncate n img) := by
  intro b c hb hc h
  have h2 : (b * 1024) % 4294967296 = (c * 1024) % 4294967296 := h
  clear h
  have hmod : b % 4194304 = c % 4194304 := by omega
  unfold rblock truncate
  rw [if_neg (not_le.2 hb), if_neg (not_le.2 hc), hmod]

theorem zeroFile_rblock (b : Nat) (hb : b < 2147483648) : rblock zeroFile b = some zeroBlock := by
  have hm : ¬ 4194304 ≤ b % 4194304 := by omega
  unfold rblock zeroFile truncate
  rw [if_neg (not_le.2 hb), if_neg hm]
  rfl

theorem zeroFile_read_inode (n : Nat) (hn : n < 4294967296) :
    read_inode xv6 zeroFile sbMaxInodes n = .ok (zeroBlock.dinodes (n % xv6.IPB)) := by
  have hb : u32 (n / xv6.IPB + sbMaxInodes.inodestart) < 2147483648 := by
    show (n / 16 + 5) % 4294967296 < 2147483648
    omega
  unfold read_inode
  dsimp only
  rw [zeroFile_rblock _ hb]

theorem zeroFile_dirReads : DirReads xv6 zeroFile sbMaxInodes := by
  intro d _ h2
  have hd : d < 4294967296 := Nat.lt_trans h2 (by decide)
  exact ⟨_, zeroFile_read_inode d hd, fun ht _ => absurd rfl ht⟩

theorem zeroFile_no_names (d i : Nat) : ¬ DirNames xv6 zeroFile sbMaxInodes d i := by
  rintro ⟨_, h2, dip, hri, ht, _⟩
  have hd : d < 4294967296 := Nat.lt_trans h2 (by decide)
  rw [zeroFile_read_inode d hd] at hri
  rw [← Outcome.ok.inj hri] at ht
  exact ht rfl

/-! ## Inode block checker, as specified -/

theorem is_block_allocated_neg_iff (K : FsConsts) (img : Image) (sb : Superblock) (a : Nat)
    (hv : is_valid_block sb a = true) :
    is_block_allocated K img sb a = -1 ↔
      rblock img (u32 (a / (K.BSIZE * 8) + sb.bmapstart)) = none := by
  obtain ⟨hlt, h0⟩ := is_valid_block_lt sb a hv
  unfold is_block_allocated
  rw [if_neg (by omega), if_neg h0]
  dsimp only
  cases hb : rblock img (u32 (a / (K.BSIZE * 8) + sb.bmapstart)) with
  | none => simp
  | some blk =>
    dsimp only
    constructor
    · intro h
      omega
    · intro h
      cases h

theorem check_inode_blocks_eq_of (K : FsConsts) (img : Image) (sb : Superblock) (dip : Dinode)
    (hind : dip.addrs K.NDIRECT ≠ 0 → ∃ blk, rblock img (dip.addrs K.NDIRECT) = some blk) :
    check_inode_blocks K img sb dip =
      firstBad (check_slot K img sb) (inodeAddrSeq K img dip) := by
  have h1 : forLoop (fun _ => true)
      (fun i _ => if dip.addrs i ≠ 0 then check_address K img sb (dip.addrs i) else .ok ())
      K.NDIRECT 0 () = firstBad (check_slot K img sb) ((List.range K.NDIRECT).map dip.addrs) := by
    rw [List.range_eq_range']
    exact forLoop_unit_eq_firstBad (check_slot K img sb) dip.addrs K.NDIRECT 0
  unfold check_inode_blocks inodeAddrSeq
  rw [h1, firstBad_append]
  cases hd : firstBad (check_slot K img sb) ((List.range K.NDIRECT).map dip.addrs) with
  | fail out => rfl
  | undefined => rfl
  | ok u =>
    dsimp only
    by_cases h0 : dip.addrs K.NDIRECT = 0
    · simp [h0, firstBad, check_slot]
    · obtain ⟨blk, hb⟩ := hind h0
      simp only [h0, ne_eq, not_false_eq_true, if_true, if_false, firstBad, check_slot, hb]
      cases hc : check_address K img sb (dip.addrs K.NDIRECT) with
      | fail out => rfl
      | undefined => rfl
      | ok u =>
        dsimp only
        rw [List.range_eq_range']
        exact forLoop_unit_eq_firstBad (check_slot K img sb) blk.words K.NINDIRECT 0

theorem check_inode_blocks_unreadable (K : FsConsts) (img : Image) (sb : Superblock)
    (dip : Dinode) (h0 : dip.addrs K.NDIRECT ≠ 0)
    (hnone : rblock img (dip.addrs K.NDIRECT) = none) :
    check_inode_blocks K img sb dip =
      match firstBad (check_slot K img sb) (inodeAddrSeq K img dip) with
      | .ok _ => .fail [Msg.ReadIndirectFailure]
      | .fail out => .fail out
      | .undefined => .undefined := by
  have h1 : forLoop (fun _ => true)
      (fun i _ => if dip.addrs i ≠ 0 then check_address K img sb (dip.addrs i) else .ok ())
      K.NDIRECT 0 () = firstBad (check_slot K img sb) ((List.range K.NDIRECT).map dip.addrs) := by
    rw [List.range_eq_range']
    exact forLoop_unit_eq_firstBad (check_slot K img sb) dip.addrs K.NDIRECT 0
  unfold check_inode_blocks inodeAddrSeq
  rw [h1, firstBad_append]
  cases hd : firstBad (check_slot K img sb) ((List.range K.NDIRECT).map dip.addrs) with
  | fail out => rfl
  | undefined => rfl
  | ok u =>
    dsimp only
    simp only [h0, ne_eq, not_false_eq_true, if_true, if_false, firstBad, check_slot, hnone]
    cases hc : check_address K img sb (dip.addrs K.NDIRECT) with
    | fail out => rfl
    | undefined => rfl
    | ok u => rfl

theorem mem_inodeAddrSeq (K : FsConsts) (img : Image) (dip : Dinode) (a : Nat) :
    a ∈ inodeAddrSeq K img dip ↔
      (∃ i, i < K.NDIRECT ∧ dip.addrs i = a) ∨ a = dip.addrs K.NDIRECT ∨
      (dip.addrs K.NDIRECT ≠ 0 ∧ ∃ blk, rblock img (dip.addrs K.NDIRECT) = some blk ∧
        ∃ i, i < K.NINDIRECT ∧ blk.words i = a) := by
  unfold inodeAddrSeq
  simp only [List.mem_append, List.mem_map, List.mem_range, List.mem_cons]
  constructor
  · rintro (h | h | h)
    · exact Or.inl h
    · exact Or.inr (Or.inl h)
    · right; right
      by_cases h0 : dip.addrs K.NDIRECT = 0
      · simp [h0] at h
      · cases hb : rblock img (dip.addrs K.NDIRECT) with
        | none => simp [h0, hb] at h
        | some blk =>
          simp only [h0, if_false, hb, List.mem_map, List.mem_range] at h
          exact ⟨h0, blk, rfl, h⟩
  · rintro (h | h | ⟨h0, blk, hb, h⟩)
    · exact Or.inl h
    · exact Or.inr (Or.inl h)
    · right; right
      simp only [h0, if_false, hb, List.mem_map, List.mem_range]
      exact h

/-- C1: `check_inode_blocks` returns success if and only if every nonzero
direct address satisfies `is_valid_block` and is reported allocated (1) by
`is_block_allocated`, and, when the indirect address is nonzero, it passes
both tests, the indirect block is read, and every nonzero entry of that
block passes both tests. Being reported allocated includes that the bitmap
was read. So when the read of the indirect block succeeds where it is
made, success means exactly that every nonzero direct address, the
indirect address when nonzero and every nonzero entry of the indirect block
pass both tests. -/
theorem check_inode_blocks_ok_iff (K : FsConsts) (img : Image) (sb : Superblock)
    (dip : Dinode) :
    (check_inode_blocks K img sb dip = .ok () ↔
      (∀ i, i < K.NDIRECT → dip.addrs i ≠ 0 → AddrOK K img sb (dip.addrs i)) ∧
      (dip.addrs K.NDIRECT ≠ 0 →
        AddrOK K img sb (dip.addrs K.NDIRECT) ∧
        ∃ blk, rblock img (dip.addrs K.NDIRECT) = some blk ∧
          ∀ i, i < K.NINDIRECT → blk.words i ≠ 0 → AddrOK K img sb (blk.words i))) ∧
    ((dip.addrs K.NDIRECT ≠ 0 → AddrOK K img sb (dip.addrs K.NDIRECT) →
        ∃ blk, rblock img (dip.addrs K.NDIRECT) = some blk) →
      (check_inode_blocks K img sb dip = .ok () ↔
        (∀ i, i < K.NDIRECT → dip.addrs i ≠ 0 → AddrOK K img sb (dip.addrs i)) ∧
        (dip.addrs K.NDIRECT ≠ 0 → AddrOK K img sb (dip.addrs K.NDIRECT)) ∧
        (dip.addrs K.NDIRECT ≠ 0 → ∀ blk, rblock img (dip.addrs K.NDIRECT) = some blk →
          ∀ i, i < K.NINDIRECT → blk.words i ≠ 0 → AddrOK K img sb (blk.words i)))) := by
  have hmain : check_inode_blocks K img sb dip = .ok () ↔
      (∀ i, i < K.NDIRECT → dip.addrs i ≠ 0 → AddrOK K img sb (dip.addrs i)) ∧
      (dip.addrs K.NDIRECT ≠ 0 →
        AddrOK K img sb (dip.addrs K.NDIRECT) ∧
        ∃ blk, rblock img (dip.addrs K.NDIRECT) = some blk ∧
          ∀ i, i < K.NINDIRECT → blk.words i ≠ 0 → AddrOK K img sb (blk.words i)) := by
    by_cases hcase : dip.addrs K.NDIRECT ≠ 0 ∧ rblock img (dip.addrs K.NDIRECT) = none
    · obtain ⟨h0, hnone⟩ := hcase
      rw [check_inode_blocks_unreadable K img sb dip h0 hnone]
      constructor
      · intro h
        cases hf : firstBad (check_slot K img sb) (inodeAddrSeq K img dip) <;>
          rw [hf] at h <;> cases h
      · rintro ⟨_, h2⟩
        obtain ⟨_, blk, hb, _⟩ := h2 h0
        rw [hnone] at hb
        cases hb
    · have hind : dip.addrs K.NDIRECT ≠ 0 →
          ∃ blk, rblock img (dip.addrs K.NDIRECT) = some blk := by
        intro h0
        cases hb : rblock img (dip.addrs K.NDIRECT) with
        | none => exact absurd ⟨h0, hb⟩ hcase
        | some blk => exact ⟨blk, rfl⟩
      rw [check_inode_blocks_eq_of K img sb dip hind, firstBad_ok_iff]
      simp only [check_slot_ok_iff]
      constructor
      · intro h
        refine ⟨fun i hi => h _ ((mem_inodeAddrSeq K img dip _).2 (Or.inl ⟨i, hi, rfl⟩)),
          fun h0 => ?_⟩
        obtain ⟨blk, hb⟩ := hind h0
        refine ⟨h _ ((mem_inodeAddrSeq K img dip _).2 (Or.inr (Or.inl rfl))) h0, blk, hb, ?_⟩
        intro i hi
        exact h _ ((mem_inodeAddrSeq K img dip _).2 (Or.inr (Or.inr ⟨h0, blk, hb, i, hi, rfl⟩)))
      · rintro ⟨h1, h2⟩ a ha
        rcases (mem_inodeAddrSeq K img dip a).1 ha with ⟨i, hi, rfl⟩ | rfl | ⟨h0, blk, hb, i, hi, rfl⟩
        · exact h1 i hi
        · exact fun h0 => (h2 h0).1
        · obtain ⟨_, blk2, hb2, h3⟩ := h2 h0
          rw [hb] at hb2
          rw [← Option.some.inj hb2] at h3
          exact h3 i hi
  refine ⟨hmain, fun hread => ?_⟩
  rw [hmain]
  constructor
  · rintro ⟨h1, h2⟩
    refine ⟨h1, fun h0 => (h2 h0).1, fun h0 blk hb => ?_⟩
    obtain ⟨_, blk2, hb2, h3⟩ := h2 h0
    rw [hb] at hb2
    rw [← Option.some.inj hb2] at h3
    exact h3
  · rintro ⟨h1, h2, h3⟩
    refine ⟨h1, fun h0 => ⟨h2 h0, ?_⟩⟩
    obtain ⟨blk, hb⟩ := hread h0 (h2 h0)
    exact ⟨blk, hb, h3 h0 blk hb⟩

set_option maxRecDepth 100000 in
/-- Witness of C1: on `indirImg` the inode `dipGood` passes: its direct
address 50, its indirect address 51 and the entries 52 and 53 of its
indirect block pass both tests. -/
theorem check_inode_blocks_ok_iff_witness :
    check_inode_blocks xv6 indirImg sb100 dipGood = .ok () ∧
    dipGood.addrs 0 = 50 ∧ dipGood.addrs xv6.NDIRECT = 51 ∧
    rblock indirImg 51 = some indirBlock ∧ indirBlock.words 0 = 52 ∧ indirBlock.words 1 = 53 ∧
    AddrOK xv6 indirImg sb100 50 ∧
    (dipGood.addrs xv6.NDIRECT ≠ 0 →
      AddrOK xv6 indirImg sb100 (dipGood.addrs xv6.NDIRECT) ∧
      ∃ blk, rblock indirImg (dipGood.addrs xv6.NDIRECT) = some blk ∧
        ∀ i, i < xv6.NINDIRECT → blk.words i ≠ 0 → AddrOK xv6 indirImg sb100 (blk.words i)) ∧
    AddrOK xv6 indirImg sb100 52 ∧ AddrOK xv6 indirImg sb100 53 := by
  have h := ((check_inode_blocks_ok_iff xv6 indirImg sb100 dipGood).1.1 (by decide))
  obtain ⟨_, blk, hb, h3⟩ := h.2 (by decide)
  have hblk : blk = indirBlock := (Option.some.inj hb).symm
  subst hblk
  exact ⟨by decide, rfl, rfl, rfl, rfl, rfl, h.1 0 (by decide) (by decide), h.2,
    h3 0 (by decide) (by decide), h3 1 (by decide) (by decide)⟩

theorem check_inode_blocks_indirect_offender (K : FsConsts) (img : Image) (sb : Superblock)
    (dip : Dinode) (out : List Msg) (pre post : List Nat) (a : Nat)
    (hseq : inodeAddrSeq K img dip = pre ++ a :: post)
    (hpre : ∀ x ∈ pre, check_slot K img sb x = .ok ()) (ha0 : a ≠ 0)
    (hca : check_address K img sb a = .fail out) (hlen : pre.length = K.NDIRECT)
    (img2 : Image)
    (hsame : ∀ i, i ≤ K.NDIRECT →
      is_block_allocated K img2 sb (dip.addrs i) = is_block_allocated K img sb (dip.addrs i)) :
    check_inode_blocks K img2 sb dip = .fail out := by
  have hsplit : pre = (List.range K.NDIRECT).map dip.addrs ∧ a = dip.addrs K.NDIRECT := by
    unfold inodeAddrSeq at hseq
    have := List.append_inj hseq.symm (by simp [hlen])
    exact ⟨this.1, (List.cons.inj this.2).1⟩
  obtain ⟨hp, hai⟩ := hsplit
  have hdir : forLoop (fun _ => true)
      (fun i _ => if dip.addrs i ≠ 0 then check_address K img2 sb (dip.addrs i) else .ok ())
      K.NDIRECT 0 () = .ok () := by
    have h1 := forLoop_unit_eq_firstBad (check_slot K img2 sb) dip.addrs K.NDIRECT 0
    rw [← List.range_eq_range'] at h1
    refine h1.trans ?_
    rw [firstBad_ok_iff]
    intro x hx
    have hx2 := hx
    rw [← hp] at hx2
    obtain ⟨i, hi, rfl⟩ := List.mem_map.1 hx
    rw [← hpre _ hx2]
    unfold check_slot
    rw [check_address_congr K img img2 sb _ (hsame i (Nat.le_of_lt (List.mem_range.1 hi)))]
  unfold check_inode_blocks
  rw [hdir]
  dsimp only
  rw [← hai, if_pos ha0, check_address_congr K img img2 sb a (by rw [hai]; exact hsame _ le_rfl),
    hca]

/-- C2: when `check_inode_blocks` fails, the lines printed are decided by
the first offending address `a` in the order direct slots, indirect slot,
entries of the indirect block: every address before it is zero or passes
both tests, `a` is nonzero, and the output is "bad address in inode" if `a`
fails `is_valid_block`, "address used by inode but marked free in bitmap"
if `a` is valid and its bit is clear, and "failed to read bitmap" only if
`a` is valid and the read of its bitmap block failed; when the offender is
the indirect address, every image that gives the same bitmap answers for
the direct and indirect addresses gives the same result, whatever its
indirect block holds. The one other failure is "failed to read indirect
block", after every address passed, when the read of the indirect block
failed. So when the reads of the call succeed the output is one of the
first two, and no other. -/
theorem check_inode_blocks_fail_kind (K : FsConsts) (img : Image) (sb : Superblock)
    (dip : Dinode) (out : List Msg)
    (hfail : check_inode_blocks K img sb dip = .fail out) :
    ((∃ pre a post, inodeAddrSeq K img dip = pre ++ a :: post ∧
        (∀ x ∈ pre, x ≠ 0 → AddrOK K img sb x) ∧ a ≠ 0 ∧
        ((is_valid_block sb a = false ∧ out = [Msg.BadAddress]) ∨
         (is_valid_block sb a = true ∧ is_block_allocated K img sb a = 0 ∧
            out = [Msg.UnmarkedAllocation]) ∨
         (is_valid_block sb a = true ∧
            rblock img (u32 (a / (K.BSIZE * 8) + sb.bmapstart)) = none ∧
            out = [Msg.ReadBitmapFailure])) ∧
        (pre.length = K.NDIRECT → ∀ img2 : Image,
          (∀ i, i ≤ K.NDIRECT →
            is_block_allocated K img2 sb (dip.addrs i) =
              is_block_allocated K img sb (dip.addrs i)) →
          check_inode_blocks K img2 sb dip = .fail out)) ∨
      ((∀ x ∈ inodeAddrSeq K img dip, x ≠ 0 → AddrOK K img sb x) ∧
        dip.addrs K.NDIRECT ≠ 0 ∧ rblock img (dip.addrs K.NDIRECT) = none ∧
        out = [Msg.ReadIndirectFailure])) ∧
    (InodeBlockReads K img sb dip →
      ∃ pre a post, inodeAddrSeq K img dip = pre ++ a :: post ∧
        (∀ x ∈ pre, x ≠ 0 → AddrOK K img sb x) ∧ a ≠ 0 ∧
        ((is_valid_block sb a = false ∧ out = [Msg.BadAddress]) ∨
         (is_valid_block sb a = true ∧ is_block_allocated K img sb a = 0 ∧
            out = [Msg.UnmarkedAllocation])) ∧
        (pre.length = K.NDIRECT → ∀ img2 : Image,
          (∀ i, i ≤ K.NDIRECT →
            is_block_allocated K img2 sb (dip.addrs i) =
              is_block_allocated K img sb (dip.addrs i)) →
          check_inode_blocks K img2 sb dip = .fail out)) := by
  have hfb : ∀ out2, firstBad (check_slot K img sb) (inodeAddrSeq K img dip) = .fail out2 →
      ∃ pre a post, inodeAddrSeq K img dip = pre ++ a :: post ∧
        (∀ x ∈ pre, x ≠ 0 → AddrOK K img sb x) ∧ a ≠ 0 ∧
        ((is_valid_block sb a = false ∧ out2 = [Msg.BadAddress]) ∨
         (is_valid_block sb a = true ∧ is_block_allocated K img sb a = 0 ∧
            out2 = [Msg.UnmarkedAllocation]) ∨
         (is_valid_block sb a = true ∧
            rblock img (u32 (a / (K.BSIZE * 8) + sb.bmapstart)) = none ∧
            out2 = [Msg.ReadBitmapFailure])) ∧
        (pre.length = K.NDIRECT → ∀ img2 : Image,
          (∀ i, i ≤ K.NDIRECT →
            is_block_allocated K img2 sb (dip.addrs i) =
              is_block_allocated K img sb (dip.addrs i)) →
          check_inode_blocks K img2 sb dip = .fail out2) := by
    intro out2 hf
    obtain ⟨pre, a, post, hseq, hpre, ha⟩ := firstBad_fail _ _ _ hf
    have ha0 : a ≠ 0 := by
      intro h0
      simp [check_slot, h0] at ha
    have hca : check_address K img sb a = .fail out2 := by
      simpa [check_slot, ha0] using ha
    refine ⟨pre, a, post, hseq, fun x hx => (check_slot_ok_iff K img sb x).1 (hpre x hx), ha0,
      ?_, fun hlen img2 hsame =>
        check_inode_blocks_indirect_offender K img sb dip out2 pre post a hseq hpre ha0 hca hlen
          img2 hsame⟩
    rcases check_address_fail K img sb a out2 hca with h | h | h
    · exact Or.inl h
    · exact Or.inr (Or.inr ⟨h.1, (is_block_allocated_neg_iff K img sb a h.1).1 h.2.1, h.2.2⟩)
    · exact Or.inr (Or.inl h)
  have hfirst : (∃ pre a post, inodeAddrSeq K img dip = pre ++ a :: post ∧
        (∀ x ∈ pre, x ≠ 0 → AddrOK K img sb x) ∧ a ≠ 0 ∧
        ((is_valid_block sb a = false ∧ out = [Msg.BadAddress]) ∨
         (is_valid_block sb a = true ∧ is_block_allocated K img sb a = 0 ∧
            out = [Msg.UnmarkedAllocation]) ∨
         (is_valid_block sb a = true ∧
            rblock img (u32 (a / (K.BSIZE * 8) + sb.bmapstart)) = none ∧
            out = [Msg.ReadBitmapFailure])) ∧
        (pre.length = K.NDIRECT → ∀ img2 : Image,
          (∀ i, i ≤ K.NDIRECT →
            is_block_allocated K img2 sb (dip.addrs i) =
              is_block_allocated K img sb (dip.addrs i)) →
          check_inode_blocks K img2 sb dip = .fail out)) ∨
      ((∀ x ∈ inodeAddrSeq K img dip, x ≠ 0 → AddrOK K img sb x) ∧
        dip.addrs K.NDIRECT ≠ 0 ∧ rblock img (dip.addrs K.NDIRECT) = none ∧
        out = [Msg.ReadIndirectFailure]) := by
    by_cases hcase : dip.addrs K.NDIRECT ≠ 0 ∧ rblock img (dip.addrs K.NDIRECT) = none
    · obtain ⟨h0, hnone⟩ := hcase
      rw [check_inode_blocks_unreadable K img sb dip h0 hnone] at hfail
      cases hf : firstBad (check_slot K img sb) (inodeAddrSeq K img dip) with
      | ok u =>
        rw [hf] at hfail
        right
        refine ⟨fun x hx => (check_slot_ok_iff K img sb x).1 ((firstBad_ok_iff _ _).1 hf x hx),
          h0, hnone, ?_⟩
        exact (Outcome.fail.inj hfail).symm
      | fail out2 =>
        rw [hf] at hfail
        have : out2 = out := Outcome.fail.inj hfail
        subst this
        exact Or.inl (hfb _ hf)
      | undefined =>
        rw [hf] at hfail
        cases hfail
    · have hind : dip.addrs K.NDIRECT ≠ 0 →
          ∃ blk, rblock img (dip.addrs K.NDIRECT) = some blk := by
        intro h0
        cases hb : rblock img (dip.addrs K.NDIRECT) with
        | none => exact absurd ⟨h0, hb⟩ hcase
        | some blk => exact ⟨blk, rfl⟩
      rw [check_inode_blocks_eq_of K img sb dip hind] at hfail
      exact Or.inl (hfb _ hfail)
  refine ⟨hfirst, fun hreads => ?_⟩
  rcases hfirst with ⟨pre, a, post, hseq, hpre, ha0, hkind, hind⟩ | ⟨hall, h0, hnone, _⟩
  · refine ⟨pre, a, post, hseq, hpre, ha0, ?_, hind⟩
    rcases hkind with h | h | h
    · exact Or.inl h
    · exact Or.inr h
    · exfalso
      have hmem : a ∈ inodeAddrSeq K img dip := by
        rw [hseq]
        simp
      obtain ⟨blk, hb⟩ := hreads.1 a hmem h.1
      rw [h.2.1] at hb
      cases hb
  · exfalso
    have hmem : dip.addrs K.NDIRECT ∈ inodeAddrSeq K img dip :=
      (mem_inodeAddrSeq K img dip _).2 (Or.inr (Or.inl rfl))
    obtain ⟨blk, hb⟩ := hreads.2 h0 (hall _ hmem h0)
    rw [hnone] at hb
    cases hb

set_option maxRecDepth 100000 in
/-- Witness of C2: under `sb100`, on `onesImg` the inode `dipOutOfRange`
fails with "bad address in inode", its first direct address 200 being past
`size`; on `zeroImg`, whose bitmap marks nothing, the inode `dipGood` fails
with "address used by inode but marked free in bitmap" on its first direct
address 50. Without the bitmap block the same inode fails with "failed to
read bitmap", and without the indirect block with "failed to read indirect
block". -/
theorem check_inode_blocks_fail_kind_witness :
    (check_inode_blocks xv6 onesImg sb100 dipOutOfRange = .fail [Msg.BadAddress] ∧
      ∃ pre a post, inodeAddrSeq xv6 onesImg dipOutOfRange = pre ++ a :: post ∧ a ≠ 0 ∧
        is_valid_block sb100 a = false) ∧
    (check_inode_blocks xv6 zeroImg sb100 dipGood = .fail [Msg.UnmarkedAllocation] ∧
      ∃ pre a post, inodeAddrSeq xv6 zeroImg dipGood = pre ++ a :: post ∧ a ≠ 0 ∧
        is_valid_block sb100 a = true ∧ is_block_allocated xv6 zeroImg sb100 a = 0) ∧
    check_inode_blocks xv6 noBitmapImg sb100 dipGood = .fail [Msg.ReadBitmapFailure] ∧
    check_inode_blocks xv6 noIndirectImg sb100 dipGood = .fail [Msg.ReadIndirectFailure] := by
  have hr1 : InodeBlockReads xv6 onesImg sb100 dipOutOfRange :=
    ⟨fun _ _ _ => ⟨onesBlock, rfl⟩, fun _ _ => ⟨onesBlock, rfl⟩⟩
  have hr2 : InodeBlockReads xv6 zeroImg sb100 dipGood :=
    ⟨fun _ _ _ => ⟨zeroBlock, rfl⟩, fun _ _ => ⟨zeroBlock, rfl⟩⟩
  obtain ⟨pre, a, post, hseq, _, ha0, hkind, _⟩ :=
    (check_inode_blocks_fail_kind xv6 onesImg sb100 dipOutOfRange [Msg.BadAddress]
      (by decide)).2 hr1
  obtain ⟨pre2, a2, post2, hseq2, _, ha2, hkind2, _⟩ :=
    (check_inode_blocks_fail_kind xv6 zeroImg sb100 dipGood [Msg.UnmarkedAllocation]
      (by decide)).2 hr2
  refine ⟨⟨by decide, pre, a, post, hseq, ha0, ?_⟩, ⟨by decide, pre2, a2, post2, hseq2, ha2, ?_⟩,
    by decide, by decide⟩
  · rcases hkind with h | h
    · exact h.1
    · exact absurd h.2.2 (by decide)
  · rcases hkind2 with h | h
    · exact absurd h.2 (by decide)
    · exact ⟨h.1, h.2.1⟩

/-! ## Allocated blocks are referenced: examples -/

theorem orphanImg_readable : AllReadable orphanImg := by
  intro b
  unfold rblock orphanImg
  by_cases h1 : b = 5
  · exact ⟨_, by rw [if_pos h1]⟩
  · by_cases h2 : b = 60
    · exact ⟨_, by rw [if_neg h1, if_pos h2]⟩
    · by_cases h3 : b = 62
      · exact ⟨_, by rw [if_neg h1, if_neg h2, if_pos h3]⟩
      · exact ⟨_, by rw [if_neg h1, if_neg h2, if_neg h3]⟩


/-! ## The loops over the directories, when their reads succeed -/

theorem forLoop_ok_body {σ : Type} (body : Nat → σ → Outcome σ) (n i0 : Nat) (s s1 : σ)
    (h : forLoop (fun _ => true) body n i0 s = .ok s1) (i : Nat) (h1 : i0 ≤ i)
    (h2 : i < i0 + n) : ∃ s2 s3, body i s2 = .ok s3 := by
  induction n generalizing i0 s with
  | zero => omega
  | succ n ih =>
    simp only [forLoop, if_true] at h
    cases hb : body i0 s with
    | fail out => rw [hb] at h; cases h
    | undefined => rw [hb] at h; cases h
    | ok s2 =>
      rw [hb] at h
      by_cases hi : i = i0
      · subst hi
        exact ⟨s, s2, hb⟩
      · exact ih (i0 + 1) s2 h (by omega) (by omega)

theorem dirReads_of_allReadable (K : FsConsts) (img : Image) (sb : Superblock)
    (hr : AllReadable img) : DirReads K img sb := by
  intro d _ _
  obtain ⟨dip, hri⟩ := read_inode_readable K img sb d hr
  exact ⟨dip, hri, fun _ _ => ⟨_, read_all_dirents_eq K img sb dip hr⟩⟩

theorem build_inode_reference_map_reads (K : FsConsts) (img : Image) (sb : Superblock)
    (m : Nat → Nat) (hm : build_inode_reference_map K img sb = .ok m) : DirReads K img sb := by
  intro d h1 h2
  unfold build_inode_reference_map at hm
  obtain ⟨s2, s3, hb⟩ := forLoop_ok_body _ _ _ _ _ hm d h1 (by omega)
  cases hri : read_inode K img sb d with
  | fail out => rw [hri] at hb; cases hb
  | undefined => rw [hri] at hb; cases hb
  | ok dip =>
    rw [hri] at hb
    dsimp only at hb
    refine ⟨dip, rfl, fun ht hdir => ?_⟩
    rw [if_neg (by simp [ht, hdir])] at hb
    cases hra : read_all_dirents K img sb dip (MAX_DIRENT_COUNT K) with
    | fail out => rw [hra] at hb; cases hb
    | undefined => rw [hra] at hb; cases hb
    | ok es => exact ⟨es, rfl⟩

theorem dirReads_inode (K : FsConsts) (img : Image) (sb : Superblock)
    (hreads : DirReads K img sb) (d : Nat) (h1 : 1 ≤ d) (h2 : d < sb.ninodes) :
    ∃ dip, read_inode K img sb d = .ok dip := by
  obtain ⟨dip, hri, _⟩ := hreads d h1 h2
  exact ⟨dip, hri⟩

theorem dirReads_entries (K : FsConsts) (img : Image) (sb : Superblock)
    (hreads : DirReads K img sb) (d : Nat) (dip : Dinode) (h1 : 1 ≤ d) (h2 : d < sb.ninodes)
    (hri : read_inode K img sb d = .ok dip) (ht : dip.type ≠ 0)
    (hdir : is_directory K dip = true) :
    read_all_dirents K img sb dip (MAX_DIRENT_COUNT K) = .ok (diskEntries K img dip) := by
  obtain ⟨dip2, hri2, hes⟩ := hreads d h1 h2
  rw [hri] at hri2
  rw [← Outcome.ok.inj hri2] at hes
  obtain ⟨es, he⟩ := hes ht hdir
  rw [he, read_all_dirents_ok_eq K img sb dip es he]

theorem forLoop_mark_of (sb : Superblock) (L : Nat → List Dirent)
    (body : Nat → (Nat → Nat) → Outcome (Nat → Nat)) (n i0 : Nat)
    (hbody : ∀ i m, i0 ≤ i → i < i0 + n → body i m = .ok (mark_entries sb (L i) m))
    (m : Nat → Nat) :
    forLoop (fun _ => true) body n i0 m =
      .ok (mark_entries sb ((List.range' i0 n).flatMap L) m) := by
  induction n generalizing i0 m with
  | zero => simp [forLoop, mark_entries]
  | succ n ih =>
    simp only [forLoop, if_true, hbody i0 m le_rfl (by omega), List.range', List.flatMap_cons,
      mark_entries_append]
    exact ih (i0 + 1) (fun i m h1 h2 => hbody i m (by omega) (by omega)) _

theorem build_inode_reference_map_eq_of (K : FsConsts) (img : Image) (sb : Superblock)
    (hreads : DirReads K img sb) :
    build_inode_reference_map K img sb =
      .ok (mark_entries sb ((List.range' 1 (sb.ninodes - 1)).flatMap (dirEntriesOf K img sb))
        (fun _ => 0)) := by
  unfold build_inode_reference_map
  apply forLoop_mark_of sb (dirEntriesOf K img sb)
  intro d m h1 h2
  have hd : d < sb.ninodes := by omega
  obtain ⟨dip, hri⟩ := dirReads_inode K img sb hreads d h1 hd
  unfold dirEntriesOf
  rw [hri]
  dsimp only
  by_cases hc : dip.type = 0 ∨ is_directory K dip = false
  · simp [hc, mark_entries]
  · rw [if_neg hc, if_neg hc]
    push_neg at hc
    rw [dirReads_entries K img sb hreads d dip h1 hd hri hc.1 (by simpa using hc.2)]

theorem build_inode_reference_map_spec_of (K : FsConsts) (img : Image) (sb : Superblock)
    (m : Nat → Nat) (hm : build_inode_reference_map K img sb = .ok m) (x : Nat) :
    (m x = 0 ∨ m x = 1) ∧
      (m x ≠ 0 ↔ 0 < x ∧ x < sb.ninodes ∧ ∃ d, DirNames K img sb d x) := by
  have heq := build_inode_reference_map_eq_of K img sb
    (build_inode_reference_map_reads K img sb m hm)
  rw [hm] at heq
  rw [Outcome.ok.inj heq]
  have hma := mark_entries_apply sb
    ((List.range' 1 (sb.ninodes - 1)).flatMap (dirEntriesOf K img sb)) (fun _ => 0) x
  by_cases hex : ∃ e ∈ (List.range' 1 (sb.ninodes - 1)).flatMap (dirEntriesOf K img sb),
      e.inum = x ∧ 0 < x ∧ x < sb.ninodes
  · rw [hma.1 hex]
    obtain ⟨e, he, h1, h2, h3⟩ := hex
    exact ⟨Or.inr rfl, fun _ => ⟨h2, h3, (mem_dirEntries_iff K img sb x).1 ⟨e, he, h1⟩⟩,
      fun _ => by decide⟩
  · rw [hma.2 hex]
    refine ⟨Or.inl rfl, fun h => absurd rfl h, ?_⟩
    rintro ⟨h2, h3, hd⟩
    obtain ⟨e, he, h1⟩ := (mem_dirEntries_iff K img sb x).2 hd
    exact absurd ⟨e, he, h1, h2, h3⟩ hex

theorem check_used_cases_of (K : FsConsts) (img : Image) (sb : Superblock) (m : Nat → Nat)
    (hm : build_inode_reference_map K img sb = .ok m) :
    (check_used_inode_found_in_directory K img sb = .ok () ∨
      check_used_inode_found_in_directory K img sb = .fail [Msg.OrphanInode]) ∧
    (check_used_inode_found_in_directory K img sb = .ok () ↔
      ∀ i dip, 1 ≤ i → i < sb.ninodes → read_inode K img sb i = .ok dip → dip.type ≠ 0 →
        ∃ d, DirNames K img sb d i) := by
  have hreads := build_inode_reference_map_reads K img sb m hm
  have hspec := build_inode_reference_map_spec_of K img sb m hm
  rw [check_used_eq K img sb m hm]
  constructor
  · apply firstBad_dichotomy
    intro a ha
    rw [List.mem_range'_1] at ha
    obtain ⟨dip, hri⟩ := dirReads_inode K img sb hreads a ha.1 (by omega)
    rw [hri]
    dsimp only
    split
    · exact Or.inr rfl
    · exact Or.inl rfl
  · rw [firstBad_ok_iff]
    constructor
    · intro h i dip h1 h2 hri ht
      have := h i (by rw [List.mem_range'_1]; omega)
      rw [hri] at this
      dsimp only at this
      by_cases hmi : m i = 0
      · rw [if_pos ⟨ht, hmi⟩] at this
        cases this
      · exact ((hspec i).2.1 hmi).2.2
    · intro h a ha
      rw [List.mem_range'_1] at ha
      obtain ⟨dip, hri⟩ := dirReads_inode K img sb hreads a ha.1 (by omega)
      rw [hri]
      dsimp only
      by_cases hc : dip.type ≠ 0 ∧ m a = 0
      · have := h a dip ha.1 (by omega) hri hc.1
        exact absurd hc.2 ((hspec a).2.2 ⟨by omega, by omega, this⟩)
      · rw [if_neg hc]

theorem check_dirent_cases_of (K : FsConsts) (img : Image) (sb : Superblock) (m : Nat → Nat)
    (hm : build_inode_reference_map K img sb = .ok m) :
    (check_dirent_refers_to_allocated_inode K img sb = .ok () ∨
      check_dirent_refers_to_allocated_inode K img sb = .fail [Msg.DanglingDirectoryEntry]) ∧
    (check_dirent_refers_to_allocated_inode K img sb = .ok () ↔
      ∀ i dip, 1 ≤ i → i < sb.ninodes → (∃ d, DirNames K img sb d i) →
        read_inode K img sb i = .ok dip → dip.type ≠ 0) := by
  have hreads := build_inode_reference_map_reads K img sb m hm
  have hspec := build_inode_reference_map_spec_of K img sb m hm
  rw [check_dirent_eq K img sb m hm]
  constructor
  · apply firstBad_dichotomy
    intro a ha
    rw [List.mem_range'_1] at ha
    obtain ⟨dip, hri⟩ := dirReads_inode K img sb hreads a ha.1 (by omega)
    rw [hri]
    dsimp only
    split
    · split
      · exact Or.inr rfl
      · exact Or.inl rfl
    · exact Or.inl rfl
  · rw [firstBad_ok_iff]
    constructor
    · intro h i dip h1 h2 hd hri ht
      have := h i (by rw [List.mem_range'_1]; omega)
      rw [if_pos ((hspec i).2.2 ⟨by omega, h2, hd⟩), hri] at this
      dsimp only at this
      rw [if_pos ht] at this
      cases this
    · intro h a ha
      rw [List.mem_range'_1] at ha
      obtain ⟨dip, hri⟩ := dirReads_inode K img sb hreads a ha.1 (by omega)
      by_cases hma : m a ≠ 0
      · rw [if_pos hma, hri]
        dsimp only
        rw [if_neg (h a dip ha.1 (by omega) ((hspec a).2.1 hma).2.2 hri)]
      · rw [if_neg hma]


/-- C5, amended: on an image on which the reads of the call succeed,
`check_used_inode_found_in_directory` succeeds if and only if the
allocation of the map succeeds and every inode `i` of `[1, ninodes)` with
`type != 0` is the target of a non-empty directory entry of some in-use
directory inode of `[1, ninodes)`. When the allocation succeeds it
otherwise fails with "inode marked used but not found in a directory"; when
the allocation fails it fails with no line on the output. The map is
returned if and only if the allocation succeeds. -/
theorem check_used_inode_found_in_directory_spec (K : FsConsts) (img : Image)
    (sb : Superblock) (allocated : Bool) (hreads : DirReads K img sb) :
    (check_used_inode_found_in_directory_alloc K img sb allocated = .ok () ↔
      allocated = true ∧
      ∀ i dip, 1 ≤ i → i < sb.ninodes → read_inode K img sb i = .ok dip → dip.type ≠ 0 →
        ∃ d, DirNames K img sb d i) ∧
    (allocated = true →
      check_used_inode_found_in_directory_alloc K img sb allocated ≠ .ok () →
      check_used_inode_found_in_directory_alloc K img sb allocated =
        .fail [Msg.OrphanInode]) ∧
    (allocated = false →
      check_used_inode_found_in_directory_alloc K img sb allocated = .fail []) ∧
    ((∃ m, build_inode_reference_map_alloc K img sb allocated = .ok m) ↔
      allocated = true) := by
  have hm := build_inode_reference_map_eq_of K img sb hreads
  obtain ⟨h1, h2⟩ := check_used_cases_of K img sb _ hm
  cases allocated with
  | false =>
    refine ⟨⟨fun h => ?_, fun h => ?_⟩, fun h => ?_, fun _ => rfl, ⟨fun h => ?_, fun h => ?_⟩⟩
    · cases h
    · cases h.1
    · cases h
    · obtain ⟨m, h⟩ := h
      cases h
    · cases h
  | true =>
    refine ⟨⟨fun h => ⟨rfl, h2.1 h⟩, fun h => h2.2 h.2⟩, fun _ hne => ?_, fun h => ?_,
      ⟨fun _ => rfl, fun _ => ⟨_, hm⟩⟩⟩
    · rcases h1 with h | h
      · exact absurd h hne
      · exact h
    · cases h

/-- C6, amended: on an image on which the reads of the call succeed,
`check_dirent_refers_to_allocated_inode` succeeds if and only if the
allocation of the map succeeds and every inode number `i` of
`[1, ninodes)` that is the target of a non-empty entry of an in-use
directory inode of `[1, ninodes)` has `type != 0`. When the allocation
succeeds it otherwise fails with "inode referred to in directory but marked
free"; when the allocation fails it fails with no line on the output. When
this check and the used-inode check both pass, the in-use inodes of
`[1, ninodes)` are exactly the directory-named ones. -/
theorem check_dirent_refers_to_allocated_inode_spec (K : FsConsts) (img : Image)
    (sb : Superblock) (allocated : Bool) (hreads : DirReads K img sb) :
    (check_dirent_refers_to_allocated_inode_alloc K img sb allocated = .ok () ↔
      allocated = true ∧
      ∀ i dip, 1 ≤ i → i < sb.ninodes → (∃ d, DirNames K img sb d i) →
        read_inode K img sb i = .ok dip → dip.type ≠ 0) ∧
    (allocated = true →
      check_dirent_refers_to_allocated_inode_alloc K img sb allocated ≠ .ok () →
      check_dirent_refers_to_allocated_inode_alloc K img sb allocated =
        .fail [Msg.DanglingDirectoryEntry]) ∧
    (allocated = false →
      check_dirent_refers_to_allocated_inode_alloc K img sb allocated = .fail []) ∧
    (∀ allocated2,
      check_dirent_refers_to_allocated_inode_alloc K img sb allocated = .ok () →
      check_used_inode_found_in_directory_alloc K img sb allocated2 = .ok () →
      ∀ i dip, 1 ≤ i → i < sb.ninodes → read_inode K img sb i = .ok dip →
        (dip.type ≠ 0 ↔ ∃ d, DirNames K img sb d i)) := by
  have hm := build_inode_reference_map_eq_of K img sb hreads
  obtain ⟨h1, h2⟩ := check_dirent_cases_of K img sb _ hm
  obtain ⟨_, hu2⟩ := check_used_cases_of K img sb _ hm
  cases allocated with
  | false =>
    refine ⟨⟨fun h => ?_, fun h => ?_⟩, fun h => ?_, fun _ => rfl, fun _ h => ?_⟩
    · cases h
    · cases h.1
    · cases h
    · cases h
  | true =>
    refine ⟨⟨fun h => ⟨rfl, h2.1 h⟩, fun h => h2.2 h.2⟩, fun _ hne => ?_, fun h => ?_,
      fun allocated2 hd hu i dip hi1 hi2 hri => ?_⟩
    · rcases h1 with h | h
      · exact absurd h hne
      · exact h
    · cases h
    · cases allocated2 with
      | false => cases hu
      | true =>
        exact ⟨fun ht => hu2.1 hu i dip hi1 hi2 hri ht, fun hn => h2.1 hd i dip hi1 hi2 hn hri⟩

set_option maxRecDepth 100000 in
/-- Witness of C5: under `sb100` the reads succeed on `treeImg` and, the
allocation succeeding, the check passes, so each of its in-use inodes 1, 2
and 3 is named by a directory; on `orphanImg`, where the in-use inode 2 is
named by no entry, the check fails with "inode marked used but not found in
a directory". -/
theorem check_used_inode_found_in_directory_spec_witness :
    DirReads xv6 treeImg sb100 ∧
    check_used_inode_found_in_directory_alloc xv6 treeImg sb100 true = .ok () ∧
    (∀ i dip, 1 ≤ i → i < sb100.ninodes → read_inode xv6 treeImg sb100 i = .ok dip →
      dip.type ≠ 0 → ∃ d, DirNames xv6 treeImg sb100 d i) ∧
    (∃ dip, read_inode xv6 treeImg sb100 2 = .ok dip ∧ dip.type ≠ 0) ∧
    DirReads xv6 orphanImg sb100 ∧
    check_used_inode_found_in_directory_alloc xv6 orphanImg sb100 true =
      .fail [Msg.OrphanInode] :=
  ⟨dirReads_of_allReadable xv6 treeImg sb100 treeImg_readable, by decide,
    ((check_used_inode_found_in_directory_spec xv6 treeImg sb100 true
      (dirReads_of_allReadable xv6 treeImg sb100 treeImg_readable)).1.1 (by decide)).2,
    ⟨_, rfl, by decide⟩,
    dirReads_of_allReadable xv6 orphanImg sb100 orphanImg_readable,
    (check_used_inode_found_in_directory_spec xv6 orphanImg sb100 true
      (dirReads_of_allReadable xv6 orphanImg sb100 orphanImg_readable)).2.1 rfl (by decide)⟩

set_option maxRecDepth 100000 in
/-- Counterexample to C5 as stated: under `sb100` the reads succeed on
`treeImg` and every in-use inode is named by a directory, yet the check
fails, with no line on the output, when `malloc` does not return the array.
So it does on `zeroFile` with `ninodes = 2^32 - 1`, where the
array asked for has `2^32 - 1` elements and no inode is in use. -/
theorem check_used_inode_found_in_directory_counterexample :
    DirReads xv6 treeImg sb100 ∧
    (∀ i dip, 1 ≤ i → i < sb100.ninodes → read_inode xv6 treeImg sb100 i = .ok dip →
      dip.type ≠ 0 → ∃ d, DirNames xv6 treeImg sb100 d i) ∧
    check_used_inode_found_in_directory_alloc xv6 treeImg sb100 false = .fail [] ∧
    DirReads xv6 zeroFile sbMaxInodes ∧
    (∀ i dip, 1 ≤ i → i < sbMaxInodes.ninodes →
      read_inode xv6 zeroFile sbMaxInodes i = .ok dip → dip.type ≠ 0 →
      ∃ d, DirNames xv6 zeroFile sbMaxInodes d i) ∧
    check_used_inode_found_in_directory_alloc xv6 zeroFile sbMaxInodes false = .fail [] := by
  refine ⟨dirReads_of_allReadable xv6 treeImg sb100 treeImg_readable, ?_, rfl,
    zeroFile_dirReads, ?_, rfl⟩
  · exact (check_used_cases_of xv6 treeImg sb100 _
      (build_inode_reference_map_eq xv6 treeImg sb100 treeImg_readable)).2.1 (by decide)
  · intro i dip _ h2 hri ht
    rw [zeroFile_read_inode i (Nat.lt_trans h2 (by decide))] at hri
    rw [← Outcome.ok.inj hri] at ht
    exact absurd rfl ht

set_option maxRecDepth 100000 in
/-- Witness of C6: under `sb100` the reads succeed on `treeImg` and, the
allocations succeeding, both checks pass, so an inode of `[1, ninodes)` is
in use exactly when a directory names it; on `danglingImg`, whose root names
the free inode 2, the check fails with "inode referred to in directory but
marked free". -/
theorem check_dirent_refers_to_allocated_inode_spec_witness :
    DirReads xv6 treeImg sb100 ∧
    check_dirent_refers_to_allocated_inode_alloc xv6 treeImg sb100 true = .ok () ∧
    (∀ i dip, 1 ≤ i → i < sb100.ninodes → read_inode xv6 treeImg sb100 i = .ok dip →
      (dip.type ≠ 0 ↔ ∃ d, DirNames xv6 treeImg sb100 d i)) ∧
    DirReads xv6 danglingImg sb100 ∧
    (∃ dip, read_inode xv6 danglingImg sb100 2 = .ok dip ∧ dip.type = 0) ∧
    check_dirent_refers_to_allocated_inode_alloc xv6 danglingImg sb100 true =
      .fail [Msg.DanglingDirectoryEntry] :=
  ⟨dirReads_of_allReadable xv6 treeImg sb100 treeImg_readable, by decide,
    (check_dirent_refers_to_allocated_inode_spec xv6 treeImg sb100 true
      (dirReads_of_allReadable xv6 treeImg sb100 treeImg_readable)).2.2.2 true
      (by decide) (by decide),
    dirReads_of_allReadable xv6 danglingImg sb100 danglingImg_readable,
    ⟨_, rfl, rfl⟩,
    (check_dirent_refers_to_allocated_inode_spec xv6 danglingImg sb100 true
      (dirReads_of_allReadable xv6 danglingImg sb100 danglingImg_readable)).2.1 rfl
      (by decide)⟩

set_option maxRecDepth 100000 in
/-- Counterexample to C6 as stated: under `sb100` the reads succeed on
`treeImg` and every inode named by a directory is in use, yet the check
fails, with no line on the output, when `malloc` does not return the array.
So it does on `zeroFile` with `ninodes = 2^32 - 1`, where the
array asked for has `2^32 - 1` elements and no directory names an inode. -/
theorem check_dirent_refers_to_allocated_inode_counterexample :
    DirReads xv6 treeImg sb100 ∧
    (∀ i dip, 1 ≤ i → i < sb100.ninodes → (∃ d, DirNames xv6 treeImg sb100 d i) →
      read_inode xv6 treeImg sb100 i = .ok dip → dip.type ≠ 0) ∧
    check_dirent_refers_to_allocated_inode_alloc xv6 treeImg sb100 false = .fail [] ∧
    DirReads xv6 zeroFile sbMaxInodes ∧
    (∀ i dip, 1 ≤ i → i < sbMaxInodes.ninodes →
      (∃ d, DirNames xv6 zeroFile sbMaxInodes d i) →
      read_inode xv6 zeroFile sbMaxInodes i = .ok dip → dip.type ≠ 0) ∧
    check_dirent_refers_to_allocated_inode_alloc xv6 zeroFile sbMaxInodes false =
      .fail [] := by
  refine ⟨dirReads_of_allReadable xv6 treeImg sb100 treeImg_readable, ?_, rfl,
    zeroFile_dirReads, ?_, rfl⟩
  · exact (check_dirent_cases_of xv6 treeImg sb100 _
      (build_inode_reference_map_eq xv6 treeImg sb100 treeImg_readable)).2.1 (by decide)
  · rintro i dip _ _ ⟨d, hd⟩ _
    exact absurd hd (zeroFile_no_names d i)

/-! ## Parent and child consistency, when the reads succeed -/

theorem parent_body_spec_of (K : FsConsts) (img : Image) (sb : Superblock) (d : Nat)
    (dip : Dinode) (hreads : DirReads K img sb) (hT : K.T_DIR ≠ 0) (hd1 : 1 ≤ d)
    (hd2 : d < sb.ninodes) (hri : read_inode K img sb d = .ok dip) :
    (parent_body K img sb d = .ok () ∨ parent_body K img sb d = .fail [Msg.ParentMismatch]) ∧
    (parent_body K img sb d = .ok () ↔
      (d ≠ K.ROOTINO → dip.type = K.T_DIR → ParentOK K img sb d dip)) := by
  unfold parent_body ParentOK
  rw [hri]
  dsimp only
  by_cases hc : dip.type = 0 ∨ is_directory K dip = false
  · rw [if_pos hc]
    refine ⟨Or.inl rfl, fun _ _ ht => ?_, fun _ => rfl⟩
    exfalso
    rcases hc with h | h
    · exact absurd (ht.symm.trans h) hT
    · rw [(is_directory_iff K dip).2 ht] at h
      cases h
  · rw [if_neg hc]
    push_neg at hc
    have hdir : dip.type = K.T_DIR := (is_directory_iff K dip).1 (by simpa using hc.2)
    rw [dirReads_entries K img sb hreads d dip hd1 hd2 hri hc.1 (by simpa using hc.2)]
    dsimp only
    by_cases hroot : d = K.ROOTINO
    · rw [if_pos hroot]
      exact ⟨Or.inl rfl, fun _ h => absurd hroot h, fun _ => rfl⟩
    · rw [if_neg hroot, get_dotdot_inum_buffer]
      cases hf : (diskEntries K img dip).find? (named K dotdotName) with
      | none =>
        dsimp only
        rw [if_pos (Or.inl (by decide))]
        refine ⟨Or.inr rfl, fun h => (by cases h), fun h => ?_⟩
        exfalso
        obtain ⟨entries, e, _, _, h1, h2, _⟩ := h hroot hdir
        rw [← Outcome.ok.inj h1, hf] at h2
        cases h2
      | some e =>
        dsimp only
        by_cases hrange : (e.inum : Int) ≤ 0 ∨ (e.inum : Int).toNat ≥ sb.ninodes
        · rw [if_pos hrange]
          refine ⟨Or.inr rfl, fun h => (by cases h), fun h => ?_⟩
          exfalso
          obtain ⟨entries, e2, _, _, h1, h2, h3, h4, _⟩ := h hroot hdir
          rw [← Outcome.ok.inj h1, hf] at h2
          rw [← Option.some.inj h2] at h3 h4
          simp only [Int.toNat_ofNat] at hrange
          omega
        · rw [if_neg hrange]
          simp only [Int.toNat_ofNat] at hrange ⊢
          have hp1 : 1 ≤ e.inum := by omega
          have hp2 : e.inum < sb.ninodes := by omega
          obtain ⟨pdip, hpri⟩ := dirReads_inode K img sb hreads e.inum hp1 hp2
          unfold is_child_referenced_in_parent
          rw [hpri]
          dsimp only
          by_cases hpd : is_directory K pdip = false
          · rw [if_pos hpd]
            refine ⟨Or.inr rfl, fun h => (by cases h), fun h => ?_⟩
            exfalso
            obtain ⟨entries, e2, pdip2, _, h1, h2, _, _, h5, h6, _⟩ := h hroot hdir
            rw [← Outcome.ok.inj h1, hf] at h2
            rw [← Option.some.inj h2, hpri] at h5
            rw [← Outcome.ok.inj h5] at h6
            rw [(is_directory_iff K pdip).2 h6] at hpd
            cases hpd
          · have hpdir : is_directory K pdip = true := by simpa using hpd
            have hpt : pdip.type ≠ 0 := by
              rw [(is_directory_iff K pdip).1 hpdir]
              exact hT
            have hpe := dirReads_entries K img sb hreads e.inum pdip hp1 hp2 hpri hpt hpdir
            rw [if_neg hpd, hpe]
            dsimp only
            by_cases hany : (diskEntries K img pdip).any (fun c => c.inum == d) = false
            · rw [if_pos hany]
              refine ⟨Or.inr rfl, fun h => (by cases h), fun h => ?_⟩
              exfalso
              obtain ⟨entries, e2, pdip2, pentries, h1, h2, _, _, h5, _, h7, c, hc1, hc2⟩ :=
                h hroot hdir
              rw [← Outcome.ok.inj h1, hf] at h2
              rw [← Option.some.inj h2, hpri] at h5
              rw [← Outcome.ok.inj h5, hpe] at h7
              rw [← Outcome.ok.inj h7] at hc1
              have : (diskEntries K img pdip).any (fun c => c.inum == d) = true :=
                List.any_eq_true.2 ⟨c, hc1, by simp [hc2]⟩
              rw [hany] at this
              cases this
            · rw [if_neg hany]
              refine ⟨Or.inl rfl, fun _ _ _ => ?_, fun _ => rfl⟩
              have hany2 : (diskEntries K img pdip).any (fun c => c.inum == d) = true := by
                simpa using hany
              obtain ⟨c, hc1, hc2⟩ := List.any_eq_true.1 hany2
              exact ⟨_, e, pdip, _, rfl, hf, by omega, by omega, hpri,
                (is_directory_iff K pdip).1 hpdir, hpe, c, hc1, by simpa using hc2⟩

/-- C7: when the reads of the call succeed (every inode record of
`[1, ninodes)` is read and the entries of every in-use directory among them
are enumerated), and with `T_DIR ≠ 0`, `check_parent_directory_mismatch`
succeeds if and only if for every inode number `d` of `[1, ninodes)` other
than `ROOTINO` whose type is `T_DIR`, the first entry named ".." among the
enumerated entries of `d` exists, its target `p` satisfies
`0 < p < ninodes`, inode `p` has type `T_DIR`, and the enumerated entries of
`p` contain an entry with `inum == d`; otherwise the check fails with
"parent directory mismatch". The root is not examined. -/
theorem check_parent_directory_mismatch_spec (K : FsConsts) (img : Image) (sb : Superblock)
    (hreads : DirReads K img sb) (hT : K.T_DIR ≠ 0) :
    (check_parent_directory_mismatch K img sb = .ok () ↔
      ∀ d dip, 1 ≤ d → d < sb.ninodes → d ≠ K.ROOTINO → read_inode K img sb d = .ok dip →
        dip.type = K.T_DIR → ParentOK K img sb d dip) ∧
    (check_parent_directory_mismatch K img sb ≠ .ok () →
      check_parent_directory_mismatch K img sb = .fail [Msg.ParentMismatch]) := by
  rw [check_parent_eq]
  constructor
  · rw [firstBad_ok_iff]
    constructor
    · intro h d dip h1 h2 hroot hri ht
      have := h d (by rw [List.mem_range'_1]; omega)
      exact ((parent_body_spec_of K img sb d dip hreads hT h1 h2 hri).2.1 this) hroot ht
    · intro h a ha
      rw [List.mem_range'_1] at ha
      have ha2 : a < sb.ninodes := by omega
      obtain ⟨dip, hri⟩ := dirReads_inode K img sb hreads a ha.1 ha2
      exact (parent_body_spec_of K img sb a dip hreads hT ha.1 ha2 hri).2.2
        (fun hroot ht => h a dip ha.1 ha2 hroot hri ht)
  · intro hne
    have := firstBad_dichotomy (parent_body K img sb) (List.range' 1 (sb.ninodes - 1))
      [Msg.ParentMismatch] (fun a ha => by
        rw [List.mem_range'_1] at ha
        have ha2 : a < sb.ninodes := by omega
        obtain ⟨dip, hri⟩ := dirReads_inode K img sb hreads a ha.1 ha2
        exact (parent_body_spec_of K img sb a dip hreads hT ha.1 ha2 hri).1)
    rcases this with h | h
    · exact absurd h hne
    · exact h

set_option maxRecDepth 100000 in
/-- Witness of C7: under `sb100` the reads succeed on `treeImg` and the
check passes, so the directory 3, whose ".." names the root, has a
consistent parent link; on `orphanImg`, whose root does not list the
directory 3, the check fails with "parent directory mismatch". -/
theorem check_parent_directory_mismatch_spec_witness :
    DirReads xv6 treeImg sb100 ∧ xv6.T_DIR ≠ 0 ∧
    check_parent_directory_mismatch xv6 treeImg sb100 = .ok () ∧
    ParentOK xv6 treeImg sb100 3 (treeInodeBlock.dinodes 3) ∧
    DirReads xv6 orphanImg sb100 ∧
    check_parent_directory_mismatch xv6 orphanImg sb100 = .fail [Msg.ParentMismatch] :=
  ⟨dirReads_of_allReadable xv6 treeImg sb100 treeImg_readable, by decide, by decide,
    (check_parent_directory_mismatch_spec xv6 treeImg sb100
      (dirReads_of_allReadable xv6 treeImg sb100 treeImg_readable) (by decide)).1.1
      (by decide) 3 (treeInodeBlock.dinodes 3) (by decide) (by decide) (by decide) rfl
      (by decide),
    dirReads_of_allReadable xv6 orphanImg sb100 orphanImg_readable,
    (check_parent_directory_mismatch_spec xv6 orphanImg sb100
      (dirReads_of_allReadable xv6 orphanImg sb100 orphanImg_readable) (by decide)).2
      (by decide)⟩

/-! ## Inode reference map, with its allocation -/

theorem dirNames_iff_of (K : FsConsts) (img : Image) (sb : Superblock) (n : Nat)
    (hreads : DirReads K img sb) (hT : K.T_DIR ≠ 0) :
    (∃ d, DirNames K img sb d n) ↔
      ∃ d dip entries e, 1 ≤ d ∧ d < sb.ninodes ∧ read_inode K img sb d = .ok dip ∧
        dip.type = K.T_DIR ∧
        read_all_dirents K img sb dip (MAX_DIRENT_COUNT K) = .ok entries ∧
        e ∈ entries ∧ e.inum = n := by
  constructor
  · rintro ⟨d, h1, h2, dip, hri, ht, hdir, e, he, hn⟩
    exact ⟨d, dip, _, e, h1, h2, hri, (is_directory_iff K dip).1 hdir,
      dirReads_entries K img sb hreads d dip h1 h2 hri ht hdir, he, hn⟩
  · rintro ⟨d, dip, entries, e, h1, h2, hri, ht, hra, he, hn⟩
    rw [read_all_dirents_ok_eq K img sb dip entries hra] at he
    exact ⟨d, h1, h2, dip, hri, by rw [ht]; exact hT, (is_directory_iff K dip).2 ht, e, he, hn⟩

/-- C11, amended: with `T_DIR ≠ 0`, `build_inode_reference_map` returns an
array when the allocation succeeds and the reads of the call succeed, and
returns `NULL` when the allocation fails; when an array is returned the
allocation and the reads have succeeded. Every array returned has slot `n`
equal to 1 if and only if `0 < n < ninodes` and some inode `d` of
`[1, ninodes)` of type `T_DIR` has an enumerated entry with `inum == n`, and
equal to 0 otherwise; slot 0 is 0. The type of inode `n` plays no part. -/
theorem build_inode_reference_map_slots (K : FsConsts) (img : Image) (sb : Superblock)
    (allocated : Bool) (hT : K.T_DIR ≠ 0) :
    (∀ m, build_inode_reference_map_alloc K img sb allocated = .ok m →
      allocated = true ∧ DirReads K img sb ∧ m 0 = 0 ∧
      ∀ n, (m n = 0 ∨ m n = 1) ∧
        (m n = 1 ↔ 0 < n ∧ n < sb.ninodes ∧
          ∃ d dip entries e, 1 ≤ d ∧ d < sb.ninodes ∧ read_inode K img sb d = .ok dip ∧
            dip.type = K.T_DIR ∧
            read_all_dirents K img sb dip (MAX_DIRENT_COUNT K) = .ok entries ∧
            e ∈ entries ∧ e.inum = n)) ∧
    (allocated = true → DirReads K img sb →
      ∃ m, build_inode_reference_map_alloc K img sb allocated = .ok m) ∧
    (allocated = false → build_inode_reference_map_alloc K img sb allocated = .fail []) := by
  refine ⟨fun m hm => ?_, fun ha hreads => ?_, fun ha => ?_⟩
  · cases allocated with
    | false => cases hm
    | true =>
      have hm2 : build_inode_reference_map K img sb = .ok m := hm
      have hreads := build_inode_reference_map_reads K img sb m hm2
      have hspec := build_inode_reference_map_spec_of K img sb m hm2
      refine ⟨rfl, hreads, ?_, fun n => ⟨(hspec n).1, ?_⟩⟩
      · rcases (hspec 0).1 with h | h
        · exact h
        · have := (hspec 0).2.1 (by omega)
          omega
      · rw [← dirNames_iff_of K img sb n hreads hT]
        constructor
        · intro h1
          exact (hspec n).2.1 (by omega)
        · intro h
          have := (hspec n).2.2 h
          rcases (hspec n).1 with h0 | h1
          · exact absurd h0 this
          · exact h1
  · subst ha
    exact ⟨_, build_inode_reference_map_eq_of K img sb hreads⟩
  · subst ha
    rfl

set_option maxRecDepth 100000 in
/-- Witness of C11: under `sb100` the root of `danglingImg` names inode 2,
which is free; the reads succeed, the map is returned, slot 0 is 0 and slot
2 is 1. -/
theorem build_inode_reference_map_slots_witness :
    xv6.T_DIR ≠ 0 ∧ DirReads xv6 danglingImg sb100 ∧
    (∃ dip, read_inode xv6 danglingImg sb100 2 = .ok dip ∧ dip.type = 0) ∧
    ∃ m, build_inode_reference_map_alloc xv6 danglingImg sb100 true = .ok m ∧ m 0 = 0 ∧
      m 2 = 1 ∧ m 3 = 0 := by
  have hreads := dirReads_of_allReadable xv6 danglingImg sb100 danglingImg_readable
  have h := build_inode_reference_map_slots xv6 danglingImg sb100 true (by decide)
  obtain ⟨m, hm⟩ := h.2.1 rfl hreads
  obtain ⟨_, _, h0, hn⟩ := h.1 m hm
  refine ⟨by decide, hreads, ⟨_, rfl, rfl⟩, m, hm, h0, ?_, ?_⟩
  · refine (hn 2).2.2 ⟨by decide, by decide, 1, rootInodeBlock.dinodes 1,
      [dotEntry 1, dotdotEntry 1, fileEntry 2], fileEntry 2, by decide, by decide, rfl, rfl,
      rfl, ?_, rfl⟩
    exact List.Mem.tail _ (List.Mem.tail _ (List.Mem.head _))
  · rcases (hn 3).1 with h3 | h3
    · exact h3
    · exfalso
      obtain ⟨_, _, d, dip, entries, e, hd1, hd2, hri, ht, hra, he, hinum⟩ := (hn 3).2.1 h3
      have hmap := build_inode_reference_map_eq xv6 danglingImg sb100 danglingImg_readable
      have hm2 : build_inode_reference_map xv6 danglingImg sb100 = .ok m := hm
      rw [hm2] at hmap
      have h3' : m 3 = 1 := h3
      rw [Outcome.ok.inj hmap] at h3'
      revert h3'
      decide

/-- Counterexample to C11 as stated: under `sb100` the reads succeed on
`danglingImg`, yet the function returns no array when `malloc` does not
return one. So it does on `zeroFile` with `ninodes = 2^32 - 1`,
where the array asked for has `2^32 - 1` elements. -/
theorem build_inode_reference_map_counterexample :
    DirReads xv6 danglingImg sb100 ∧
    build_inode_reference_map_alloc xv6 danglingImg sb100 false = .fail [] ∧
    (¬ ∃ m, build_inode_reference_map_alloc xv6 danglingImg sb100 false = .ok m) ∧
    DirReads xv6 zeroFile sbMaxInodes ∧
    build_inode_reference_map_alloc xv6 zeroFile sbMaxInodes false = .fail [] ∧
    ¬ ∃ m, build_inode_reference_map_alloc xv6 zeroFile sbMaxInodes false = .ok m := by
  refine ⟨dirReads_of_allReadable xv6 danglingImg sb100 danglingImg_readable, rfl, ?_,
    zeroFile_dirReads, rfl, ?_⟩
  · rintro ⟨m, hm⟩
    cases hm
  · rintro ⟨m, hm⟩
    cases hm

theorem build_inode_reference_map_congr (K : FsConsts) (img1 img2 : Image) (sb : Superblock)
    (m1 m2 : Nat → Nat) (hm1 : build_inode_reference_map K img1 sb = .ok m1)
    (hm2 : build_inode_reference_map K img2 sb = .ok m2)
    (hset : ∀ i, 0 < i → i < sb.ninodes →
      ((∃ d, DirNames K img1 sb d i) ↔ ∃ d, DirNames K img2 sb d i)) (n : Nat) :
    m1 n = m2 n := by
  have s1 := build_inode_reference_map_spec_of K img1 sb m1 hm1 n
  have s2 := build_inode_reference_map_spec_of K img2 sb m2 hm2 n
  have hiff : m1 n ≠ 0 ↔ m2 n ≠ 0 := by
    rw [s1.2, s2.2]
    constructor
    · rintro ⟨h0, hn, hd⟩
      exact ⟨h0, hn, (hset n h0 hn).1 hd⟩
    · rintro ⟨h0, hn, hd⟩
      exact ⟨h0, hn, (hset n h0 hn).2 hd⟩
  rcases s1.1 with a | a <;> rcases s2.1 with b | b
  · rw [a, b]
  · exact absurd a (hiff.2 (by rw [b]; decide))
  · exact absurd b (hiff.1 (by rw [a]; decide))
  · rw [a, b]

theorem out_of_range_core (K : FsConsts) (img1 img2 : Image) (sb : Superblock)
    (m1 m2 : Nat → Nat) (hm1 : build_inode_reference_map K img1 sb = .ok m1)
    (hm2 : build_inode_reference_map K img2 sb = .ok m2)
    (hin : ∀ n, 1 ≤ n → n < sb.ninodes → read_inode K img1 sb n = read_inode K img2 sb n)
    (hset : ∀ i, 0 < i → i < sb.ninodes →
      ((∃ d, DirNames K img1 sb d i) ↔ ∃ d, DirNames K img2 sb d i)) :
    (∀ entries referenced, mark_entries sb entries referenced =
      mark_entries sb (entries.filter (fun e => decide (e.inum < sb.ninodes))) referenced) ∧
    (∀ n, m1 n = m2 n) ∧
    check_dirent_refers_to_allocated_inode K img1 sb =
      check_dirent_refers_to_allocated_inode K img2 sb ∧
    check_used_inode_found_in_directory K img1 sb =
      check_used_inode_found_in_directory K img2 sb ∧
    (∀ out, check_dirent_refers_to_allocated_inode K img1 sb = .fail out →
      out = [Msg.DanglingDirectoryEntry] ∧
      ∃ i dip, 1 ≤ i ∧ i < sb.ninodes ∧ (∃ d, DirNames K img1 sb d i) ∧
        read_inode K img1 sb i = .ok dip ∧ dip.type = 0) := by
  have hm := build_inode_reference_map_congr K img1 img2 sb m1 m2 hm1 hm2 hset
  refine ⟨mark_entries_filter sb, hm, ?_, ?_, ?_⟩
  · rw [check_dirent_eq K img1 sb m1 hm1, check_dirent_eq K img2 sb m2 hm2]
    apply firstBad_congr
    intro a ha
    obtain ⟨h1, h2⟩ := mem_range_one _ _ ha
    simp only [hm a, hin a h1 h2]
  · rw [check_used_eq K img1 sb m1 hm1, check_used_eq K img2 sb m2 hm2]
    apply firstBad_congr
    intro a ha
    obtain ⟨h1, h2⟩ := mem_range_one _ _ ha
    simp only [hm a, hin a h1 h2]
  · intro out hout
    obtain ⟨hc, hiff⟩ := check_dirent_cases_of K img1 sb m1 hm1
    have hne : check_dirent_refers_to_allocated_inode K img1 sb ≠ .ok () := by
      rw [hout]
      simp
    constructor
    · rcases hc with h | h
      · exact absurd h hne
      · rw [hout] at h
        exact Outcome.fail.inj h
    · by_contra hno
      apply hne
      rw [hiff]
      intro i dip h1 h2 hd hri ht
      exact hno ⟨i, dip, h1, h2, hd, hri, ht⟩

/-- C21: `build_inode_reference_map` ignores the entries whose target is at
or above `ninodes`: marking a list of entries gives the same array as
marking those of its entries whose target is below `ninodes`. So for two
images on which the reads of the call succeed, with the same inode records
in `[1, ninodes)` and the same set of in-range targets named by
directories, and with the same outcome of the allocation, the two maps are
equal, or none is returned, and `check_dirent_refers_to_allocated_inode`
and `check_used_inode_found_in_directory` give the same result; and
whenever a dangling directory entry is reported, some directory names a
free inode of `[1, ninodes)`. -/
theorem out_of_range_entries_ignored (K : FsConsts) (img1 img2 : Image) (sb : Superblock)
    (allocated : Bool) (hr1 : DirReads K img1 sb) (hr2 : DirReads K img2 sb)
    (hin : ∀ n, 1 ≤ n → n < sb.ninodes → read_inode K img1 sb n = read_inode K img2 sb n)
    (hset : ∀ i, 0 < i → i < sb.ninodes →
      ((∃ d, DirNames K img1 sb d i) ↔ ∃ d, DirNames K img2 sb d i)) :
    (∀ entries referenced, mark_entries sb entries referenced =
      mark_entries sb (entries.filter (fun e => decide (e.inum < sb.ninodes))) referenced) ∧
    (allocated = true →
      ∃ m1 m2, build_inode_reference_map_alloc K img1 sb allocated = .ok m1 ∧
        build_inode_reference_map_alloc K img2 sb allocated = .ok m2 ∧ ∀ n, m1 n = m2 n) ∧
    (allocated = false →
      build_inode_reference_map_alloc K img1 sb allocated = .fail [] ∧
      build_inode_reference_map_alloc K img2 sb allocated = .fail []) ∧
    check_dirent_refers_to_allocated_inode_alloc K img1 sb allocated =
      check_dirent_refers_to_allocated_inode_alloc K img2 sb allocated ∧
    check_used_inode_found_in_directory_alloc K img1 sb allocated =
      check_used_inode_found_in_directory_alloc K img2 sb allocated ∧
    (∀ out, check_dirent_refers_to_allocated_inode_alloc K img1 sb allocated = .fail out →
      (allocated = false ∧ out = []) ∨
      (out = [Msg.DanglingDirectoryEntry] ∧
        ∃ i dip, 1 ≤ i ∧ i < sb.ninodes ∧ (∃ d, DirNames K img1 sb d i) ∧
          read_inode K img1 sb i = .ok dip ∧ dip.type = 0)) := by
  have hm1 := build_inode_reference_map_eq_of K img1 sb hr1
  have hm2 := build_inode_reference_map_eq_of K img2 sb hr2
  obtain ⟨c1, c2, c3, c4, c5⟩ := out_of_range_core K img1 img2 sb _ _ hm1 hm2 hin hset
  cases allocated with
  | false =>
    refine ⟨c1, fun h => ?_, fun _ => ⟨rfl, rfl⟩, rfl, rfl, fun out hout => Or.inl ⟨rfl, ?_⟩⟩
    · cases h
    · exact (Outcome.fail.inj hout).symm
  | true =>
    refine ⟨c1, fun _ => ⟨_, _, hm1, hm2, c2⟩, fun h => ?_, c3, c4,
      fun out hout => Or.inr (c5 out hout)⟩
    cases h

set_option maxRecDepth 100000 in
theorem strayImg_same_targets (i : Nat) (h0 : 0 < i) (hi : i < sb100.ninodes) :
    (∃ d, DirNames xv6 treeImg sb100 d i) ↔ ∃ d, DirNames xv6 strayImg sb100 d i := by
  obtain ⟨m1, hm1, s1⟩ := build_inode_reference_map_spec xv6 treeImg sb100 treeImg_readable
  obtain ⟨m2, hm2, s2⟩ := build_inode_reference_map_spec xv6 strayImg sb100 strayImg_readable
  have hag : mapsAgree (build_inode_reference_map xv6 treeImg sb100)
      (build_inode_reference_map xv6 strayImg sb100) 32 = true := by decide
  rw [hm1, hm2] at hag
  simp only [mapsAgree, List.all_eq_true, List.mem_range, beq_iff_eq] at hag
  have e := hag i hi
  have a1 := (s1 i).2
  have a2 := (s2 i).2
  rw [e] at a1
  constructor
  · intro hd
    exact (a2.1 (a1.2 ⟨h0, hi, hd⟩)).2.2
  · intro hd
    exact (a1.1 (a2.2 ⟨h0, hi, hd⟩)).2.2

set_option maxRecDepth 100000 in
/-- Witness of C21: `strayImg` is `treeImg` with one more entry in the root
directory, whose target 500 is no inode number of `sb100`; the reads succeed
on both, the two checks give the same result on both, and the entry is not
reported. -/
theorem out_of_range_entries_ignored_witness :
    DirReads xv6 treeImg sb100 ∧ DirReads xv6 strayImg sb100 ∧
    (diskEntries xv6 treeImg (treeInodeBlock.dinodes 1)).map Dirent.inum = [1, 1, 2, 3] ∧
    (diskEntries xv6 strayImg (treeInodeBlock.dinodes 1)).map Dirent.inum = [1, 1, 2, 3, 500] ∧
    sb100.ninodes ≤ 500 ∧
    check_dirent_refers_to_allocated_inode_alloc xv6 treeImg sb100 true =
      check_dirent_refers_to_allocated_inode_alloc xv6 strayImg sb100 true ∧
    check_used_inode_found_in_directory_alloc xv6 treeImg sb100 true =
      check_used_inode_found_in_directory_alloc xv6 strayImg sb100 true ∧
    check_dirent_refers_to_allocated_inode_alloc xv6 strayImg sb100 true = .ok () ∧
    check_used_inode_found_in_directory_alloc xv6 strayImg sb100 true = .ok () := by
  have hr1 := dirReads_of_allReadable xv6 treeImg sb100 treeImg_readable
  have hr2 := dirReads_of_allReadable xv6 strayImg sb100 strayImg_readable
  have h := out_of_range_entries_ignored xv6 treeImg strayImg sb100 true hr1 hr2
    (fun n _ hn => strayImg_read_inode n hn) strayImg_same_targets
  exact ⟨hr1, hr2, by decide, by decide, by decide, h.2.2.2.1, h.2.2.2.2.1, by decide,
    by decide⟩

/-! ## Directory entry enumerator, when its reads succeed -/

theorem read_all_dirents_step_eq_of (K : FsConsts) (img : Image) (max a : Nat)
    (entries : List Dirent) (hr : a ≠ 0 → ∃ blk, rblock img a = some blk) :
    read_all_dirents_step K img max a entries =
      .ok (entries ++ (dirBlockEntries K img a).take (max - entries.length)) := by
  unfold read_all_dirents_step dirBlockEntries
  by_cases h0 : a = 0
  · simp [h0]
  · obtain ⟨blk, hb⟩ := hr h0
    simp only [h0, if_false, read_dirent_block_eq K img a _ blk hb, hb]

theorem forLoop_steps_of (K : FsConsts) (img : Image) (max : Nat) (g : Nat → Nat)
    (n i0 : Nat)
    (hr : ∀ i, i0 ≤ i → i < i0 + n → g i ≠ 0 → ∃ blk, rblock img (g i) = some blk)
    (acc : List Dirent) (hacc : acc.length ≤ max) :
    forLoop (fun entries => decide (entries.length < max))
      (fun i entries => read_all_dirents_step K img max (g i) entries) n i0 acc =
    .ok (acc ++ (((List.range' i0 n).map g).flatMap (dirBlockEntries K img)).take
      (max - acc.length)) := by
  induction n generalizing i0 acc with
  | zero => simp [forLoop]
  | succ n ih =>
    simp only [forLoop, List.range', List.map_cons, List.flatMap_cons]
    by_cases hlt : acc.length < max
    · simp only [hlt, decide_True, if_true,
        read_all_dirents_step_eq_of K img max (g i0) acc (hr i0 le_rfl (by omega))]
      rw [ih (i0 + 1) (fun i h1 h2 => hr i (by omega) (by omega)) _
        (by simp [List.length_take]; omega)]
      rw [List.take_append_eq_append_take, List.append_assoc]
      have hlen : max - (acc ++ List.take (max - acc.length) (dirBlockEntries K img (g i0))).length =
          max - acc.length - (dirBlockEntries K img (g i0)).length := by
        simp only [List.length_append, List.length_take]
        omega
      rw [hlen]
    · have : max - acc.length = 0 := by omega
      simp [hlt, this]

theorem read_all_dirents_eq_take_of (K : FsConsts) (img : Image) (sb : Superblock)
    (dip : Dinode) (max : Nat) (hr : DirBlocksReadable K img dip) :
    read_all_dirents K img sb dip max = .ok ((diskEntries K img dip).take max) := by
  unfold read_all_dirents diskEntries dirAddrSeq
  rw [forLoop_steps_of K img max dip.addrs K.NDIRECT 0
    (fun i _ h2 h0 => hr.1 i (by omega) h0) [] (by simp), ← List.range_eq_range']
  simp only [List.nil_append, List.length_nil, Nat.sub_zero, List.flatMap_append]
  rw [List.take_append_eq_append_take]
  by_cases h0 : dip.addrs K.NDIRECT = 0
  · simp [h0]
  · obtain ⟨blk, hb, hent⟩ := hr.2 h0
    simp only [h0, ne_eq, not_false_eq_true, true_and, if_false, hb]
    by_cases hlt : (List.take max (((List.range K.NDIRECT).map dip.addrs).flatMap
        (dirBlockEntries K img))).length < max
    · rw [if_pos hlt, forLoop_steps_of K img max blk.words K.NINDIRECT 0
        (fun i _ h2 hw => hent i (by omega) hw) _ (by omega), ← List.range_eq_range']
      congr 2
      simp only [List.length_take] at hlt ⊢
      congr 1
      omega
    · rw [if_neg hlt]
      simp only [List.length_take] at hlt
      have : max - (((List.range K.NDIRECT).map dip.addrs).flatMap
          (dirBlockEntries K img)).length = 0 := by omega
      rw [this, List.take_zero, List.append_nil]

theorem read_all_dirents_ok_take (K : FsConsts) (img : Image) (sb : Superblock) (dip : Dinode)
    (max : Nat) (es : List Dirent) (h : read_all_dirents K img sb dip max = .ok es) :
    es = (diskEntries K img dip).take max := by
  have h1 := read_all_dirents_mono K img sb dip max es h
  rw [read_all_dirents_eq_take K (totalize img) sb dip max (totalize_readable img)] at h1
  rw [← diskEntries_totalize K img dip]
  exact (Outcome.ok.inj h1).symm

/-- C12: whenever `read_all_dirents` with capacity `max_entries` returns a
list, that is whenever the reads it made succeeded, the list is exactly
the first `min(max_entries, N)` elements of the list `L` of the non-empty
entries of the inode's blocks (`listedEntries`), `N` being the length of
`L`; and it does return that list when the blocks of the inode can be read.
The returned count never exceeds `max_entries`. -/
theorem read_all_dirents_take (K : FsConsts) (img : Image) (sb : Superblock) (dip : Dinode)
    (max_entries : Nat) :
    (∀ es, read_all_dirents K img sb dip max_entries = .ok es →
      es = (listedEntries K img dip).take max_entries) ∧
    (DirBlocksReadable K img dip →
      read_all_dirents K img sb dip max_entries =
        .ok ((listedEntries K img dip).take max_entries)) ∧
    ((listedEntries K img dip).take max_entries).length =
      min max_entries (listedEntries K img dip).length ∧
    ((listedEntries K img dip).take max_entries).length ≤ max_entries := by
  rw [← diskEntries_eq_listedEntries]
  refine ⟨fun es h => read_all_dirents_ok_take K img sb dip max_entries es h,
    fun hr => read_all_dirents_eq_take_of K img sb dip max_entries hr, List.length_take _ _, ?_⟩
  rw [List.length_take]
  exact Nat.min_le_left _ _

theorem shortImg_dir_readable : DirBlocksReadable xv6 shortImg (rootInodeBlock.dinodes 1) := by
  constructor
  · intro i _ h0
    by_cases hi : i = 0
    · subst hi
      exact ⟨twoDotsBlock, rfl⟩
    · exfalso
      apply h0
      show (if i = 0 then 60 else 0) = 0
      rw [if_neg hi]
  · intro h0
    exact absurd rfl h0

set_option maxRecDepth 100000 in
/-- Witness of C12: `shortImg` is a file of 61 blocks, whose block 61 cannot
be read; with capacity 2 its directory 1, whose block 60 holds three
entries, yields the first two. -/
theorem read_all_dirents_take_witness :
    rblock shortImg 61 = none ∧
    DirBlocksReadable xv6 shortImg (rootInodeBlock.dinodes 1) ∧
    read_all_dirents xv6 shortImg sb100 (rootInodeBlock.dinodes 1) 2 =
      .ok ((listedEntries xv6 shortImg (rootInodeBlock.dinodes 1)).take 2) ∧
    (listedEntries xv6 shortImg (rootInodeBlock.dinodes 1)).length = 3 ∧
    ((listedEntries xv6 shortImg (rootInodeBlock.dinodes 1)).take 2).length = 2 :=
  ⟨rfl, shortImg_dir_readable,
    (read_all_dirents_take xv6 shortImg sb100 (rootInodeBlock.dinodes 1) 2).2.1
      shortImg_dir_readable, by decide, by decide⟩

/-! ## Block reference map, when its reads succeed -/

theorem inode_step_ok_iff_reads (K : FsConsts) (img : Image) (sb : Superblock) (n : Nat) :
    inode_step K img sb n = .ok () ↔
      ∃ dip, read_inode K img sb n = .ok dip ∧
        (dip.type ≠ 0 → check_inode_blocks K img sb dip = .ok ()) := by
  unfold inode_step
  cases hri : read_inode K img sb n with
  | fail out => simp
  | undefined => simp
  | ok dip =>
    dsimp only
    constructor
    · intro h
      refine ⟨dip, rfl, fun ht => ?_⟩
      rw [if_neg ht] at h
      exact h
    · rintro ⟨dip2, h2, h3⟩
      rw [← Outcome.ok.inj h2] at h3
      by_cases ht : dip.type = 0
      · rw [if_pos ht]
      · rw [if_neg ht]
        exact h3 ht

theorem check_all_inodes_loop_none_of (K : FsConsts) (img : Image) (sb : Superblock)
    (hmax : 4294967295 ≤ sb.ninodes)
    (hstep : ∀ n, n < 4294967296 → inode_step K img sb n = .ok ())
    (fuel inum : Nat) (hi : inum < 4294967296) :
    check_all_inodes_loop K img sb fuel inum = none := by
  induction fuel generalizing inum with
  | zero => rfl
  | succ f ih =>
    rw [check_all_inodes_loop_succ, if_pos (by omega), hstep inum hi]
    exact ih _ (Nat.mod_lt _ (by decide))

/-- C15, amended: with `ninodes < 2^32 - 1`, `check_all_inodes` returns, and
it succeeds if and only if every inode record numbered 1 through `ninodes`
inclusive is read and, when its `type != 0`, passes `check_inode_blocks`;
otherwise it fails. So on an image on which these records are read it
succeeds if and only if `check_inode_blocks` succeeds for every record
numbered 1 through `ninodes` inclusive whose `type != 0`. In particular it
fails when the in-use record read at number `ninodes` does not pass,
whatever the records `1 .. ninodes-1` hold. -/
theorem check_all_inodes_spec (K : FsConsts) (img : Image) (sb : Superblock)
    (hn : sb.ninodes + 1 < 4294967296) :
    ∃ r, (∀ fuel, sb.ninodes < fuel → check_all_inodes K img sb fuel = some r) ∧
      (r = .ok () ∨ ∃ out, r = .fail out) ∧
      (r = .ok () ↔
        ∀ n, 1 ≤ n → n ≤ sb.ninodes → ∃ dip, read_inode K img sb n = .ok dip ∧
          (dip.type ≠ 0 → check_inode_blocks K img sb dip = .ok ())) ∧
      ((∀ n, 1 ≤ n → n ≤ sb.ninodes → ∃ dip, read_inode K img sb n = .ok dip) →
        (r = .ok () ↔
          ∀ n dip, 1 ≤ n → n ≤ sb.ninodes → read_inode K img sb n = .ok dip → dip.type ≠ 0 →
            check_inode_blocks K img sb dip = .ok ())) ∧
      ((1 ≤ sb.ninodes ∧ ∃ dip, read_inode K img sb sb.ninodes = .ok dip ∧ dip.type ≠ 0 ∧
          check_inode_blocks K img sb dip ≠ .ok ()) → ∃ out, r = .fail out) := by
  have hiff : firstBad (inode_step K img sb) (List.range' 1 sb.ninodes) = .ok () ↔
      ∀ n, 1 ≤ n → n ≤ sb.ninodes → ∃ dip, read_inode K img sb n = .ok dip ∧
        (dip.type ≠ 0 → check_inode_blocks K img sb dip = .ok ()) := by
    rw [firstBad_ok_iff]
    constructor
    · intro h n h1 h2
      exact (inode_step_ok_iff_reads K img sb n).1 (h n (by rw [List.mem_range'_1]; omega))
    · intro h n hm
      rw [List.mem_range'_1] at hm
      exact (inode_step_ok_iff_reads K img sb n).2 (h n hm.1 (by omega))
  have hcases : firstBad (inode_step K img sb) (List.range' 1 sb.ninodes) = .ok () ∨
      ∃ out, firstBad (inode_step K img sb) (List.range' 1 sb.ninodes) = .fail out := by
    cases hf : firstBad (inode_step K img sb) (List.range' 1 sb.ninodes) with
    | ok u => exact Or.inl rfl
    | fail out => exact Or.inr ⟨out, rfl⟩
    | undefined =>
      exact absurd hf (firstBad_ne_undef _ _ (fun a _ => inode_step_ne_undefined K img sb a))
  refine ⟨firstBad (inode_step K img sb) (List.range' 1 sb.ninodes), fun fuel hf => ?_, hcases,
    hiff, fun hread => ?_, ?_⟩
  · exact check_all_inodes_loop_eq K img sb hn sb.ninodes 1 fuel (by omega) hf
  · rw [hiff]
    constructor
    · intro h n dip h1 h2 hri ht
      obtain ⟨dip2, hri2, hc⟩ := h n h1 h2
      rw [hri] at hri2
      rw [← Outcome.ok.inj hri2] at hc
      exact hc ht
    · intro h n h1 h2
      obtain ⟨dip, hri⟩ := hread n h1 h2
      exact ⟨dip, hri, fun ht => h n dip h1 h2 hri ht⟩
  · rintro ⟨h1, dip, hri, ht, hbad⟩
    rcases hcases with hok | hfail
    · exfalso
      obtain ⟨dip2, hri2, hc⟩ := hiff.1 hok sb.ninodes h1 le_rfl
      rw [hri] at hri2
      rw [← Outcome.ok.inj hri2] at hc
      exact hbad (hc ht)
    · exact hfail

set_option maxRecDepth 100000 in
/-- Witness of C15: under `sb100`, on the first 100 blocks of `pastEndImg`
stored as a file the records 1 to 31 are free, the record numbered 32 is
read from block 7, is in use and holds the address 200, and
`check_all_inodes` fails with "bad address in inode". -/
theorem check_all_inodes_spec_witness :
    sb100.ninodes + 1 < 4294967296 ∧
    (∀ n, n < sb100.ninodes → inode_step xv6 (truncate 100 pastEndImg) sb100 n = .ok ()) ∧
    read_inode xv6 (truncate 100 pastEndImg) sb100 32 = .ok (pastEndBlock.dinodes 0) ∧
    check_all_inodes xv6 (truncate 100 pastEndImg) sb100 33 = some (.fail [Msg.BadAddress]) ∧
    ∃ r, (∀ fuel, sb100.ninodes < fuel →
        check_all_inodes xv6 (truncate 100 pastEndImg) sb100 fuel = some r) ∧
      ∃ out, r = .fail out := by
  refine ⟨by decide, by decide, rfl, by decide, ?_⟩
  obtain ⟨r, h1, _, _, _, h4⟩ :=
    check_all_inodes_spec xv6 (truncate 100 pastEndImg) sb100 (by decide)
  exact ⟨r, h1, h4 ⟨by decide, pastEndBlock.dinodes 0, rfl, by decide, by decide⟩⟩

/-- Counterexample to C15 as stated: with `ninodes = 2^32 - 1`, on
`zeroFile`, a file of zero blocks as `rblock` presents it, every inode record
numbered 1 through `ninodes` is read and is free, so every one of them
passes, yet `check_all_inodes` does not return: the counter, a `uint`, never
exceeds `ninodes`. -/
theorem check_all_inodes_counterexample :
    HighBlocksFail zeroFile ∧ SameOffsetSameBlock xv6 zeroFile ∧
    (∀ n, 1 ≤ n → n ≤ sbMaxInodes.ninodes →
      ∃ dip, read_inode xv6 zeroFile sbMaxInodes n = .ok dip ∧ dip.type = 0) ∧
    (∀ n dip, 1 ≤ n → n ≤ sbMaxInodes.ninodes →
      read_inode xv6 zeroFile sbMaxInodes n = .ok dip → dip.type ≠ 0 →
      check_inode_blocks xv6 zeroFile sbMaxInodes dip = .ok ()) ∧
    ¬ ∃ fuel r, check_all_inodes xv6 zeroFile sbMaxInodes fuel = some r := by
  have hle : ∀ n, n ≤ sbMaxInodes.ninodes → n < 4294967296 := fun n h =>
    Nat.lt_of_le_of_lt h (by decide)
  refine ⟨truncate_highBlocksFail _ _, truncate_sameOffset _ _, ?_, ?_, ?_⟩
  · intro n _ h2
    exact ⟨_, zeroFile_read_inode n (hle n h2), rfl⟩
  · intro n dip _ h2 hri ht
    rw [zeroFile_read_inode n (hle n h2)] at hri
    rw [← Outcome.ok.inj hri] at ht
    exact absurd rfl ht
  · rintro ⟨fuel, r, h⟩
    have hstep : ∀ n, n < 4294967296 → inode_step xv6 zeroFile sbMaxInodes n = .ok () := by
      intro n hn
      rw [inode_step_ok_iff_reads]
      exact ⟨_, zeroFile_read_inode n hn, fun ht => absurd rfl ht⟩
    have := check_all_inodes_loop_none_of xv6 zeroFile sbMaxInodes (by decide) hstep fuel 1
      (by decide)
    unfold check_all_inodes at h
    rw [this] at h
    cases h

/-! ## Orchestrator, as specified -/

end Chkfs
